import Mathlib

/-!
# Handyman API: ownership, uniqueness, aggregation and composite writes

A shallow embedding of the request handlers of `src/controllers` over an explicit
relational store.  Every handler is a total function from an environment, a store
and a request to the store afterwards and the outcome the caller observes.

* A JavaScript value that reaches a handler as an id is a `JsVal`; `parseInt` and the
  storage engine's integer input (`pgInt4`) are embedded separately because the
  handlers use both.
* The storage engine is sequential.  Its failures that do not come from the data
  (connection loss and the like) are supplied by the environment: `Env.faults k` is
  the error with which the `k`-th statement of a request fails, if any.
* JavaScript numbers are embedded as exact integers and SQL `numeric` as `ℚ`.
-/

namespace HandymanApi

/-! ## JavaScript values and the two integer readings used by the handlers -/

/-- A JSON or URL value as a handler receives it; `null` also stands for an absent
field. -/
inductive JsVal where
  | null
  | bool (b : Bool)
  | num (n : Int)
  | str (s : String)
deriving DecidableEq, Repr

/-- The single quote character. -/
def quote : Char := Char.ofNat 39

/-- White space skipped by `parseInt` (ECMAScript WhiteSpace and LineTerminator). -/
def jsWhite (c : Char) : Bool :=
  let n := c.toNat
  n = 9 || n = 10 || n = 11 || n = 12 || n = 13 || n = 32 || n = 160 || n = 5760 ||
  (8192 ≤ n && n ≤ 8202) || n = 8232 || n = 8233 || n = 8239 || n = 8287 ||
  n = 12288 || n = 65279

/-- Value of a character as a digit of the given radix (10 or 16). -/
def digitVal (radix : Nat) (c : Char) : Option Nat :=
  let n := c.toNat
  if 48 ≤ n ∧ n ≤ 57 then some (n - 48)
  else if radix = 16 ∧ 97 ≤ n ∧ n ≤ 102 then some (n - 87)
  else if radix = 16 ∧ 65 ≤ n ∧ n ≤ 70 then some (n - 55)
  else none

/-- Reads the longest prefix of digits: the value so far, whether a digit was seen, and
the characters left. -/
def readDigits (radix : Nat) : List Char → Nat → Bool → Nat × Bool × List Char
  | [], acc, seen => (acc, seen, [])
  | c :: cs, acc, seen =>
    match digitVal radix c with
    | some d => readDigits radix cs (acc * radix + d) true
    | none => (acc, seen, c :: cs)

/-- Drops a leading `0x` or `0X`. -/
def stripHex : List Char → Option (List Char)
  | a :: b :: rest => if a = '0' ∧ (b = 'x' ∨ b = 'X') then some rest else none
  | _ => none

/-- The function `parseInt(s)` on a string, no radix given; `none` is `NaN`. -/
def parseIntChars (s : List Char) : Option Int :=
  let s1 := s.dropWhile jsWhite
  let neg := s1.head? = some '-'
  let s2 := if s1.head? = some '-' ∨ s1.head? = some '+' then s1.tail else s1
  let r := match stripHex s2 with
    | some rest => readDigits 16 rest 0 false
    | none => readDigits 10 s2 0 false
  if r.2.1 then some (if neg then - (r.1 : Int) else (r.1 : Int)) else none

/-- The text `String(v)` through which `parseInt` and the storage client read a value. -/
def jsToString : JsVal → String
  | .null => "undefined"
  | .bool b => if b then "true" else "false"
  | .num n => toString n
  | .str s => s

/-- The call `parseInt(v)`: the argument is first converted to a string. -/
def parseInt (v : JsVal) : Option Int := parseIntChars (jsToString v).toList

/-! ## The storage engine: errors and parameter input -/

/-- An error object thrown by a statement; handlers inspect only `code`. -/
structure PgError where
  code : String
  message : String
deriving DecidableEq, Repr

/-- SQLSTATE of a uniqueness violation, the code the handlers test for. -/
def uniqueViolation : String := "23505"

/-- SQLSTATE of a foreign-key violation. -/
def foreignKeyViolation : String := "23503"

/-- SQLSTATE of a text that is not an integer. -/
def invalidText : String := "22P02"

/-- SQLSTATE of a statement text the engine cannot read. -/
def syntaxError : String := "42601"

/-- White space accepted around an integer by the engine. -/
def pgWhite (c : Char) : Bool :=
  let n := c.toNat
  n = 32 || n = 9 || n = 10 || n = 11 || n = 12 || n = 13

/-- Modelled from the spec: the storage engine is external, "assumed to provide
transactions, unique constraints, and referential integrity"; this is its reading of a
text parameter bound to an integer column: optional white space, an optional sign, decimal
digits, optional white space.  Integer ranges are not modelled. -/
def int4in (s : List Char) : Option Int :=
  let s1 := s.dropWhile pgWhite
  let neg := s1.head? = some '-'
  let s2 := if s1.head? = some '-' ∨ s1.head? = some '+' then s1.tail else s1
  let r := readDigits 10 s2 0 false
  if r.2.1 ∧ r.2.2.all pgWhite then some (if neg then - (r.1 : Int) else (r.1 : Int))
  else none

deriving instance DecidableEq for Except

/-- A JavaScript value bound to an integer parameter `$k`: `none` is SQL `NULL`. -/
def pgInt4 : JsVal → Except PgError (Option Int)
  | .null => .ok none
  | v =>
    match int4in (jsToString v).toList with
    | some n => .ok (some n)
    | none => .error ⟨invalidText, "invalid input syntax for type integer"⟩

/-! ## The store

The table declarations are not among the sources; rows carry the columns the statements of
the handlers name, and the constraints are those section 3 of the specification lists. -/

/-- Row of `"User"`. -/
structure User where
  user_id : Nat
  first_name : String
  last_name : String
  email : String
  password : String
deriving DecidableEq, Repr

/-- Row of `UserPhoneNumber`. -/
structure UserPhoneNumber where
  phone_id : Nat
  user_id : Nat
  phone_number : String
  is_primary : Bool
  is_verified : Bool
  added_at : Nat
deriving DecidableEq, Repr

/-- Row of `UserProfileImage`. -/
structure UserProfileImage where
  user_id : Nat
  profile_img_url : String
  uploaded_at : Nat
deriving DecidableEq, Repr

/-- Row of `Skill`. -/
structure Skill where
  skill_id : Nat
  skill_name : String
deriving DecidableEq, Repr

/-- Row of `Handyman`. -/
structure Handyman where
  user_id : Nat
  skill_id : Nat
  experience : Int
deriving DecidableEq, Repr

/-- Row of `Work`. -/
structure Work where
  work_id : Nat
  user_id : Nat
  title : String
deriving DecidableEq, Repr

/-- Row of `WorkImage`. -/
structure WorkImage where
  work_id : Nat
  work_img_url : String
deriving DecidableEq, Repr

/-- Row of `UserReview`. -/
structure UserReview where
  review_id : Nat
  reviewer_id : Nat
  reviewee_id : Nat
  review_text : String
  created_at : Nat
deriving DecidableEq, Repr

/-- Row of `WorkReview`. -/
structure WorkReview where
  review_id : Nat
  reviewer_id : Nat
  work_id : Nat
  rating : Int
  review_text : String
  created_at : Nat
deriving DecidableEq, Repr

/-- The rows of every table: what readers of the store observe. -/
structure Tables where
  users : List User := []
  phones : List UserPhoneNumber := []
  profileImages : List UserProfileImage := []
  skills : List Skill := []
  handymen : List Handyman := []
  works : List Work := []
  workImages : List WorkImage := []
  userReviews : List UserReview := []
  workReviews : List WorkReview := []
deriving DecidableEq, Repr

/-- Last value issued by the sequence behind each generated key.  Sequences are not
transactional: a failed or rolled-back insert keeps the value it drew. -/
structure Seqs where
  user : Nat := 0
  phone : Nat := 0
  skill : Nat := 0
  work : Nat := 0
  userReview : Nat := 0
  workReview : Nat := 0
deriving DecidableEq, Repr

/-- The committed store between requests. -/
structure Db where
  tables : Tables := {}
  seq : Seqs := {}
deriving DecidableEq, Repr

/-- A client connection: the committed rows, the rows as the open transaction block sees
them (if one is open), and the sequences. -/
structure Session where
  committed : Tables
  txn : Option Tables
  seq : Seqs
deriving DecidableEq, Repr

/-- The rows a statement of the session reads. -/
def Session.view (s : Session) : Tables := s.txn.getD s.committed

/-- A statement of the session writes rows: into the open block, else committed at once. -/
def Session.write (s : Session) (t : Tables) : Session :=
  match s.txn with
  | some _ => { s with txn := some t }
  | none => { s with committed := t }

/-- The statement `BEGIN`. -/
def Session.begin (s : Session) : Session :=
  match s.txn with
  | some _ => s
  | none => { s with txn := some s.committed }

/-- The statement `COMMIT` (without an open block it only warns). -/
def Session.commit (s : Session) : Session :=
  match s.txn with
  | some t => { s with committed := t, txn := none }
  | none => s

/-- The statement `ROLLBACK` (without an open block it only warns). -/
def Session.rollback (s : Session) : Session := { s with txn := none }

/-- What the handlers do not compute themselves. -/
structure Env where
  /-- The failure of the `k`-th statement of the request that does not come from the data. -/
  faults : Nat → Option PgError
  /-- The engine clock, read by `CURRENT_TIMESTAMP` defaults. -/
  now : Nat
  /-- Whether deleting a `Work` deletes the rows that reference it. -/
  cascade : Bool
  /-- The primitive `bcrypt.compare(password, hash)`. -/
  compare : String → String → Bool
  /-- The primitive `bcrypt.hash(password, salt)` with a fresh salt. -/
  hash : String → String
  /-- The primitive `jwt.sign` of `generateToken`. -/
  sign : Nat → String
  /-- The engine on a statement text outside the fragment `runValues` reads. -/
  engine : List Char → Session → Session × Option PgError

/-! ## Outcomes -/

/-- Row of the read-back projection: a work with its aggregated images (`none` is `NULL`). -/
structure WorkView where
  work_id : Nat
  user_id : Nat
  title : String
  images : Option (List String)
deriving DecidableEq, Repr

/-- Row of the review listing of a work. -/
structure WorkReviewRow where
  review : WorkReview
  reviewer_first_name : String
  reviewer_last_name : String
  reviewer_profile_img : Option String
deriving DecidableEq, Repr

/-- The public fields of an account in an authentication response. -/
structure UserView where
  user_id : Nat
  first_name : String
  last_name : String
  email : String
deriving DecidableEq, Repr

/-- Row of the listing of `getWorksByUser`: a work with its aggregated images, review
count and average rating. -/
structure WorkSummary where
  work_id : Nat
  user_id : Nat
  title : String
  images : Option (List String)
  review_count : Nat
  average_rating : ℚ
deriving DecidableEq, Repr

/-- Row of the skill details query of `addHandymanSkill`. -/
structure HandymanSkillRow where
  user_id : Nat
  skill_id : Nat
  experience : Int
  skill_name : String
deriving DecidableEq, Repr

/-- The `data` member of a response body. -/
inductive Payload where
  | empty
  | work (w : Option Work)
  | workWithImages (w : Option WorkView)
  | image (work_img_url : String)
  | userReview (r : Option UserReview)
  | workReview (r : Option WorkReview)
  | workReviews (rows : List WorkReviewRow)
  | auth (user : UserView) (token : String)
  | phone (p : Option UserPhoneNumber)
  | skill (s : Option Skill)
  | handymanSkill (h : Option HandymanSkillRow)
  | works (rows : List WorkSummary)
deriving DecidableEq, Repr

/-- A JSON response body. -/
structure Body where
  success : Bool
  message : Option String := none
  count : Option Nat := none
  average_rating : Option ℚ := none
  data : Payload := Payload.empty
deriving DecidableEq, Repr

/-- What the caller of a handler observes. -/
inductive Outcome where
  /-- The call `res.status(status).json(body)`. -/
  | json (status : Nat) (body : Body)
  /-- The call `next(error)`: the error goes to the error middleware unchanged. -/
  | forwarded (error : PgError)
  /-- The handler's promise rejects: neither `res` nor `next` is called. -/
  | unhandled (error : PgError)
deriving DecidableEq, Repr

/-- Store afterwards and outcome of a handler. -/
structure Result where
  db : Db
  out : Outcome
deriving DecidableEq, Repr

/-- The body of a rejection. -/
def failure (msg : String) : Body := { success := false, message := some msg }

/-- The `catch` block shared by the creating handlers: a uniqueness violation becomes a
rejected request, any other error is forwarded. -/
def catchUnique (msg : String) (e : PgError) : Outcome :=
  if e.code = uniqueViolation then .json 400 (failure msg) else .forwarded e

/-- The `k`-th statement binds `v` to an integer parameter: its fault, else the reading. -/
def bindInt (env : Env) (k : Nat) (v : JsVal) : Except PgError (Option Int) :=
  match env.faults k with
  | some e => .error e
  | none => pgInt4 v

/-! ## Work handlers (`src/controllers/workController.js`) -/

/-- Rows of `SELECT work_id FROM Work WHERE work_id = $1 AND user_id = $2`. -/
def ownedWorks (t : Tables) (id : Option Int) (actor : Nat) : List Work :=
  t.works.filter fun w => some (w.work_id : Int) = id ∧ w.user_id = actor

/-- The handler `updateWork`. -/
def updateWork (env : Env) (db : Db) (actor : Nat) (workId : JsVal) (title : String) :
    Result :=
  match bindInt env 0 workId with
  | .error e => ⟨db, .forwarded e⟩
  | .ok id =>
    if (ownedWorks db.tables id actor).isEmpty then
      ⟨db, .json 404 (failure "Work not found or unauthorized")⟩
    else
      match bindInt env 1 workId with
      | .error e => ⟨db, .forwarded e⟩
      | .ok id1 =>
        let set := fun (w : Work) => { w with title := title }
        let hit := fun (w : Work) => decide (some (w.work_id : Int) = id1)
        let works := db.tables.works.map fun w => if hit w then set w else w
        let rows := (db.tables.works.filter hit).map set
        ⟨{ db with tables := { db.tables with works := works } },
          .json 200 { success := true, message := some "Work updated successfully",
                      data := .work rows.head? }⟩

/-- The handler `deleteWork`.  The table declarations are not among the sources: rows that
reference a deleted work go with it when the schema cascades (`Env.cascade`); otherwise
they make the statement fail. -/
def deleteWork (env : Env) (db : Db) (actor : Nat) (workId : JsVal) : Result :=
  match bindInt env 0 workId with
  | .error e => ⟨db, .forwarded e⟩
  | .ok id =>
    let gone := ownedWorks db.tables id actor
    if gone.isEmpty then
      ⟨db, .json 404 (failure "Work not found or unauthorized")⟩
    else
      let ids := gone.map (·.work_id)
      let images := db.tables.workImages.filter fun i => i.work_id ∈ ids
      let reviews := db.tables.workReviews.filter fun r => r.work_id ∈ ids
      if ¬ env.cascade ∧ ¬ (images.isEmpty ∧ reviews.isEmpty) then
        ⟨db, .forwarded ⟨foreignKeyViolation, "row is still referenced"⟩⟩
      else
        let t := { db.tables with
          works := db.tables.works.filter fun w =>
            ¬ (some (w.work_id : Int) = id ∧ w.user_id = actor)
          workImages := db.tables.workImages.filter fun i => i.work_id ∉ ids
          workReviews := db.tables.workReviews.filter fun r => r.work_id ∉ ids }
        ⟨{ db with tables := t },
          .json 200 { success := true, message := some "Work deleted successfully" }⟩

/-- Modelled from the spec: the declaration of `WorkImage` is not among the sources; it is
"unique per (work, url)" and "belongs to exactly one Work".  The statement
`INSERT INTO WorkImage (work_id, work_img_url) VALUES ($1, $2)`. -/
def insertWorkImage (t : Tables) (id : Option Int) (url : String) : Except PgError Tables :=
  match id with
  | none => .error ⟨"23502", "null value in column work_id"⟩
  | some n =>
    if t.workImages.any fun i => (i.work_id : Int) = n ∧ i.work_img_url = url then
      .error ⟨uniqueViolation, "duplicate key value violates unique constraint"⟩
    else
      match t.works.find? fun w => (w.work_id : Int) = n with
      | none => .error ⟨foreignKeyViolation, "work is not present"⟩
      | some w => .ok { t with workImages := t.workImages ++ [⟨w.work_id, url⟩] }

/-- The handler `addWorkImage`. -/
def addWorkImage (env : Env) (db : Db) (actor : Nat) (workId : JsVal)
    (work_img_url : String) : Result :=
  let caught := catchUnique "This image already exists for this work"
  match bindInt env 0 workId with
  | .error e => ⟨db, caught e⟩
  | .ok id =>
    if (ownedWorks db.tables id actor).isEmpty then
      ⟨db, .json 404 (failure "Work not found or unauthorized")⟩
    else
      match bindInt env 1 workId with
      | .error e => ⟨db, caught e⟩
      | .ok id1 =>
        match insertWorkImage db.tables id1 work_img_url with
        | .error e => ⟨db, caught e⟩
        | .ok t =>
          ⟨{ db with tables := t },
            .json 201 { success := true, message := some "Image added successfully",
                        data := .image work_img_url }⟩

/-- The handler `deleteWorkImage`. -/
def deleteWorkImage (env : Env) (db : Db) (actor : Nat) (workId : JsVal)
    (work_img_url : String) : Result :=
  match bindInt env 0 workId with
  | .error e => ⟨db, .forwarded e⟩
  | .ok id =>
    if (ownedWorks db.tables id actor).isEmpty then
      ⟨db, .json 404 (failure "Work not found or unauthorized")⟩
    else
      match bindInt env 1 workId with
      | .error e => ⟨db, .forwarded e⟩
      | .ok id1 =>
        let hit := fun (i : WorkImage) =>
          decide (some (i.work_id : Int) = id1 ∧ i.work_img_url = work_img_url)
        if (db.tables.workImages.filter hit).isEmpty then
          ⟨db, .json 404 (failure "Image not found")⟩
        else
          let t := { db.tables with workImages := db.tables.workImages.filter fun i => ¬ hit i }
          ⟨{ db with tables := t },
            .json 200 { success := true, message := some "Image deleted successfully" }⟩

/-! ## Review handlers (`src/controllers/reviewController.js`) -/

/-- Modelled from the spec: the declaration of `UserReview` is not among the sources; it is
"unique per (reviewer, reviewee)" and both ends are accounts.  The statement
`INSERT INTO UserReview (reviewer_id, reviewee_id, review_text)`: the key is drawn from
the sequence first, then the unique pair, then the references are checked. -/
def insertUserReview (db : Db) (reviewer : Nat) (reviewee : Option Int) (text : String)
    (now : Nat) : Db × Except PgError UserReview :=
  let id := db.seq.userReview + 1
  let db1 := { db with seq := { db.seq with userReview := id } }
  match reviewee with
  | none => (db1, .error ⟨"23502", "null value in column reviewee_id"⟩)
  | some n =>
    if db.tables.userReviews.any fun r =>
        r.review_id = id ∨ (r.reviewer_id = reviewer ∧ (r.reviewee_id : Int) = n) then
      (db1, .error ⟨uniqueViolation, "duplicate key value violates unique constraint"⟩)
    else
      match db.tables.users.find? fun u => (u.user_id : Int) = n with
      | none => (db1, .error ⟨foreignKeyViolation, "reviewee is not present"⟩)
      | some u =>
        if db.tables.users.any fun v => v.user_id = reviewer then
          let row : UserReview := ⟨id, reviewer, u.user_id, text, now⟩
          ({ db1 with tables := { db.tables with userReviews := db.tables.userReviews ++ [row] } },
            .ok row)
        else (db1, .error ⟨foreignKeyViolation, "reviewer is not present"⟩)

/-- The handler `createUserReview`. -/
def createUserReview (env : Env) (db : Db) (actor : Nat) (reviewee_id : JsVal)
    (review_text : String) : Result :=
  let caught := catchUnique "You have already reviewed this user"
  if some (actor : Int) = parseInt reviewee_id then
    ⟨db, .json 400 (failure "You cannot review yourself")⟩
  else
    match bindInt env 0 reviewee_id with
    | .error e => ⟨db, caught e⟩
    | .ok id =>
      if (db.tables.users.filter fun u => some (u.user_id : Int) = id).isEmpty then
        ⟨db, .json 404 (failure "User not found")⟩
      else
        match bindInt env 1 reviewee_id with
        | .error e => ⟨db, caught e⟩
        | .ok id1 =>
          match insertUserReview db actor id1 review_text env.now with
          | (db1, .error e) => ⟨db1, caught e⟩
          | (db1, .ok row) =>
            ⟨db1, .json 201 { success := true, message := some "Review created successfully",
                              data := .userReview (some row) }⟩

/-- The handler `updateUserReview`. -/
def updateUserReview (env : Env) (db : Db) (actor : Nat) (reviewId : JsVal)
    (review_text : String) : Result :=
  match bindInt env 0 reviewId with
  | .error e => ⟨db, .forwarded e⟩
  | .ok id =>
    let hit := fun (r : UserReview) =>
      decide (some (r.review_id : Int) = id ∧ r.reviewer_id = actor)
    let set := fun (r : UserReview) => { r with review_text := review_text }
    let rows := (db.tables.userReviews.filter hit).map set
    if rows.isEmpty then
      ⟨db, .json 404 (failure "Review not found or unauthorized")⟩
    else
      let t := { db.tables with
        userReviews := db.tables.userReviews.map fun r => if hit r then set r else r }
      ⟨{ db with tables := t },
        .json 200 { success := true, message := some "Review updated successfully",
                    data := .userReview rows.head? }⟩

/-- The handler `deleteUserReview`. -/
def deleteUserReview (env : Env) (db : Db) (actor : Nat) (reviewId : JsVal) : Result :=
  match bindInt env 0 reviewId with
  | .error e => ⟨db, .forwarded e⟩
  | .ok id =>
    let hit := fun (r : UserReview) =>
      decide (some (r.review_id : Int) = id ∧ r.reviewer_id = actor)
    if (db.tables.userReviews.filter hit).isEmpty then
      ⟨db, .json 404 (failure "Review not found or unauthorized")⟩
    else
      let t := { db.tables with userReviews := db.tables.userReviews.filter fun r => ¬ hit r }
      ⟨{ db with tables := t },
        .json 200 { success := true, message := some "Review deleted successfully" }⟩

/-- Modelled from the spec: the declaration of `WorkReview` is not among the sources; it is
"unique per (reviewer, work)" and references an account and a work.  The statement
`INSERT INTO WorkReview (reviewer_id, work_id, rating, review_text)`. -/
def insertWorkReview (db : Db) (reviewer : Nat) (work : Option Int) (rating : Int)
    (text : String) (now : Nat) : Db × Except PgError WorkReview :=
  let id := db.seq.workReview + 1
  let db1 := { db with seq := { db.seq with workReview := id } }
  match work with
  | none => (db1, .error ⟨"23502", "null value in column work_id"⟩)
  | some n =>
    if db.tables.workReviews.any fun r =>
        r.review_id = id ∨ (r.reviewer_id = reviewer ∧ (r.work_id : Int) = n) then
      (db1, .error ⟨uniqueViolation, "duplicate key value violates unique constraint"⟩)
    else
      match db.tables.works.find? fun w => (w.work_id : Int) = n with
      | none => (db1, .error ⟨foreignKeyViolation, "work is not present"⟩)
      | some w =>
        if db.tables.users.any fun v => v.user_id = reviewer then
          let row : WorkReview := ⟨id, reviewer, w.work_id, rating, text, now⟩
          ({ db1 with tables := { db.tables with workReviews := db.tables.workReviews ++ [row] } },
            .ok row)
        else (db1, .error ⟨foreignKeyViolation, "reviewer is not present"⟩)

/-- The handler `createWorkReview`. -/
def createWorkReview (env : Env) (db : Db) (actor : Nat) (work_id : JsVal) (rating : Int)
    (review_text : String) : Result :=
  let caught := catchUnique "You have already reviewed this work"
  match bindInt env 0 work_id with
  | .error e => ⟨db, caught e⟩
  | .ok id =>
    match db.tables.works.filter fun w => some (w.work_id : Int) = id with
    | [] => ⟨db, .json 404 (failure "Work not found")⟩
    | w :: _ =>
      if w.user_id = actor then
        ⟨db, .json 400 (failure "You cannot review your own work")⟩
      else
        match bindInt env 1 work_id with
        | .error e => ⟨db, caught e⟩
        | .ok id1 =>
          match insertWorkReview db actor id1 rating review_text env.now with
          | (db1, .error e) => ⟨db1, caught e⟩
          | (db1, .ok row) =>
            ⟨db1, .json 201 { success := true,
                              message := some "Work review created successfully",
                              data := .workReview (some row) }⟩

/-- Inserts a row into a list ordered by `created_at DESC`. -/
def insertDesc (x : WorkReviewRow) : List WorkReviewRow → List WorkReviewRow
  | [] => [x]
  | y :: ys => if y.review.created_at ≤ x.review.created_at then x :: y :: ys
               else y :: insertDesc x ys

/-- The clause `ORDER BY wr.created_at DESC`. -/
def orderDesc : List WorkReviewRow → List WorkReviewRow
  | [] => []
  | x :: xs => insertDesc x (orderDesc xs)

/-- Rows of the listing query of `getWorkReviews`: `WorkReview` joined with its reviewer and
left-joined with the reviewer's profile image. -/
def reviewRows (t : Tables) (id : Option Int) : List WorkReviewRow :=
  orderDesc <|
    (t.workReviews.filter fun wr => some (wr.work_id : Int) = id).flatMap fun wr =>
      (t.users.filter fun u => wr.reviewer_id = u.user_id).flatMap fun u =>
        match t.profileImages.filter fun p => wr.reviewer_id = p.user_id with
        | [] => [⟨wr, u.first_name, u.last_name, none⟩]
        | ps => ps.map fun p => ⟨wr, u.first_name, u.last_name, some p.profile_img_url⟩

/-- The aggregate `AVG` over an integer column: `NULL` over no rows. -/
def sqlAvg (l : List Int) : Option ℚ :=
  if l.isEmpty then none else some ((l.sum : ℚ) / (l.length : ℚ))

/-- The expression `parseFloat(x) || 0`: `NaN` (from `NULL`) and zero give `0`. -/
def parseFloatOrZero (x : Option ℚ) : ℚ :=
  match x with
  | none => 0
  | some q => if q = 0 then 0 else q

/-- The handler `getWorkReviews`. -/
def getWorkReviews (env : Env) (db : Db) (workId : JsVal) : Result :=
  match bindInt env 0 workId with
  | .error e => ⟨db, .forwarded e⟩
  | .ok id =>
    let rows := reviewRows db.tables id
    match bindInt env 1 workId with
    | .error e => ⟨db, .forwarded e⟩
    | .ok id1 =>
      let avg := sqlAvg
        ((db.tables.workReviews.filter fun wr => some (wr.work_id : Int) = id1).map (·.rating))
      ⟨db, .json 200 { success := true, count := some rows.length,
                       average_rating := some (parseFloatOrZero avg),
                       data := .workReviews rows }⟩

/-- The handler `updateWorkReview`; an absent field keeps the stored value (`COALESCE`). -/
def updateWorkReview (env : Env) (db : Db) (actor : Nat) (reviewId : JsVal)
    (rating : Option Int) (review_text : Option String) : Result :=
  match bindInt env 0 reviewId with
  | .error e => ⟨db, .forwarded e⟩
  | .ok id =>
    let hit := fun (r : WorkReview) =>
      decide (some (r.review_id : Int) = id ∧ r.reviewer_id = actor)
    let set := fun (r : WorkReview) =>
      { r with rating := rating.getD r.rating, review_text := review_text.getD r.review_text }
    let rows := (db.tables.workReviews.filter hit).map set
    if rows.isEmpty then
      ⟨db, .json 404 (failure "Review not found or unauthorized")⟩
    else
      let t := { db.tables with
        workReviews := db.tables.workReviews.map fun r => if hit r then set r else r }
      ⟨{ db with tables := t },
        .json 200 { success := true, message := some "Work review updated successfully",
                    data := .workReview rows.head? }⟩

/-- The handler `deleteWorkReview`. -/
def deleteWorkReview (env : Env) (db : Db) (actor : Nat) (reviewId : JsVal) : Result :=
  match bindInt env 0 reviewId with
  | .error e => ⟨db, .forwarded e⟩
  | .ok id =>
    let hit := fun (r : WorkReview) =>
      decide (some (r.review_id : Int) = id ∧ r.reviewer_id = actor)
    if (db.tables.workReviews.filter hit).isEmpty then
      ⟨db, .json 404 (failure "Review not found or unauthorized")⟩
    else
      let t := { db.tables with workReviews := db.tables.workReviews.filter fun r => ¬ hit r }
      ⟨{ db with tables := t },
        .json 200 { success := true, message := some "Work review deleted successfully" }⟩

/-! ## Authentication (`src/controllers/authController.js`) -/

/-- The operator `typeof` on a request value; `null` stands for an absent field, as in
`jsToString`. -/
def jsTypeof : JsVal → String
  | .null => "undefined"
  | .bool _ => "boolean"
  | .num _ => "number"
  | .str _ => "string"

/-- The call `bcrypt.compare(password, hash)` of `bcryptjs`, with the stored hash, which
is a string.  On a password that is not a string the promise rejects with
`Error("Illegal arguments: " + typeof password + ", string")`, an error object without
`code` (the empty code here); on a string it resolves to the primitive `Env.compare`. -/
def bcryptCompare (env : Env) (password : JsVal) (hash : String) : Except PgError Bool :=
  match password with
  | .str p => .ok (env.compare p hash)
  | v => .error ⟨"", "Illegal arguments: " ++ jsTypeof v ++ ", string"⟩

/-- The handler `login`.  The route sanitises `email` into a string; `password` reaches
the handler as the request carries it. -/
def login (env : Env) (db : Db) (email : String) (password : JsVal) : Result :=
  match env.faults 0 with
  | some e => ⟨db, .forwarded e⟩
  | none =>
    match db.tables.users.filter fun u => u.email = email with
    | [] => ⟨db, .json 401 (failure "Invalid email or password")⟩
    | user :: _ =>
      match bcryptCompare env password user.password with
      | .error e => ⟨db, .forwarded e⟩
      | .ok isPasswordValid =>
        if ¬ isPasswordValid then
          ⟨db, .json 401 (failure "Invalid email or password")⟩
        else
          ⟨db, .json 200 { success := true, message := some "Login successful",
                           data := .auth ⟨user.user_id, user.first_name, user.last_name,
                                          user.email⟩ (env.sign user.user_id) }⟩

/-! ## The composite write `createWork`

`createWork` sends its image rows as statement text assembled from the request
(`imageValues`), not as bound parameters, so the engine reads the rows back out of the
text.  `readScript` is that reading for the fragment of SQL made of a `VALUES` list of
`(integer, 'literal')` rows, optionally followed by `;`-separated `COMMIT` or `ROLLBACK`
statements and a closing `--` comment; any other text is left to `Env.engine`. -/

/-- A transaction-control statement. -/
inductive TxCmd where
  | commit
  | rollback
deriving DecidableEq, Repr

/-- A statement text of the fragment: the rows of its `VALUES` list and what follows. -/
structure Script where
  rows : List (Nat × String)
  tail : List TxCmd
deriving DecidableEq, Repr

/-- The expression ``images.map(img => `(${work.work_id}, '${img}')`).join(',')``. -/
def imageValues (work_id : Nat) (images : List String) : String :=
  ",".intercalate (images.map fun img =>
    "(" ++ toString work_id ++ ", " ++ quote.toString ++ img ++ quote.toString ++ ")")

/-- Reads a string literal after its opening quote: its value and the text after the
closing quote.  A doubled quote inside the literal stands for one quote character; a
backslash is an ordinary character (standard-conforming strings). -/
def readLiteral : List Char → List Char → Option (List Char × List Char)
  | [], _ => none
  | [c], acc => if c = quote then some (acc.reverse, []) else none
  | c :: d :: ds, acc =>
    if c = quote then
      if d = quote then readLiteral ds (quote :: acc) else some (acc.reverse, d :: ds)
    else readLiteral (d :: ds) (c :: acc)

/-- Reads one row `(n, 'literal')`. -/
def readTuple (text : List Char) : Option ((Nat × String) × List Char) :=
  match text with
  | p :: rest =>
    if p = '(' then
      match readDigits 10 rest 0 false with
      | (n, true, a :: b :: q :: rest1) =>
        if a = ',' ∧ b = ' ' ∧ q = quote then
          match readLiteral rest1 [] with
          | some (lit, r :: rest2) => if r = ')' then some ((n, String.mk lit), rest2) else none
          | _ => none
        else none
      | _ => none
    else none
  | [] => none

/-- Reads rows separated by commas; the bound is the length of the text. -/
def readTuples : Nat → List Char → Option (List (Nat × String) × List Char)
  | 0, _ => none
  | fuel + 1, text =>
    match readTuple text with
    | none => none
    | some (row, c :: rest) =>
      if c = ',' then (readTuples fuel rest).map fun r => (row :: r.1, r.2)
      else some ([row], c :: rest)
    | some (row, []) => some ([row], [])

/-- Splits a text at every `;`. -/
def splitSemi : List Char → List (List Char)
  | [] => [[]]
  | c :: cs =>
    match splitSemi cs with
    | w :: ws => if c = ';' then [] :: w :: ws else (c :: w) :: ws
    | [] => [[c]]

/-- Reads the statements after the `VALUES` list. -/
def readTail : List (List Char) → Option (List TxCmd)
  | [] => some []
  | w :: ws =>
    if w.take 2 = ['-', '-'] then
      if (w :: ws).all fun p => p.all fun c => c.toNat ≠ 10 ∧ c.toNat ≠ 13 then some [] else none
    else if w = [] then readTail ws
    else if w.map Char.toUpper = "COMMIT".toList then (readTail ws).map (TxCmd.commit :: ·)
    else if w.map Char.toUpper = "ROLLBACK".toList then (readTail ws).map (TxCmd.rollback :: ·)
    else none

/-- The engine's reading of the text after `VALUES`, when it lies in the fragment. -/
def readScript (text : List Char) : Option Script :=
  match readTuples (text.length + 1) text with
  | some (rows, []) => some ⟨rows, []⟩
  | some (rows, c :: tl) =>
    if c = ';' then (readTail (splitSemi tl)).map fun cmds => ⟨rows, cmds⟩ else none
  | none => none

/-- Modelled from the spec: `WorkImage` is "unique per (work, url)".  Rows enter the table
one by one; a repeated `(work_id, work_img_url)` pair fails. -/
def insertImageRows : Tables → List (Nat × String) → Except PgError Tables
  | t, [] => .ok t
  | t, r :: rs =>
    if t.workImages.any fun i => i.work_id = r.1 ∧ i.work_img_url = r.2 then
      .error ⟨uniqueViolation, "duplicate key value violates unique constraint"⟩
    else insertImageRows { t with workImages := t.workImages ++ [⟨r.1, r.2⟩] } rs

/-- A transaction-control statement inside a statement text. -/
def runCmd (s : Session) : TxCmd → Session
  | .commit => s.commit
  | .rollback => s.rollback

/-- The statement ``INSERT INTO WorkImage (work_id, work_img_url) VALUES ${imageValues}``
on a session: the session afterwards and the error the client receives, if any.  The
references to `Work` are checked when all rows are in. -/
def runValues (env : Env) (text : List Char) (s : Session) : Session × Option PgError :=
  match readScript text with
  | none => env.engine text s
  | some sc =>
    match insertImageRows s.view sc.rows with
    | .error e => (s, some e)
    | .ok t =>
      if sc.rows.all fun r => s.view.works.any fun w => w.work_id = r.1 then
        (sc.tail.foldl runCmd (s.write t), none)
      else (s, some ⟨foreignKeyViolation, "work is not present"⟩)

/-- Modelled from the spec: the declaration of `Work` is not among the sources; a work
"belongs to exactly one Account" and its key is generated.  The statement
`INSERT INTO Work (user_id, title) VALUES ($1, $2) RETURNING work_id, user_id, title`. -/
def insertWork (s : Session) (actor : Nat) (title : String) : Session × Except PgError Work :=
  let id := s.seq.work + 1
  let s1 := { s with seq := { s.seq with work := id } }
  if s.view.works.any fun w => w.work_id = id then
    (s1, .error ⟨uniqueViolation, "duplicate key value violates unique constraint"⟩)
  else if s.view.users.any fun u => u.user_id = actor then
    let row : Work := ⟨id, actor, title⟩
    (s1.write { s.view with works := s.view.works ++ [row] }, .ok row)
  else (s1, .error ⟨foreignKeyViolation, "user is not present"⟩)

/-- The aggregate `json_agg(...) FILTER (WHERE wi.work_img_url IS NOT NULL)`: `NULL` when no
row passes the filter. -/
def jsonAgg (urls : List (Option String)) : Option (List String) :=
  match urls.filterMap id with
  | [] => none
  | l => some l

/-- The expression `COALESCE(x, '[]')`. -/
def coalesceArray (x : Option (List String)) : Option (List String) :=
  match x with
  | none => some []
  | some l => some l

/-- The clause `Work w LEFT JOIN WorkImage wi ON w.work_id = wi.work_id`. -/
def joinImages (t : Tables) (w : Work) : List (Option String) :=
  match t.workImages.filter fun i => w.work_id = i.work_id with
  | [] => [none]
  | is => is.map fun i => some i.work_img_url

/-- The read-back query of `createWork`: one row per group `(work_id, user_id, title)`. -/
def readBack (t : Tables) (id : Nat) : List WorkView :=
  let ws := t.works.filter fun w => w.work_id = id
  ws.dedup.map fun g =>
    ⟨g.work_id, g.user_id, g.title,
      coalesceArray (jsonAgg ((ws.filter fun w => w = g).flatMap (joinImages t)))⟩

/-- A step of `createWork` as the caller or the engine sees it. -/
inductive Event where
  | connect | begin | insertWork | insertImages | readBack | commit | rollback
  | respond | next | release
deriving DecidableEq, Repr

/-- Store afterwards, outcome and the steps taken, in order. -/
structure TxResult where
  db : Db
  out : Outcome
  trace : List Event
deriving DecidableEq, Repr

/-- The step "Add images if provided" of `createWork` (statement 3 of the request): the
session afterwards, the steps taken and the error thrown, if any. -/
def insertImagesStep (env : Env) (s : Session) (work_id : Nat)
    (images : Option (List String)) : Session × List Event × Option PgError :=
  match images with
  | some (img :: imgs) =>
    match env.faults 3 with
    | some e => (s, [.insertImages], some e)
    | none =>
      let r := runValues env (imageValues work_id (img :: imgs)).toList s
      (r.1, [.insertImages], r.2)
  | _ => (s, [], none)

/-- The read-back and `COMMIT` of `createWork` (statements 4 and 5 of the request). -/
def readBackAndCommit (env : Env) (s : Session) (work_id : Nat) :
    Session × List Event × Except PgError (Option WorkView) :=
  match env.faults 4 with
  | some e => (s, [.readBack], .error e)
  | none =>
    let rows := readBack s.view work_id
    match env.faults 5 with
    | some e => (s, [.readBack, .commit], .error e)
    | none => (s.commit, [.readBack, .commit], .ok rows.head?)

/-- The `try` block of `createWork` from `BEGIN` on: the session afterwards, the steps
taken, and the read-back row or the error thrown.  Statements 1 and 2 of the request are
`BEGIN` and the `Work` insert. -/
def createWorkTry (env : Env) (s0 : Session) (actor : Nat) (title : String)
    (images : Option (List String)) :
    Session × List Event × Except PgError (Option WorkView) :=
  match env.faults 1 with
  | some e => (s0, [.begin], .error e)
  | none =>
    match env.faults 2 with
    | some e => (s0.begin, [.begin, .insertWork], .error e)
    | none =>
      match insertWork s0.begin actor title with
      | (s2, .error e) => (s2, [.begin, .insertWork], .error e)
      | (s2, .ok work) =>
        match insertImagesStep env s2 work.work_id images with
        | (s3, ev, some e) => (s3, [.begin, .insertWork] ++ ev, .error e)
        | (s3, ev, none) =>
          match readBackAndCommit env s3 work.work_id with
          | (s4, ev2, r) => (s4, [.begin, .insertWork] ++ ev ++ ev2, r)

/-- The handler `createWork`.  Statement 0 is `db.pool.connect()`, which runs before the
`try` block; statement 6 is the `ROLLBACK` of the `catch` block. -/
def createWork (env : Env) (db : Db) (actor : Nat) (title : String)
    (images : Option (List String)) : TxResult :=
  match env.faults 0 with
  | some e => ⟨db, .unhandled e, [.connect]⟩
  | none =>
    match createWorkTry env ⟨db.tables, none, db.seq⟩ actor title images with
    | (s, ev, .ok row) =>
      ⟨⟨s.committed, s.seq⟩,
        .json 201 { success := true, message := some "Work created successfully",
                    data := .workWithImages row },
        [.connect] ++ ev ++ [.respond, .release]⟩
    | (s, ev, .error e) =>
      match env.faults 6 with
      | some e2 => ⟨⟨s.committed, s.seq⟩, .unhandled e2, [.connect] ++ ev ++ [.rollback, .release]⟩
      | none =>
        ⟨⟨s.rollback.committed, s.seq⟩, .forwarded e,
          [.connect] ++ ev ++ [.rollback, .next, .release]⟩

/-! ## What a claim about a target resource assumes

The predicates below are the hypotheses of the ownership theorems; the constraints are
those of section 3 of the specification. -/

/-- The work a target id denotes is absent or recorded under another account. -/
def WorkNotOwned (db : Db) (actor : Nat) (target : JsVal) : Prop :=
  ∀ w ∈ db.tables.works, pgInt4 target = .ok (some (w.work_id : Int)) → w.user_id ≠ actor

/-- The user review a target id denotes is absent or written by another account. -/
def UserReviewNotOwned (db : Db) (actor : Nat) (target : JsVal) : Prop :=
  ∀ r ∈ db.tables.userReviews,
    pgInt4 target = .ok (some (r.review_id : Int)) → r.reviewer_id ≠ actor

/-- The work review a target id denotes is absent or written by another account. -/
def WorkReviewNotOwned (db : Db) (actor : Nat) (target : JsVal) : Prop :=
  ∀ r ∈ db.tables.workReviews,
    pgInt4 target = .ok (some (r.review_id : Int)) → r.reviewer_id ≠ actor

/-- Modelled from the spec: the table declarations are not among the sources; `user_id` is
the key of `"User"`. -/
def UsersKey (t : Tables) : Prop := (t.users.map (·.user_id)).Nodup

/-- Modelled from the spec: the table declarations are not among the sources; `work_id` is
the key of `Work`. -/
def WorksKey (t : Tables) : Prop := (t.works.map (·.work_id)).Nodup

/-- Modelled from the spec: "ProfileImage: at most one per Account". -/
def ProfileImagesKey (t : Tables) : Prop := (t.profileImages.map (·.user_id)).Nodup

/-- Modelled from the spec: a `WorkReview` row references its reviewer's account
("foreign-key ownership links"). -/
def WorkReviewerRef (t : Tables) : Prop :=
  ∀ r ∈ t.workReviews, ∃ u ∈ t.users, u.user_id = r.reviewer_id

instance (t : Tables) : Decidable (UsersKey t) := by unfold UsersKey; infer_instance
instance (t : Tables) : Decidable (WorksKey t) := by unfold WorksKey; infer_instance
instance (t : Tables) : Decidable (ProfileImagesKey t) := by unfold ProfileImagesKey; infer_instance
instance (t : Tables) : Decidable (WorkReviewerRef t) := by unfold WorkReviewerRef; infer_instance
instance (db : Db) (a : Nat) (v : JsVal) : Decidable (WorkNotOwned db a v) := by
  unfold WorkNotOwned; infer_instance
instance (db : Db) (a : Nat) (v : JsVal) : Decidable (UserReviewNotOwned db a v) := by
  unfold UserReviewNotOwned; infer_instance
instance (db : Db) (a : Nat) (v : JsVal) : Decidable (WorkReviewNotOwned db a v) := by
  unfold WorkReviewNotOwned; infer_instance

/-! ## Example data used by the closed theorems -/

/-- An environment without faults. -/
def calmEnv : Env :=
  { faults := fun _ => none, now := 100, cascade := true,
    compare := fun p h => decide (h = "hash:" ++ p), hash := fun p => "hash:" ++ p,
    sign := fun n => "token:" ++ toString n,
    engine := fun _ s => (s, some ⟨syntaxError, "syntax error"⟩) }

/-- The environment whose read-back statement (statement 4 of `createWork`) fails. -/
def readBackDown : Env :=
  { calmEnv with
    faults := fun k => if k = 4 then some ⟨"08006", "connection failure"⟩ else none }

/-- Three accounts; account 2 owns work 1, which has one image and the ratings 3 and 5;
account 1 has reviewed account 2. -/
def sampleDb : Db :=
  { tables :=
      { users := [⟨1, "Ann", "Lee", "ann@x.com", "hash:secret1"⟩,
                  ⟨2, "Bob", "Ray", "bob@x.com", "hash:secret2"⟩,
                  ⟨3, "Cyd", "Poe", "cyd@x.com", "hash:secret3"⟩]
        profileImages := [⟨1, "http://x.com/ann.png", 5⟩]
        works := [⟨1, 2, "Fence"⟩]
        workImages := [⟨1, "http://x.com/fence.png"⟩]
        userReviews := [⟨1, 1, 2, "Careful and quick work", 10⟩]
        workReviews := [⟨1, 1, 1, 3, "Solid fence, fair price", 20⟩,
                        ⟨2, 3, 1, 5, "Would hire again gladly", 30⟩] }
    seq := { user := 3, work := 1, userReview := 1, workReview := 2 } }

/-- No image string of the request holds a quote character. -/
def QuoteFree (images : Option (List String)) : Prop :=
  ∀ l, images = some l → ∀ i ∈ l, quote ∉ i.toList

/-- A URL with a doubled quote character in its path. -/
def doubledQuoteUrl : String :=
  "http://x.com/a" ++ quote.toString ++ quote.toString ++ "b.png"

/-- The same URL with one quote character. -/
def singleQuoteUrl : String := "http://x.com/a" ++ quote.toString ++ "b.png"

/-- A URL whose path closes the literal and the row, commits, and comments out the rest. -/
def commitUrl : String := "http://x.com/a" ++ quote.toString ++ ");COMMIT;--"

/-- The outcome of a work mutation whose ownership check finds no row: the fault of the
check if there is one (through the handler's `catch`), else the collapsed rejection. -/
def refusal (env : Env) (db : Db) (caught : PgError → Outcome) : Result :=
  match env.faults 0 with
  | some e => ⟨db, caught e⟩
  | none => ⟨db, .json 404 (failure "Work not found or unauthorized")⟩

/-! ## Phone handlers (`src/controllers/userController.js`) -/

/-- Whether a JavaScript value counts as true in `if (v)` and `v || w`. -/
def truthy : JsVal → Bool
  | .null => false
  | .bool b => b
  | .num n => decide (n ≠ 0)
  | .str s => decide (s ≠ "")

/-- Modelled from the spec: the storage engine is external; this is its reading of a text
bound to a boolean column: surrounding white space is dropped, case is ignored, and the
text is a leading part of `true`, `yes`, `false` or `no`, or one of `on`, `of`, `off`,
`1`, `0`. -/
def boolin (s : List Char) : Option Bool :=
  let t := ((s.dropWhile pgWhite).reverse.dropWhile pgWhite).reverse.map Char.toLower
  if t = [] then none
  else if t.isPrefixOf "true".toList ∨ t.isPrefixOf "yes".toList ∨ t = "on".toList ∨
      t = "1".toList then some true
  else if t.isPrefixOf "false".toList ∨ t.isPrefixOf "no".toList ∨ t = "of".toList ∨
      t = "off".toList ∨ t = "0".toList then some false
  else none

/-- A JavaScript value bound to a boolean parameter `$k`: `none` is SQL `NULL`. -/
def pgBool : JsVal → Except PgError (Option Bool)
  | .null => .ok none
  | v =>
    match boolin (jsToString v).toList with
    | some b => .ok (some b)
    | none => .error ⟨invalidText, "invalid input syntax for type boolean"⟩

/-- The step "if this is primary, unset other primary phones" shared by `addPhoneNumber`
and `updatePhoneNumber` (statement 1 of the request):
`UPDATE UserPhoneNumber SET is_primary = FALSE WHERE user_id = $1`. -/
def unsetPrimary (env : Env) (db : Db) (actor : Nat) (is_primary : JsVal) :
    Except PgError Db :=
  if truthy is_primary then
    match env.faults 1 with
    | some e => .error e
    | none =>
      .ok { db with tables := { db.tables with
        phones := db.tables.phones.map fun p =>
          if p.user_id = actor then { p with is_primary := false } else p } }
  else .ok db

/-- Modelled from the spec: the declaration of `UserPhoneNumber` is not among the sources;
a phone number is "unique across the whole system" and belongs to an account.  The
statement `INSERT INTO UserPhoneNumber (user_id, phone_number, is_primary)`. -/
def insertPhone (db : Db) (actor : Nat) (phone_number : Option String) (is_primary : Bool)
    (now : Nat) : Db × Except PgError UserPhoneNumber :=
  let id := db.seq.phone + 1
  let db1 := { db with seq := { db.seq with phone := id } }
  match phone_number with
  | none => (db1, .error ⟨"23502", "null value in column phone_number"⟩)
  | some n =>
    if db.tables.phones.any fun p => p.phone_id = id ∨ p.phone_number = n then
      (db1, .error ⟨uniqueViolation, "duplicate key value violates unique constraint"⟩)
    else if db.tables.users.any fun u => u.user_id = actor then
      let row : UserPhoneNumber := ⟨id, actor, n, is_primary, false, now⟩
      ({ db1 with tables := { db.tables with phones := db.tables.phones ++ [row] } }, .ok row)
    else (db1, .error ⟨foreignKeyViolation, "user is not present"⟩)

/-- The handler `addPhoneNumber`.  Statements 0, 1 and 2 of the request are the lookup of
the number, the unsetting of the primary flags and the insert. -/
def addPhoneNumber (env : Env) (db : Db) (actor : Nat) (phone_number : Option String)
    (is_primary : JsVal) : Result :=
  match env.faults 0 with
  | some e => ⟨db, .forwarded e⟩
  | none =>
    if ¬ (db.tables.phones.filter fun p => some p.phone_number = phone_number).isEmpty then
      ⟨db, .json 400 (failure "This phone number is already registered")⟩
    else
      match unsetPrimary env db actor is_primary with
      | .error e => ⟨db, .forwarded e⟩
      | .ok db1 =>
        match env.faults 2 with
        | some e => ⟨db1, .forwarded e⟩
        | none =>
          match pgBool (if truthy is_primary then is_primary else .bool false) with
          | .error e => ⟨db1, .forwarded e⟩
          | .ok flag =>
            match insertPhone db1 actor phone_number (flag.getD false) env.now with
            | (db2, .error e) => ⟨db2, .forwarded e⟩
            | (db2, .ok row) =>
              ⟨db2, .json 201 { success := true,
                                message := some "Phone number added successfully",
                                data := .phone (some row) }⟩

/-- Modelled from the spec: a phone number is "unique across the whole system".  The
statement `UPDATE UserPhoneNumber SET phone_number = COALESCE($1, phone_number),
is_primary = COALESCE($2, is_primary) WHERE phone_id = $3 AND user_id = $4 RETURNING ...`:
the tables afterwards and the rows returned. -/
def updatePhone (t : Tables) (id : Option Int) (actor : Nat) (phone_number : Option String)
    (is_primary : Option Bool) : Except PgError (Tables × List UserPhoneNumber) :=
  let hit := fun (p : UserPhoneNumber) =>
    decide (some (p.phone_id : Int) = id ∧ p.user_id = actor)
  let set := fun (p : UserPhoneNumber) =>
    { p with phone_number := phone_number.getD p.phone_number,
             is_primary := is_primary.getD p.is_primary }
  let hits := t.phones.filter hit
  let clash := match phone_number with
    | some n =>
      decide (hits ≠ [] ∧
        1 < (t.phones.filter fun q => ¬ hit q ∧ q.phone_number = n).length + hits.length)
    | none => false
  if clash then
    .error ⟨uniqueViolation, "duplicate key value violates unique constraint"⟩
  else
    .ok ({ t with phones := t.phones.map fun p => if hit p then set p else p },
      hits.map set)

/-- The handler `updatePhoneNumber`.  Statements 0, 1 and 2 of the request are the
ownership check, the unsetting of the primary flags and the update. -/
def updatePhoneNumber (env : Env) (db : Db) (actor : Nat) (phoneId : JsVal)
    (phone_number : Option String) (is_primary : JsVal) : Result :=
  match bindInt env 0 phoneId with
  | .error e => ⟨db, .forwarded e⟩
  | .ok id =>
    if (db.tables.phones.filter fun p =>
        some (p.phone_id : Int) = id ∧ p.user_id = actor).isEmpty then
      ⟨db, .json 404 (failure "Phone number not found")⟩
    else
      match unsetPrimary env db actor is_primary with
      | .error e => ⟨db, .forwarded e⟩
      | .ok db1 =>
        match bindInt env 2 phoneId with
        | .error e => ⟨db1, .forwarded e⟩
        | .ok id2 =>
          match pgBool is_primary with
          | .error e => ⟨db1, .forwarded e⟩
          | .ok flag =>
            match updatePhone db1.tables id2 actor phone_number flag with
            | .error e => ⟨db1, .forwarded e⟩
            | .ok (t, rows) =>
              ⟨{ db1 with tables := t },
                .json 200 { success := true,
                            message := some "Phone number updated successfully",
                            data := .phone rows.head? }⟩

/-- The handler `deletePhoneNumber`. -/
def deletePhoneNumber (env : Env) (db : Db) (actor : Nat) (phoneId : JsVal) : Result :=
  match bindInt env 0 phoneId with
  | .error e => ⟨db, .forwarded e⟩
  | .ok id =>
    let hit := fun (p : UserPhoneNumber) =>
      decide (some (p.phone_id : Int) = id ∧ p.user_id = actor)
    if (db.tables.phones.filter hit).isEmpty then
      ⟨db, .json 404 (failure "Phone number not found")⟩
    else
      let t := { db.tables with phones := db.tables.phones.filter fun p => ¬ hit p }
      ⟨{ db with tables := t },
        .json 200 { success := true, message := some "Phone number deleted successfully" }⟩

/-- Number of phones of an account with `is_primary = true`. -/
def primaryCount (phones : List UserPhoneNumber) (u : Nat) : Nat :=
  (phones.filter fun p => p.user_id = u ∧ p.is_primary).length

/-- Every account has at most one phone with `is_primary = true`. -/
def AtMostOnePrimary (t : Tables) : Prop :=
  ∀ p ∈ t.phones, primaryCount t.phones p.user_id ≤ 1

instance (t : Tables) : Decidable (AtMostOnePrimary t) := by
  unfold AtMostOnePrimary; infer_instance

/-- Modelled from the spec: the table declarations are not among the sources; `phone_id` is
the key of `UserPhoneNumber`. -/
def PhonesKey (t : Tables) : Prop := (t.phones.map (·.phone_id)).Nodup

instance (t : Tables) : Decidable (PhonesKey t) := by unfold PhonesKey; infer_instance

/-- The row update of `updatePhone`: what the statement writes into one row. -/
def phoneUpdate (id : Option Int) (actor : Nat) (pn : Option String) (flag : Option Bool)
    (p : UserPhoneNumber) : UserPhoneNumber :=
  if decide (some (p.phone_id : Int) = id ∧ p.user_id = actor) = true then
    { p with phone_number := pn.getD p.phone_number, is_primary := flag.getD p.is_primary }
  else p

/-- The sample store with phones: account 1 owns phone 1 (primary) and phone 2, account 2
owns phone 3 (primary). -/
def phoneDb : Db :=
  { sampleDb with
    tables := { sampleDb.tables with
      phones := [⟨1, 1, "+15550001", true, false, 1⟩, ⟨2, 1, "+15550002", false, false, 2⟩,
                 ⟨3, 2, "+15550003", true, false, 3⟩] }
    seq := { sampleDb.seq with phone := 3 } }

/-! ## Skill handlers (`src/controllers/skillController.js`) -/

/-- Modelled from the spec: the declaration of `Skill` is not among the sources; a skill is
"unique by name" and its key is generated.  The statement
`INSERT INTO Skill (skill_name) VALUES ($1) RETURNING skill_id, skill_name`. -/
def insertSkill (db : Db) (skill_name : String) : Db × Except PgError Skill :=
  let id := db.seq.skill + 1
  let db1 := { db with seq := { db.seq with skill := id } }
  if db.tables.skills.any fun s => s.skill_id = id ∨ s.skill_name = skill_name then
    (db1, .error ⟨uniqueViolation, "duplicate key value violates unique constraint"⟩)
  else
    let row : Skill := ⟨id, skill_name⟩
    ({ db1 with tables := { db.tables with skills := db.tables.skills ++ [row] } }, .ok row)

/-- The handler `createSkill`; its one statement is the insert. -/
def createSkill (env : Env) (db : Db) (skill_name : String) : Result :=
  let caught := catchUnique "Skill already exists"
  match env.faults 0 with
  | some e => ⟨db, caught e⟩
  | none =>
    match insertSkill db skill_name with
    | (db1, .error e) => ⟨db1, caught e⟩
    | (db1, .ok row) =>
      ⟨db1, .json 201 { success := true, message := some "Skill created successfully",
                        data := .skill (some row) }⟩

/-- Modelled from the spec: the declaration of `Handyman` is not among the sources; a row is
"unique per (account, skill) pair" and references an account and a skill.  The statement
`INSERT INTO Handyman (user_id, skill_id, experience) VALUES ($1, $2, $3)`. -/
def insertHandyman (t : Tables) (actor : Nat) (skill : Option Int) (experience : Option Int) :
    Except PgError Tables :=
  match skill, experience with
  | some n, some x =>
    if t.handymen.any fun h => h.user_id = actor ∧ (h.skill_id : Int) = n then
      .error ⟨uniqueViolation, "duplicate key value violates unique constraint"⟩
    else
      match t.skills.find? fun s => (s.skill_id : Int) = n with
      | none => .error ⟨foreignKeyViolation, "skill is not present"⟩
      | some s =>
        if t.users.any fun u => u.user_id = actor then
          .ok { t with handymen := t.handymen ++ [⟨actor, s.skill_id, x⟩] }
        else .error ⟨foreignKeyViolation, "user is not present"⟩
  | _, _ => .error ⟨"23502", "null value in a column of Handyman"⟩

/-- The write of `addHandymanSkill` (statement 1 of the request): its fault, the reading
of its parameters, or the insert. -/
def writeHandyman (env : Env) (db : Db) (actor : Nat) (skill_id experience : JsVal) :
    Except PgError Tables :=
  match bindInt env 1 skill_id with
  | .error e => .error e
  | .ok id1 =>
    match pgInt4 experience with
    | .error e => .error e
    | .ok x => insertHandyman db.tables actor id1 x

/-- The handler `addHandymanSkill`.  Statements 0, 1 and 2 of the request are the lookup
of the skill, the insert and the read of the skill details. -/
def addHandymanSkill (env : Env) (db : Db) (actor : Nat) (skill_id experience : JsVal) :
    Result :=
  let caught := catchUnique "You already have this skill"
  match bindInt env 0 skill_id with
  | .error e => ⟨db, caught e⟩
  | .ok id =>
    if (db.tables.skills.filter fun s => some (s.skill_id : Int) = id).isEmpty then
      ⟨db, .json 404 (failure "Skill not found")⟩
    else
      match writeHandyman env db actor skill_id experience with
      | .error e => ⟨db, caught e⟩
      | .ok t =>
        let db1 : Db := { db with tables := t }
        match bindInt env 2 skill_id with
        | .error e => ⟨db1, caught e⟩
        | .ok id2 =>
          let rows := (t.handymen.filter fun h =>
              h.user_id = actor ∧ some (h.skill_id : Int) = id2).flatMap fun h =>
            (t.skills.filter fun s => h.skill_id = s.skill_id).map fun s =>
              (⟨h.user_id, h.skill_id, h.experience, s.skill_name⟩ : HandymanSkillRow)
          ⟨db1, .json 201 { success := true, message := some "Skill added successfully",
                            data := .handymanSkill rows.head? }⟩

/-- The write of `addWorkImage` (statement 1 of the request), as the handler issues it. -/
def writeWorkImage (env : Env) (db : Db) (workId : JsVal) (work_img_url : String) :
    Except PgError Tables :=
  match bindInt env 1 workId with
  | .error e => .error e
  | .ok id1 => insertWorkImage db.tables id1 work_img_url

/-! ## Registration (`src/controllers/authController.js`) -/

/-- Modelled from the spec: the declaration of `"User"` is not among the sources; an account
has a generated key and a unique email.  The statement
`INSERT INTO "User" (first_name, last_name, email, password) VALUES ($1, $2, $3, $4)`. -/
def insertUser (db : Db) (first_name last_name email password : String) :
    Db × Except PgError User :=
  let id := db.seq.user + 1
  let db1 := { db with seq := { db.seq with user := id } }
  if db.tables.users.any fun u => u.user_id = id ∨ u.email = email then
    (db1, .error ⟨uniqueViolation, "duplicate key value violates unique constraint"⟩)
  else
    let row : User := ⟨id, first_name, last_name, email, password⟩
    ({ db1 with tables := { db.tables with users := db.tables.users ++ [row] } }, .ok row)

/-- The handler `register`.  Statements 0 and 1 of the request are the lookup of the email
and the insert. -/
def register (env : Env) (db : Db) (first_name last_name email password : String) :
    Result :=
  match env.faults 0 with
  | some e => ⟨db, .forwarded e⟩
  | none =>
    if ¬ (db.tables.users.filter fun u => u.email = email).isEmpty then
      ⟨db, .json 400 (failure "User with this email already exists")⟩
    else
      let hashedPassword := env.hash password
      match env.faults 1 with
      | some e => ⟨db, .forwarded e⟩
      | none =>
        match insertUser db first_name last_name email hashedPassword with
        | (db1, .error e) => ⟨db1, .forwarded e⟩
        | (db1, .ok user) =>
          ⟨db1, .json 201 { success := true, message := some "User registered successfully",
                            data := .auth ⟨user.user_id, user.first_name, user.last_name,
                                           user.email⟩ (env.sign user.user_id) }⟩

/-! ## The listing `getWorksByUser` (`src/controllers/workController.js`) -/

/-- The clause `LEFT JOIN WorkReview wr ON w.work_id = wr.work_id`. -/
def joinReviews (t : Tables) (w : Work) : List (Option WorkReview) :=
  match t.workReviews.filter fun r => w.work_id = r.work_id with
  | [] => [none]
  | rs => rs.map some

/-- The joined rows of one work: every image row (or none) beside every review row (or
none). -/
def joinedRows (t : Tables) (w : Work) : List (Option String × Option WorkReview) :=
  (joinImages t w).flatMap fun i => (joinReviews t w).map fun r => (i, r)

/-- The select list of `getWorksByUser` over the joined rows of one group. -/
def summarize (g : Work) (rows : List (Option String × Option WorkReview)) : WorkSummary :=
  { work_id := g.work_id, user_id := g.user_id, title := g.title
    images := coalesceArray (jsonAgg (rows.map (·.1)))
    review_count := (rows.filterMap (·.2)).length
    average_rating := (sqlAvg ((rows.filterMap (·.2)).map (·.rating))).getD 0 }

/-- Inserts a row into a list ordered by `work_id DESC`. -/
def insertByWorkId (x : WorkSummary) : List WorkSummary → List WorkSummary
  | [] => [x]
  | y :: ys => if y.work_id ≤ x.work_id then x :: y :: ys else y :: insertByWorkId x ys

/-- The clause `ORDER BY w.work_id DESC`. -/
def orderByWorkId : List WorkSummary → List WorkSummary
  | [] => []
  | x :: xs => insertByWorkId x (orderByWorkId xs)

/-- Rows of the query of `getWorksByUser`: the works of the user, each joined with its
images and with its reviews, grouped by `(work_id, user_id, title)`. -/
def worksByUser (t : Tables) (id : Option Int) : List WorkSummary :=
  let ws := t.works.filter fun w => some (w.user_id : Int) = id
  orderByWorkId (ws.dedup.map fun g =>
    summarize g ((ws.filter fun w => w = g).flatMap (joinedRows t)))

/-- The handler `getWorksByUser`. -/
def getWorksByUser (env : Env) (db : Db) (userId : JsVal) : Result :=
  match bindInt env 0 userId with
  | .error e => ⟨db, .forwarded e⟩
  | .ok id =>
    let rows := worksByUser db.tables id
    ⟨db, .json 200 { success := true, count := some rows.length, data := .works rows }⟩

/-- The rows a listing response carries. -/
def listedWorks : Outcome → List WorkSummary
  | .json _ body =>
    match body.data with
    | .works rows => rows
    | _ => []
  | _ => []

/-! ## Further constraints and example data -/

/-- The sample store with the skill "Plumbing", which account 1 has. -/
def skillDb : Db :=
  { sampleDb with
    tables := { sampleDb.tables with
      skills := [⟨1, "Plumbing"⟩]
      handymen := [⟨1, 1, 4⟩] }
    seq := { sampleDb.seq with skill := 1 } }

/-- The environment whose statement `k` fails with a connection failure. -/
def downAt (k : Nat) : Env :=
  { calmEnv with
    faults := fun i => if i = k then some ⟨"08006", "connection failure"⟩ else none }

/-- Modelled from the spec: "email (unique)": no two accounts share an email. -/
def EmailsKey (t : Tables) : Prop := (t.users.map (·.email)).Nodup

instance (t : Tables) : Decidable (EmailsKey t) := by unfold EmailsKey; infer_instance

/-- The environment in which the insert of `register` (statement 1) meets an account that
another registration stored after the lookup: the engine answers with its uniqueness
violation. -/
def raceEnv : Env :=
  { calmEnv with
    faults := fun k =>
      if k = 1 then some ⟨uniqueViolation, "duplicate key value violates unique constraint"⟩
      else none }

/-- The sample store in which work 1 has two images and one review. -/
def galleryDb : Db :=
  { sampleDb with
    tables := { sampleDb.tables with
      workImages := [⟨1, "http://x.com/fence.png"⟩, ⟨1, "http://x.com/gate.png"⟩]
      workReviews := [⟨1, 1, 1, 3, "Solid fence, fair price", 20⟩] } }

/-! ## The invariant "no stored review is a self-review" (claim C20) -/

/-- No `UserReview` is by its reviewee and no `WorkReview` is by the owner of its work. -/
def NoSelfReview (t : Tables) : Prop :=
  (∀ r ∈ t.userReviews, r.reviewer_id ≠ r.reviewee_id) ∧
  (∀ r ∈ t.workReviews, ∀ w ∈ t.works, w.work_id = r.work_id → r.reviewer_id ≠ w.user_id)

instance (t : Tables) : Decidable (NoSelfReview t) := by unfold NoSelfReview; infer_instance

/-- Modelled from the spec: a `WorkReview` is an "edge reviewer(Account)→Work" under
referential integrity: the work of every stored review is stored. -/
def WorkReviewWorkRef (t : Tables) : Prop :=
  ∀ r ∈ t.workReviews, ∃ w ∈ t.works, w.work_id = r.work_id

instance (t : Tables) : Decidable (WorkReviewWorkRef t) := by
  unfold WorkReviewWorkRef; infer_instance

/-- The opening of an `INSERT` into `WorkReview` written without blanks: comments stand
where blanks are needed. -/
def reviewInsertHead : String :=
  "INSERT/**/INTO/**/WorkReview(reviewer_id,work_id,rating,review_text)VALUES("

/-- Reads the statement that opens with `reviewInsertHead` and goes on with
`r,w,n,'text')`: the reviewer, the work, the rating and the text. -/
def readReviewInsert (stmt : List Char) : Option (Nat × Nat × Nat × String) :=
  let head := reviewInsertHead.toList
  if stmt.take head.length = head then
    match readDigits 10 (stmt.drop head.length) 0 false with
    | (r, true, c1 :: rest1) =>
      match readDigits 10 rest1 0 false with
      | (w, true, c2 :: rest2) =>
        match readDigits 10 rest2 0 false with
        | (n, true, c3 :: q :: rest3) =>
          if c1 = ',' ∧ c2 = ',' ∧ c3 = ',' ∧ q = quote then
            match readLiteral rest3 [] with
            | some (lit, [p]) => if p = ')' then some (r, w, n, String.mk lit) else none
            | _ => none
          else none
        | _ => none
      | _ => none
    | _ => none
  else none

/-- Modelled from the spec: the storage engine is external.  Its run of a statement text
made of the `VALUES` list of the `WorkImage` insert, `;`, one `INSERT` into `WorkReview` as
`readReviewInsert` reads it, `;` and a closing comment: the image rows enter first, then
the review row under the constraints of `insertWorkReview`.  Any other text is refused. -/
def reviewEngine (now : Nat) (text : List Char) (s : Session) : Session × Option PgError :=
  let refused : Session × Option PgError := (s, some ⟨syntaxError, "syntax error"⟩)
  match readTuples (text.length + 1) text with
  | some (rows, c :: tl) =>
    match splitSemi tl with
    | stmt :: rest =>
      match readReviewInsert stmt, readTail rest with
      | some (r, w, n, body), some [] =>
        if c = ';' then
          match insertImageRows s.view rows with
          | .error e => (s, some e)
          | .ok t =>
            if rows.all fun row => s.view.works.any fun wk => wk.work_id = row.1 then
              match insertWorkReview ⟨t, s.seq⟩ r (some (w : Int)) (n : Int) body now with
              | (db1, .error e) => ({ s with seq := db1.seq }, some e)
              | (db1, .ok _) => ({ s.write db1.tables with seq := db1.seq }, none)
            else (s, some ⟨foreignKeyViolation, "work is not present"⟩)
        else refused
      | _, _ => refused
    | [] => refused
  | _ => refused

/-- The calm environment with an engine that also runs `reviewEngine` texts. -/
def reviewEnv : Env := { calmEnv with engine := reviewEngine calmEnv.now }

/-- A URL whose path closes the literal and the row, inserts a review of work 1 by
account 2, and comments out the rest; it holds no blank. -/
def reviewUrl : String :=
  "http://x.com/a" ++ quote.toString ++ ");" ++ reviewInsertHead ++ "2,1,5," ++
    quote.toString ++ "Best-fence-ever" ++ quote.toString ++ ");--"

/-- The tables `t` hold the reviews of `t0` and the works of `t0`, with at most one more
work, under an id no work of `t0` has. -/
def WorkAdded (t0 t : Tables) : Prop :=
  t.userReviews = t0.userReviews ∧ t.workReviews = t0.workReviews ∧
  (t.works = t0.works ∨
    ∃ w, t.works = t0.works ++ [w] ∧ ∀ w0 ∈ t0.works, w0.work_id ≠ w.work_id)

/-- The environment whose connection is lost once acquired: `BEGIN` (statement 1 of
`createWork`) fails with a connection failure and so does the `ROLLBACK` of the `catch`
block (statement 6), with the error of a connection that no longer exists. -/
def lostEnv : Env :=
  { calmEnv with
    faults := fun k =>
      if k = 1 then some ⟨"08006", "connection failure"⟩
      else if k = 6 then some ⟨"08003", "connection does not exist"⟩
      else none }

/-! ## Lemmas: decimal strings -/

theorem digitVal_digitChar (d : Nat) (h : d < 10) :
    digitVal 10 (Nat.digitChar d) = some d := by
  interval_cases d <;> rfl

theorem digitChar_plain (d : Nat) (h : d < 10) :
    jsWhite (Nat.digitChar d) = false ∧ Nat.digitChar d ≠ '-' ∧ Nat.digitChar d ≠ '+' ∧
      Nat.digitChar d ≠ 'x' ∧ Nat.digitChar d ≠ 'X' ∧ pgWhite (Nat.digitChar d) = false := by
  interval_cases d <;> decide

/-- Reading the decimal digits of `n` in front of `ds` continues reading `ds` from `n`. -/
theorem readDigits_toDigitsCore (fuel : Nat) : ∀ (n : Nat) (ds : List Char) (seen : Bool),
    n < fuel →
    readDigits 10 (Nat.toDigitsCore 10 fuel n ds) 0 seen = readDigits 10 ds n true := by
  induction fuel with
  | zero => intro n ds seen h; omega
  | succ f ih =>
    intro n ds seen h
    have hd : n % 10 < 10 := Nat.mod_lt _ (by decide)
    simp only [Nat.toDigitsCore]
    split
    · rename_i h0
      simp only [readDigits, digitVal_digitChar _ hd]
      congr 1; omega
    · rename_i h0
      have hlt : n / 10 < f := by omega
      rw [ih (n / 10) _ seen hlt]
      simp only [readDigits, digitVal_digitChar _ hd]
      congr 1; omega

theorem toDigitsCore_digits (fuel : Nat) : ∀ (n : Nat) (ds : List Char),
    ∀ c ∈ Nat.toDigitsCore 10 fuel n ds, (∃ d, d < 10 ∧ c = Nat.digitChar d) ∨ c ∈ ds := by
  induction fuel with
  | zero => intro n ds c hc; exact Or.inr hc
  | succ f ih =>
    intro n ds c hc
    have hd : n % 10 < 10 := Nat.mod_lt _ (by decide)
    simp only [Nat.toDigitsCore] at hc
    split at hc
    · rcases List.mem_cons.1 hc with h | h
      · exact Or.inl ⟨_, hd, h⟩
      · exact Or.inr h
    · rcases ih _ _ c hc with h | h
      · exact Or.inl h
      · rcases List.mem_cons.1 h with h | h
        · exact Or.inl ⟨_, hd, h⟩
        · exact Or.inr h

theorem toDigitsCore_ne_nil (fuel : Nat) : ∀ (n : Nat) (ds : List Char), n < fuel →
    Nat.toDigitsCore 10 fuel n ds ≠ [] := by
  induction fuel with
  | zero => intro n ds h; omega
  | succ f ih =>
    intro n ds h
    simp only [Nat.toDigitsCore]
    split
    · simp
    · exact ih _ _ (by omega)

/-- A nonempty list of decimal digit characters is read by `parseInt` as its decimal value. -/
theorem parseIntChars_of_digits (l : List Char) (hne : l ≠ [])
    (hl : ∀ c ∈ l, ∃ d, d < 10 ∧ c = Nat.digitChar d) :
    parseIntChars l = if (readDigits 10 l 0 false).2.1
      then some ((readDigits 10 l 0 false).1 : Int) else none := by
  match l, hne, hl with
  | a :: rest, _, hl =>
    obtain ⟨d, hd, rfl⟩ := hl a (List.mem_cons_self _ _)
    obtain ⟨hw, hm, hp, hx, hX, hpw⟩ := digitChar_plain d hd
    have hstrip : stripHex (Nat.digitChar d :: rest) = none := by
      match rest, hl with
      | [], _ => rfl
      | b :: r, hl =>
        obtain ⟨e, he, rfl⟩ := hl b (by simp)
        obtain ⟨_, _, _, hx, hX, _⟩ := digitChar_plain e he
        simp [stripHex, hx, hX]
    simp [parseIntChars, List.dropWhile, hw, hm, hp, hstrip]

theorem parseIntChars_repr (u : Nat) : parseIntChars (Nat.repr u).toList = some (u : Int) := by
  have hr := readDigits_toDigitsCore (u + 1) u [] false (Nat.lt_succ_self u)
  have hne := toDigitsCore_ne_nil (u + 1) u [] (Nat.lt_succ_self u)
  have hd : ∀ c ∈ Nat.toDigitsCore 10 (u + 1) u [], ∃ d, d < 10 ∧ c = Nat.digitChar d := by
    intro c hc
    rcases toDigitsCore_digits _ _ _ c hc with h | h
    · exact h
    · simp at h
  have := parseIntChars_of_digits _ hne hd
  simp only [Nat.repr, Nat.toDigits, List.asString, String.toList]
  rw [this, hr]
  simp [readDigits]

theorem int4in_of_digits (l : List Char) (hne : l ≠ [])
    (hl : ∀ c ∈ l, ∃ d, d < 10 ∧ c = Nat.digitChar d) :
    int4in l = if (readDigits 10 l 0 false).2.1 ∧ (readDigits 10 l 0 false).2.2.all pgWhite
      then some ((readDigits 10 l 0 false).1 : Int) else none := by
  match l, hne, hl with
  | a :: rest, _, hl =>
    obtain ⟨d, hd, rfl⟩ := hl a (List.mem_cons_self _ _)
    obtain ⟨hw, hm, hp, hx, hX, hpw⟩ := digitChar_plain d hd
    simp [int4in, List.dropWhile, hpw, hm, hp]

theorem int4in_repr (u : Nat) : int4in (Nat.repr u).toList = some (u : Int) := by
  have hr := readDigits_toDigitsCore (u + 1) u [] false (Nat.lt_succ_self u)
  have hne := toDigitsCore_ne_nil (u + 1) u [] (Nat.lt_succ_self u)
  have hd : ∀ c ∈ Nat.toDigitsCore 10 (u + 1) u [], ∃ d, d < 10 ∧ c = Nat.digitChar d := by
    intro c hc
    rcases toDigitsCore_digits _ _ _ c hc with h | h
    · exact h
    · simp at h
  have := int4in_of_digits _ hne hd
  simp only [Nat.repr, Nat.toDigits, List.asString, String.toList]
  rw [this, hr]
  simp [readDigits]

/-- An id given as the integer or as its decimal string is read by `parseInt` as the id. -/
theorem parseInt_decimal (u : Nat) (v : JsVal)
    (hv : v = .num (u : Int) ∨ v = .str (toString u)) : parseInt v = some (u : Int) := by
  rcases hv with rfl | rfl <;> exact parseIntChars_repr u

/-- An id given as the integer or as its decimal string is bound by the engine as the id. -/
theorem pgInt4_decimal (u : Nat) (v : JsVal)
    (hv : v = .num (u : Int) ∨ v = .str (toString u)) : pgInt4 v = .ok (some (u : Int)) := by
  have h : int4in (jsToString v).toList = some (u : Int) := by
    rcases hv with rfl | rfl <;> exact int4in_repr u
  rcases hv with rfl | rfl <;> simp only [pgInt4, h]

/-! ## Lemmas: ownership checks -/

theorem bindInt_ok {env : Env} {k : Nat} {v : JsVal} {id : Option Int}
    (h : bindInt env k v = .ok id) : pgInt4 v = .ok id := by
  unfold bindInt at h
  split at h
  · cases h
  · exact h

theorem ownedWorks_nil {db : Db} {actor : Nat} {target : JsVal} {id : Option Int}
    (h : WorkNotOwned db actor target) (hid : pgInt4 target = .ok id) :
    ownedWorks db.tables id actor = [] := by
  unfold ownedWorks
  rw [List.filter_eq_nil_iff]
  intro w hw
  simp only [decide_eq_true_eq, not_and]
  intro hw2
  exact h w hw (by rw [hid, hw2])

theorem updateWork_frame (env : Env) (db : Db) (actor : Nat) (target : JsVal) (title : String)
    (h : WorkNotOwned db actor target) : (updateWork env db actor target title).db = db := by
  unfold updateWork
  split
  · rfl
  · rename_i id hb
    rw [ownedWorks_nil h (bindInt_ok hb)]
    rfl

theorem deleteWork_frame (env : Env) (db : Db) (actor : Nat) (target : JsVal)
    (h : WorkNotOwned db actor target) : (deleteWork env db actor target).db = db := by
  unfold deleteWork
  split
  · rfl
  · rename_i id hb
    simp only [ownedWorks_nil h (bindInt_ok hb)]
    rfl

theorem addWorkImage_frame (env : Env) (db : Db) (actor : Nat) (target : JsVal) (url : String)
    (h : WorkNotOwned db actor target) : (addWorkImage env db actor target url).db = db := by
  unfold addWorkImage
  split
  · rfl
  · rename_i id hb
    simp only [ownedWorks_nil h (bindInt_ok hb)]
    rfl

theorem deleteWorkImage_frame (env : Env) (db : Db) (actor : Nat) (target : JsVal) (url : String)
    (h : WorkNotOwned db actor target) : (deleteWorkImage env db actor target url).db = db := by
  unfold deleteWorkImage
  split
  · rfl
  · rename_i id hb
    simp only [ownedWorks_nil h (bindInt_ok hb)]
    rfl

theorem userReview_hit_nil {db : Db} {actor : Nat} {target : JsVal} {id : Option Int}
    (h : UserReviewNotOwned db actor target) (hid : pgInt4 target = .ok id) :
    db.tables.userReviews.filter
      (fun r => decide (some (r.review_id : Int) = id ∧ r.reviewer_id = actor)) = [] := by
  rw [List.filter_eq_nil_iff]
  intro r hr
  simp only [decide_eq_true_eq, not_and]
  intro hr2
  exact h r hr (by rw [hid, hr2])

theorem workReview_hit_nil {db : Db} {actor : Nat} {target : JsVal} {id : Option Int}
    (h : WorkReviewNotOwned db actor target) (hid : pgInt4 target = .ok id) :
    db.tables.workReviews.filter
      (fun r => decide (some (r.review_id : Int) = id ∧ r.reviewer_id = actor)) = [] := by
  rw [List.filter_eq_nil_iff]
  intro r hr
  simp only [decide_eq_true_eq, not_and]
  intro hr2
  exact h r hr (by rw [hid, hr2])

theorem updateUserReview_frame (env : Env) (db : Db) (actor : Nat) (target : JsVal) (text : String)
    (h : UserReviewNotOwned db actor target) :
    (updateUserReview env db actor target text).db = db := by
  unfold updateUserReview
  split
  · rfl
  · rename_i id hb
    simp only [userReview_hit_nil h (bindInt_ok hb)]
    rfl

theorem deleteUserReview_frame (env : Env) (db : Db) (actor : Nat) (target : JsVal)
    (h : UserReviewNotOwned db actor target) :
    (deleteUserReview env db actor target).db = db := by
  unfold deleteUserReview
  split
  · rfl
  · rename_i id hb
    simp only [userReview_hit_nil h (bindInt_ok hb)]
    rfl

theorem updateWorkReview_frame (env : Env) (db : Db) (actor : Nat) (target : JsVal)
    (rating : Option Int) (text : Option String)
    (h : WorkReviewNotOwned db actor target) :
    (updateWorkReview env db actor target rating text).db = db := by
  unfold updateWorkReview
  split
  · rfl
  · rename_i id hb
    simp only [workReview_hit_nil h (bindInt_ok hb)]
    rfl

theorem deleteWorkReview_frame (env : Env) (db : Db) (actor : Nat) (target : JsVal)
    (h : WorkReviewNotOwned db actor target) :
    (deleteWorkReview env db actor target).db = db := by
  unfold deleteWorkReview
  split
  · rfl
  · rename_i id hb
    simp only [workReview_hit_nil h (bindInt_ok hb)]
    rfl

theorem bindInt_calm {env : Env} {k : Nat} (v : JsVal) (h : env.faults k = none) :
    bindInt env k v = pgInt4 v := by
  simp only [bindInt, h]

/-- With unique work ids, a work of another account under the target id is the only one. -/
theorem workNotOwned_of_other {db : Db} {actor : Nat} {v : JsVal} {w : Work}
    (hkey : WorksKey db.tables) (hw : w ∈ db.tables.works)
    (hv : pgInt4 v = .ok (some (w.work_id : Int))) (hown : w.user_id ≠ actor) :
    WorkNotOwned db actor v := by
  intro w2 hw2 hv2
  rw [hv] at hv2
  have hid : w2.work_id = w.work_id := by
    have := Except.ok.inj hv2
    have := Option.some.inj this
    exact_mod_cast this.symm
  have := List.inj_on_of_nodup_map hkey hw2 hw hid
  rw [this]; exact hown

theorem workNotOwned_of_missing {db : Db} {actor : Nat} {v : JsVal} {id : Option Int}
    (hv : pgInt4 v = .ok id) (hmiss : ∀ w ∈ db.tables.works, some (w.work_id : Int) ≠ id) :
    WorkNotOwned db actor v := by
  intro w hw hv2
  rw [hv] at hv2
  exact absurd (Except.ok.inj hv2).symm (hmiss w hw)

theorem updateWork_refused (env : Env) (db : Db) (actor : Nat) (v : JsVal) (title : String)
    (id : Option Int) (hv : pgInt4 v = .ok id) (h : WorkNotOwned db actor v) :
    updateWork env db actor v title = refusal env db .forwarded := by
  unfold updateWork refusal bindInt
  cases hf : env.faults 0 with
  | some e => rfl
  | none => simp only [hv, ownedWorks_nil h hv]; rfl

theorem deleteWork_refused (env : Env) (db : Db) (actor : Nat) (v : JsVal)
    (id : Option Int) (hv : pgInt4 v = .ok id) (h : WorkNotOwned db actor v) :
    deleteWork env db actor v = refusal env db .forwarded := by
  unfold deleteWork refusal bindInt
  cases hf : env.faults 0 with
  | some e => rfl
  | none => simp only [hv, ownedWorks_nil h hv]; rfl

theorem addWorkImage_refused (env : Env) (db : Db) (actor : Nat) (v : JsVal) (url : String)
    (id : Option Int) (hv : pgInt4 v = .ok id) (h : WorkNotOwned db actor v) :
    addWorkImage env db actor v url =
      refusal env db (catchUnique "This image already exists for this work") := by
  unfold addWorkImage refusal bindInt
  cases hf : env.faults 0 with
  | some e => rfl
  | none => simp only [hv, ownedWorks_nil h hv]; rfl

theorem deleteWorkImage_refused (env : Env) (db : Db) (actor : Nat) (v : JsVal) (url : String)
    (id : Option Int) (hv : pgInt4 v = .ok id) (h : WorkNotOwned db actor v) :
    deleteWorkImage env db actor v url = refusal env db .forwarded := by
  unfold deleteWorkImage refusal bindInt
  cases hf : env.faults 0 with
  | some e => rfl
  | none => simp only [hv, ownedWorks_nil h hv]; rfl

theorem refusal_calm (env : Env) (db : Db) (caught : PgError → Outcome)
    (h : env.faults 0 = none) :
    refusal env db caught = ⟨db, .json 404 (failure "Work not found or unauthorized")⟩ := by
  simp only [refusal, h]

/-! ## Ownership (claims C1 and C2) -/

/-- C1: when the targeted resource does not exist or its recorded owner (`Work.user_id`, or
the review's `reviewer_id`) is not the actor, each of `updateWork`, `deleteWork`,
`addWorkImage`, `deleteWorkImage`, `updateUserReview`, `deleteUserReview`,
`updateWorkReview` and `deleteWorkReview` leaves the whole store unchanged, for every
environment, store, actor, target id and request body. -/
theorem non_owner_mutation_leaves_store_unchanged (env : Env) (db : Db) (actor : Nat)
    (target : JsVal) (title url text : String) (rating : Option Int)
    (optText : Option String) :
    (WorkNotOwned db actor target →
      (updateWork env db actor target title).db = db ∧
      (deleteWork env db actor target).db = db ∧
      (addWorkImage env db actor target url).db = db ∧
      (deleteWorkImage env db actor target url).db = db) ∧
    (UserReviewNotOwned db actor target →
      (updateUserReview env db actor target text).db = db ∧
      (deleteUserReview env db actor target).db = db) ∧
    (WorkReviewNotOwned db actor target →
      (updateWorkReview env db actor target rating optText).db = db ∧
      (deleteWorkReview env db actor target).db = db) :=
  ⟨fun h => ⟨updateWork_frame env db actor target title h, deleteWork_frame env db actor target h,
      addWorkImage_frame env db actor target url h,
      deleteWorkImage_frame env db actor target url h⟩,
    fun h => ⟨updateUserReview_frame env db actor target text h,
      deleteUserReview_frame env db actor target h⟩,
    fun h => ⟨updateWorkReview_frame env db actor target rating optText h,
      deleteWorkReview_frame env db actor target h⟩⟩

/-- C1 at account 3 acting on work 1 (owned by account 2) and on reviews 1 (written by
account 1). -/
theorem non_owner_mutation_leaves_store_unchanged_witness :
    (WorkNotOwned sampleDb 3 (.str "1") ∧ UserReviewNotOwned sampleDb 3 (.str "1") ∧
      WorkReviewNotOwned sampleDb 3 (.str "1")) ∧
    ((updateWork calmEnv sampleDb 3 (.str "1") "Gate").db = sampleDb ∧
      (deleteWork calmEnv sampleDb 3 (.str "1")).db = sampleDb ∧
      (addWorkImage calmEnv sampleDb 3 (.str "1") "http://x.com/g.png").db = sampleDb ∧
      (deleteWorkImage calmEnv sampleDb 3 (.str "1") "http://x.com/g.png").db = sampleDb) ∧
    ((updateUserReview calmEnv sampleDb 3 (.str "1") "Rewritten by a stranger").db = sampleDb ∧
      (deleteUserReview calmEnv sampleDb 3 (.str "1")).db = sampleDb) ∧
    ((updateWorkReview calmEnv sampleDb 3 (.str "1") (some 1) none).db = sampleDb ∧
      (deleteWorkReview calmEnv sampleDb 3 (.str "1")).db = sampleDb) :=
  have h := non_owner_mutation_leaves_store_unchanged calmEnv sampleDb 3 (.str "1") "Gate"
    "http://x.com/g.png" "Rewritten by a stranger" (some 1) none
  ⟨⟨by decide, by decide, by decide⟩, h.1 (by decide), h.2.1 (by decide), h.2.2 (by decide)⟩

/-- C2: `updateWork` on the id of a work owned by another account and `updateWork` on a
work id that does not exist produce the identical result, and so do `deleteWork`,
`addWorkImage` and `deleteWorkImage`; when the ownership check is answered, that result
is status 404 with the body "Work not found or unauthorized" and the store unchanged:
there is no separate response for the non-owner. -/
theorem other_owner_and_missing_work_coincide (env : Env) (db : Db) (actor : Nat)
    (other missing : JsVal) (title url : String) (w : Work) (n : Option Int)
    (hkey : WorksKey db.tables) (hw : w ∈ db.tables.works)
    (hother : pgInt4 other = .ok (some (w.work_id : Int))) (hown : w.user_id ≠ actor)
    (hmissing : pgInt4 missing = .ok n)
    (habsent : ∀ x ∈ db.tables.works, some (x.work_id : Int) ≠ n) :
    (updateWork env db actor other title = updateWork env db actor missing title ∧
     deleteWork env db actor other = deleteWork env db actor missing ∧
     addWorkImage env db actor other url = addWorkImage env db actor missing url ∧
     deleteWorkImage env db actor other url = deleteWorkImage env db actor missing url) ∧
    (env.faults 0 = none →
      updateWork env db actor other title =
        ⟨db, .json 404 (failure "Work not found or unauthorized")⟩ ∧
      deleteWork env db actor other =
        ⟨db, .json 404 (failure "Work not found or unauthorized")⟩ ∧
      addWorkImage env db actor other url =
        ⟨db, .json 404 (failure "Work not found or unauthorized")⟩ ∧
      deleteWorkImage env db actor other url =
        ⟨db, .json 404 (failure "Work not found or unauthorized")⟩) := by
  have h1 := workNotOwned_of_other hkey hw hother hown
  have h2 : WorkNotOwned db actor missing := workNotOwned_of_missing hmissing habsent
  rw [updateWork_refused env db actor other title _ hother h1,
    updateWork_refused env db actor missing title _ hmissing h2,
    deleteWork_refused env db actor other _ hother h1,
    deleteWork_refused env db actor missing _ hmissing h2,
    addWorkImage_refused env db actor other url _ hother h1,
    addWorkImage_refused env db actor missing url _ hmissing h2,
    deleteWorkImage_refused env db actor other url _ hother h1,
    deleteWorkImage_refused env db actor missing url _ hmissing h2]
  refine ⟨⟨rfl, rfl, rfl, rfl⟩, fun hf => ?_⟩
  simp only [refusal_calm _ _ _ hf, and_self]

/-- C2 at account 1 acting on work 1 (owned by account 2) and on the absent work 77. -/
theorem other_owner_and_missing_work_coincide_witness :
    (updateWork calmEnv sampleDb 1 (.str "1") "Gate" =
        updateWork calmEnv sampleDb 1 (.str "77") "Gate" ∧
      deleteWork calmEnv sampleDb 1 (.str "1") = deleteWork calmEnv sampleDb 1 (.str "77") ∧
      addWorkImage calmEnv sampleDb 1 (.str "1") "http://x.com/g.png" =
        addWorkImage calmEnv sampleDb 1 (.str "77") "http://x.com/g.png" ∧
      deleteWorkImage calmEnv sampleDb 1 (.str "1") "http://x.com/g.png" =
        deleteWorkImage calmEnv sampleDb 1 (.str "77") "http://x.com/g.png") ∧
    updateWork calmEnv sampleDb 1 (.str "1") "Gate" =
      ⟨sampleDb, .json 404 (failure "Work not found or unauthorized")⟩ :=
  have h := other_owner_and_missing_work_coincide calmEnv sampleDb 1 (.str "1") (.str "77")
    "Gate" "http://x.com/g.png" ⟨1, 2, "Fence"⟩ (some 77) (by decide) (by decide) (by decide)
    (by decide) (by decide) (by decide)
  ⟨h.1, (h.2 rfl).1⟩

/-! ## Authentication (claim C3) -/

/-- Whenever `bcrypt.compare` resolves to false for the accounts of the known email, which
takes a password that is a string, `login` with an email that matches no account (any
password value) and `login` with the known email return the identical result; when the
lookup is answered it is status 401 with `success` false, the message "Invalid email or
password" and no other field. -/
theorem login_failures_coincide (env : Env) (db : Db)
    (unknownEmail knownEmail : String) (anyPassword wrongPassword : JsVal)
    (hunknown : ∀ u ∈ db.tables.users, u.email ≠ unknownEmail)
    (hwrong : ∀ u ∈ db.tables.users, u.email = knownEmail →
      bcryptCompare env wrongPassword u.password = .ok false) :
    login env db unknownEmail anyPassword = login env db knownEmail wrongPassword ∧
    (env.faults 0 = none →
      login env db knownEmail wrongPassword =
        ⟨db, .json 401 { success := false, message := some "Invalid email or password",
                         count := none, average_rating := none, data := Payload.empty }⟩) := by
  have h2 : ∀ (e : String) (p : JsVal),
      (∀ u ∈ db.tables.users, u.email = e → bcryptCompare env p u.password = .ok false) →
      login env db e p = match env.faults 0 with
        | some err => ⟨db, .forwarded err⟩
        | none => ⟨db, .json 401 (failure "Invalid email or password")⟩ := by
    intro e p hp
    unfold login
    cases env.faults 0 with
    | some err => rfl
    | none =>
      simp only
      split
      · rfl
      · rename_i user rest hfil
        have hmem : user ∈ db.tables.users.filter (fun u => decide (u.email = e)) := by
          rw [hfil]; exact List.mem_cons_self _ _
        rw [List.mem_filter] at hmem
        have := hp user hmem.1 (by simpa using hmem.2)
        simp [this]
  have h3 := h2 unknownEmail anyPassword (fun u hu he => absurd he (hunknown u hu))
  have h4 := h2 knownEmail wrongPassword hwrong
  refine ⟨by rw [h3, h4], fun hf => ?_⟩
  rw [h4, hf]
  rfl

/-- The coincidence of the two failures at an unknown email and at the email of account 1
with a wrong password, both passwords being strings. -/
theorem login_failures_coincide_witness :
    (∃ u ∈ sampleDb.tables.users, u.email = "ann@x.com") ∧
    login calmEnv sampleDb "zed@x.com" (.str "secret1") =
      login calmEnv sampleDb "ann@x.com" (.str "guess") ∧
    login calmEnv sampleDb "ann@x.com" (.str "guess") =
      ⟨sampleDb, .json 401 { success := false, message := some "Invalid email or password",
                             count := none, average_rating := none, data := Payload.empty }⟩ :=
  have h := login_failures_coincide calmEnv sampleDb "zed@x.com" "ann@x.com"
    (.str "secret1") (.str "guess") (by decide) (by decide)
  ⟨by decide, h.1, h.2 rfl⟩

/-- C3 fails on a password that is not a string: with the JSON number 12345 as password,
`login` with an email that matches no account answers 401 "Invalid email or password",
while `login` with the email of account 1, whose stored hash the number does not match,
answers nothing: `bcrypt.compare` rejects and the error is passed to `next`.  The two
outcomes differ, so the answer tells whether the email exists.  (For passwords that are
strings see `login_failures_coincide`.) -/
theorem login_number_password_tells_accounts :
    (∀ u ∈ sampleDb.tables.users, u.email ≠ "zed@x.com") ∧
    (∃ u ∈ sampleDb.tables.users, u.email = "ann@x.com") ∧
    login calmEnv sampleDb "zed@x.com" (.num 12345) =
      ⟨sampleDb, .json 401 { success := false, message := some "Invalid email or password",
                             count := none, average_rating := none, data := Payload.empty }⟩ ∧
    login calmEnv sampleDb "ann@x.com" (.num 12345) =
      ⟨sampleDb, .forwarded ⟨"", "Illegal arguments: number, string"⟩⟩ ∧
    login calmEnv sampleDb "zed@x.com" (.num 12345) ≠
      login calmEnv sampleDb "ann@x.com" (.num 12345) := by
  decide

/-! ## Lemmas: the statement text of `createWork` -/

theorem intercalate_go_data (sep : String) (l : List String) : ∀ (acc : String),
    (String.intercalate.go acc sep l).data = acc.data ++ l.flatMap fun a => sep.data ++ a.data := by
  induction l with
  | nil => intro acc; simp [String.intercalate.go]
  | cons a as ih =>
    intro acc
    simp [String.intercalate.go, ih, String.data_append, List.append_assoc]

theorem toDigitsCore_append (fuel : Nat) : ∀ (n : Nat) (ds rest : List Char),
    Nat.toDigitsCore 10 fuel n ds ++ rest = Nat.toDigitsCore 10 fuel n (ds ++ rest) := by
  induction fuel with
  | zero => intro n ds rest; rfl
  | succ f ih =>
    intro n ds rest
    simp only [Nat.toDigitsCore]
    split
    · rfl
    · rw [ih]; rfl

theorem readLiteral_step (c x : Char) (xs acc : List Char) (hc : c ≠ quote) :
    readLiteral (c :: x :: xs) acc = readLiteral (x :: xs) (c :: acc) := by
  simp [readLiteral, hc]

/-- A literal without quote characters is read back as it was written. -/
theorem readLiteral_plain (body : List Char) : ∀ (acc : List Char) (d : Char) (rest : List Char),
    quote ∉ body → d ≠ quote →
    readLiteral (body ++ quote :: d :: rest) acc = some (acc.reverse ++ body, d :: rest) := by
  induction body with
  | nil =>
    intro acc d rest _ hd
    simp [readLiteral, hd]
  | cons c cs ih =>
    intro acc d rest hq hd
    have hc : c ≠ quote := fun h => hq (h ▸ List.mem_cons_self _ _)
    have hcs : quote ∉ cs := fun h => hq (List.mem_cons_of_mem _ h)
    obtain ⟨x, xs, hx⟩ : ∃ x xs, cs ++ quote :: d :: rest = x :: xs := by
      cases cs with
      | nil => exact ⟨_, _, rfl⟩
      | cons e es => exact ⟨_, _, rfl⟩
    rw [List.cons_append, hx, readLiteral_step c x xs acc hc, ← hx, ih (c :: acc) d rest hcs hd]
    simp

theorem readDigits_stop (n : Nat) (c : Char) (rest : List Char) (hc : digitVal 10 c = none) :
    readDigits 10 (c :: rest) n true = (n, true, c :: rest) := by
  simp [readDigits, hc]

theorem readDigits_repr (n : Nat) (c : Char) (rest : List Char) (hc : digitVal 10 c = none) :
    readDigits 10 ((toString n).toList ++ c :: rest) 0 false = (n, true, c :: rest) := by
  show readDigits 10 ((Nat.toDigits 10 n).asString.toList ++ c :: rest) 0 false = _
  simp only [Nat.toDigits, List.asString, String.toList]
  rw [toDigitsCore_append, readDigits_toDigitsCore (n + 1) n _ false (Nat.lt_succ_self n)]
  exact readDigits_stop n c rest hc

/-- The text of one row. -/
theorem rowText (id : Nat) (img : String) :
    ("(" ++ toString id ++ ", " ++ quote.toString ++ img ++ quote.toString ++ ")").toList =
      '(' :: ((toString id).toList ++ ',' :: ' ' :: quote :: (img.toList ++ [quote, ')'])) := by
  simp [String.toList, String.data_append, Char.toString, String.singleton]

theorem readTuple_row (id : Nat) (img : String) (rest : List Char) (hq : quote ∉ img.toList) :
    readTuple (("(" ++ toString id ++ ", " ++ quote.toString ++ img ++ quote.toString ++
      ")").toList ++ rest) = some ((id, img), rest) := by
  rw [rowText]
  simp only [readTuple, List.cons_append, List.append_assoc, if_true]
  rw [readDigits_repr id ',' _ (by decide)]
  simp only [and_self, if_true, List.singleton_append, List.nil_append]
  rw [readLiteral_plain img.toList [] ')' rest hq (by decide)]
  simp [String.toList]

/-- The rows the engine reads out of the text that `createWork` assembles from image
strings without quote characters are the images of the request, in order. -/
theorem readTuples_rows (id : Nat) : ∀ (imgs : List String) (img : String) (fuel : Nat),
    imgs.length < fuel → (∀ i ∈ img :: imgs, quote ∉ i.toList) →
    readTuples fuel (imageValues id (img :: imgs)).toList =
      some ((img :: imgs).map fun i => (id, i), []) := by
  intro imgs
  induction imgs with
  | nil =>
    intro img fuel hf hq
    obtain ⟨f, rfl⟩ : ∃ f, fuel = f + 1 := ⟨fuel - 1, by omega⟩
    have := readTuple_row id img [] (hq img (List.mem_cons_self _ _))
    simp only [List.append_nil] at this
    have h : imageValues id [img] =
        "(" ++ toString id ++ ", " ++ quote.toString ++ img ++ quote.toString ++ ")" := rfl
    rw [h, readTuples, this]
    rfl
  | cons b bs ih =>
    intro img fuel hf hq
    obtain ⟨f, rfl⟩ : ∃ f, fuel = f + 1 := ⟨fuel - 1, by omega⟩
    have hlen : bs.length < f := by simp at hf; omega
    have ih2 := ih b f hlen (fun i hi => hq i (List.mem_cons_of_mem _ hi))
    have htext : (imageValues id (img :: b :: bs)).toList =
        ("(" ++ toString id ++ ", " ++ quote.toString ++ img ++ quote.toString ++ ")").toList ++
          ',' :: (imageValues id (b :: bs)).toList := by
      simp only [imageValues, String.intercalate, List.map_cons, String.toList,
        intercalate_go_data, List.flatMap_cons, List.append_assoc]
      rfl
    rw [htext, readTuples, readTuple_row id img _ (hq img (List.mem_cons_self _ _))]
    simp only [if_true, ih2]
    rfl

theorem length_imageValues (id : Nat) : ∀ (imgs : List String) (img : String),
    imgs.length < (imageValues id (img :: imgs)).toList.length := by
  intro imgs
  induction imgs with
  | nil =>
    intro img
    have h : imageValues id [img] =
        "(" ++ toString id ++ ", " ++ quote.toString ++ img ++ quote.toString ++ ")" := rfl
    rw [h, rowText]
    simp
  | cons b bs ih =>
    intro img
    have htext : (imageValues id (img :: b :: bs)).toList =
        ("(" ++ toString id ++ ", " ++ quote.toString ++ img ++ quote.toString ++ ")").toList ++
          ',' :: (imageValues id (b :: bs)).toList := by
      simp only [imageValues, String.intercalate, List.map_cons, String.toList,
        intercalate_go_data, List.flatMap_cons, List.append_assoc]
      rfl
    have := ih b
    rw [htext, List.length_append, List.length_cons, List.length_cons]
    omega

/-- Image strings without quote characters are read by the engine as the rows meant. -/
theorem readScript_plain (id : Nat) (img : String) (imgs : List String)
    (hq : ∀ i ∈ img :: imgs, quote ∉ i.toList) :
    readScript (imageValues id (img :: imgs)).toList =
      some ⟨(img :: imgs).map fun i => (id, i), []⟩ := by
  unfold readScript
  rw [readTuples_rows id imgs img _ (Nat.lt_succ_of_lt (length_imageValues id imgs img)) hq]

/-- On such text `runValues` never ends the transaction block nor touches committed rows. -/
theorem runValues_plain (env : Env) (id : Nat) (img : String) (imgs : List String)
    (s : Session) (t : Tables)
    (hq : ∀ i ∈ img :: imgs, quote ∉ i.toList) (ht : s.txn = some t) :
    (runValues env (imageValues id (img :: imgs)).toList s).1.committed = s.committed ∧
    ((runValues env (imageValues id (img :: imgs)).toList s).1.txn).isSome := by
  unfold runValues
  rw [readScript_plain id img imgs hq]
  simp only
  split
  · exact ⟨rfl, by simp [ht]⟩
  · split
    · simp [Session.write, ht]
    · exact ⟨rfl, by simp [ht]⟩

theorem insertWork_committed (s : Session) (actor : Nat) (title : String) (t : Tables)
    (ht : s.txn = some t) :
    (insertWork s actor title).1.committed = s.committed ∧
    ∃ t1, (insertWork s actor title).1.txn = some t1 := by
  unfold insertWork
  simp only
  split
  · exact ⟨rfl, t, ht⟩
  · split
    · simp [Session.write, ht]
    · exact ⟨rfl, t, ht⟩

theorem insertImagesStep_plain (env : Env) (s : Session) (t : Tables) (id : Nat)
    (images : Option (List String))
    (hq : QuoteFree images) (ht : s.txn = some t) :
    (insertImagesStep env s id images).1.committed = s.committed := by
  unfold insertImagesStep
  split
  · rename_i img imgs
    cases env.faults 3 with
    | some e => rfl
    | none => exact (runValues_plain env id img imgs s t (hq _ rfl) ht).1
  · rfl

theorem readBackAndCommit_error (env : Env) (s : Session) (id : Nat) (e : PgError)
    (h : (readBackAndCommit env s id).2.2 = .error e) :
    (readBackAndCommit env s id).1 = s ∧
    ((readBackAndCommit env s id).2.1 = [.readBack] ∨
      (readBackAndCommit env s id).2.1 = [.readBack, .commit]) := by
  unfold readBackAndCommit at h ⊢
  cases h4 : env.faults 4 with
  | some e4 => exact ⟨rfl, Or.inl rfl⟩
  | none =>
    simp only [h4] at h ⊢
    cases h5 : env.faults 5 with
    | some e5 => exact ⟨rfl, Or.inr rfl⟩
    | none => simp only [h5] at h; cases h

/-- Whenever the `try` block of `createWork` throws on a request whose image strings hold
no quote character, the committed rows of the session are those it started with. -/
theorem createWorkTry_committed (env : Env) (db : Db) (actor : Nat) (title : String)
    (images : Option (List String)) (e : PgError)
    (hq : QuoteFree images)
    (h : (createWorkTry env ⟨db.tables, none, db.seq⟩ actor title images).2.2 = .error e) :
    (createWorkTry env ⟨db.tables, none, db.seq⟩ actor title images).1.committed =
      db.tables := by
  unfold createWorkTry at h ⊢
  cases h1 : env.faults 1 with
  | some e1 => rfl
  | none =>
    simp only [h1] at h ⊢
    cases h2 : env.faults 2 with
    | some e2 => rfl
    | none =>
      simp only [h2] at h ⊢
      have hb : (Session.begin ⟨db.tables, none, db.seq⟩).txn = some db.tables := rfl
      obtain ⟨hc, t1, ht1⟩ := insertWork_committed _ actor title _ hb
      generalize insertWork (Session.begin ⟨db.tables, none, db.seq⟩) actor title = r
        at hc ht1 h
      obtain ⟨s2, res⟩ := r
      cases res with
      | error e2 => exact hc
      | ok work =>
        simp only at h hc ht1 ⊢
        have h3 := insertImagesStep_plain env s2 t1 work.work_id images hq ht1
        generalize insertImagesStep env s2 work.work_id images = r3 at h3 h
        obtain ⟨s3, ev, oe⟩ := r3
        cases oe with
        | some e3 => simp only at h3 ⊢; rw [h3]; exact hc
        | none =>
          simp only at h h3 ⊢
          have h4 := (readBackAndCommit_error env s3 work.work_id e h).1
          rw [h4, h3]; exact hc

/-- On a request whose image strings hold no quote character, whenever `createWork`
forwards an error the committed rows are those before the call, and `ROLLBACK` was issued
right before the error was forwarded. -/
theorem createWork_all_or_nothing_plain (env : Env) (db : Db) (actor : Nat) (title : String)
    (images : Option (List String)) (e : PgError)
    (hq : QuoteFree images)
    (h : (createWork env db actor title images).out = .forwarded e) :
    (createWork env db actor title images).db.tables = db.tables ∧
    ∃ steps, (createWork env db actor title images).trace =
      steps ++ [.rollback, .next, .release] := by
  unfold createWork at h ⊢
  cases h0 : env.faults 0 with
  | some e0 => simp only [h0] at h; cases h
  | none =>
    simp only [h0] at h ⊢
    have hc := createWorkTry_committed env db actor title images
    generalize createWorkTry env ⟨db.tables, none, db.seq⟩ actor title images = r at hc h
    obtain ⟨s, ev, res⟩ := r
    cases res with
    | ok row => simp only at h; cases h
    | error e1 =>
      simp only at h ⊢
      cases h6 : env.faults 6 with
      | some e6 => simp only [h6] at h; cases h
      | none =>
        simp only [h6]
        exact ⟨hc e1 hq rfl, [.connect] ++ ev, by simp⟩

theorem insertImageRows_ok : ∀ (rows : List (Nat × String)) (t : Tables),
    (∀ r ∈ rows, ∀ i ∈ t.workImages, ¬ (i.work_id = r.1 ∧ i.work_img_url = r.2)) →
    rows.Nodup →
    insertImageRows t rows =
      .ok { t with workImages := t.workImages ++ rows.map fun r => ⟨r.1, r.2⟩ } := by
  intro rows
  induction rows with
  | nil => intro t _ _; simp [insertImageRows]
  | cons r rs ih =>
    intro t hnew hnd
    rw [List.nodup_cons] at hnd
    have hany : (t.workImages.any fun i =>
        decide (i.work_id = r.1 ∧ i.work_img_url = r.2)) = false := by
      rw [List.any_eq_false]
      intro i hi
      simpa using hnew r (List.mem_cons_self _ _) i hi
    rw [insertImageRows]
    simp only [hany, Bool.false_eq_true, if_false]
    rw [ih]
    · simp
    · intro r2 hr2 i hi
      simp only [List.mem_append, List.mem_singleton] at hi
      rcases hi with hi | rfl
      · exact hnew r2 (List.mem_cons_of_mem _ hr2) i hi
      · simp only [not_and]
        intro h1 h2
        exact hnd.1 (by
          have : r = r2 := Prod.ext h1 h2
          rw [this]; exact hr2)
    · exact hnd.2

theorem insertWork_fresh (t : Tables) (seq : Seqs) (actor : Nat) (title : String)
    (hactor : ∃ u ∈ t.users, u.user_id = actor)
    (hfresh : ∀ w ∈ t.works, w.work_id ≠ seq.work + 1) :
    insertWork (Session.begin ⟨t, none, seq⟩) actor title =
      (⟨t, some { t with works := t.works ++ [⟨seq.work + 1, actor, title⟩] },
         { seq with work := seq.work + 1 }⟩, .ok ⟨seq.work + 1, actor, title⟩) := by
  have h1 : (t.works.any fun w => decide (w.work_id = seq.work + 1)) = false := by
    rw [List.any_eq_false]
    intro w hw
    simpa using hfresh w hw
  have h2 : (t.users.any fun u => decide (u.user_id = actor)) = true := by
    obtain ⟨u, hu, hua⟩ := hactor
    rw [List.any_eq_true]
    exact ⟨u, hu, by simpa using hua⟩
  simp [insertWork, Session.begin, Session.view, Session.write, h1, h2]

theorem readBack_fresh (t : Tables) (wid actor : Nat) (title : String) (urls : List String)
    (hfresh : ∀ w ∈ t.works, w.work_id ≠ wid)
    (hfreshImg : ∀ i ∈ t.workImages, i.work_id ≠ wid) :
    readBack { t with works := t.works ++ [⟨wid, actor, title⟩]
                      workImages := t.workImages ++ urls.map fun u => ⟨wid, u⟩ } wid =
      [⟨wid, actor, title, some urls⟩] := by
  have hw : (t.works ++ [(⟨wid, actor, title⟩ : Work)]).filter
      (fun w => decide (w.work_id = wid)) = [⟨wid, actor, title⟩] := by
    rw [List.filter_append]
    have : t.works.filter (fun w => decide (w.work_id = wid)) = [] := by
      rw [List.filter_eq_nil_iff]
      intro w hw
      simpa using hfresh w hw
    simp [this]
  have hi : (t.workImages ++ urls.map fun u => (⟨wid, u⟩ : WorkImage)).filter
      (fun i => decide (wid = i.work_id)) = urls.map fun u => ⟨wid, u⟩ := by
    rw [List.filter_append]
    have h1 : t.workImages.filter (fun i => decide (wid = i.work_id)) = [] := by
      rw [List.filter_eq_nil_iff]
      intro i hi
      simpa [eq_comm] using hfreshImg i hi
    have h2 : (urls.map fun u => (⟨wid, u⟩ : WorkImage)).filter
        (fun i => decide (wid = i.work_id)) = urls.map fun u => ⟨wid, u⟩ := by
      rw [List.filter_eq_self]
      intro i hi
      obtain ⟨u, _, rfl⟩ := List.mem_map.1 hi
      simp
    rw [h1, h2, List.nil_append]
  have hd : [(⟨wid, actor, title⟩ : Work)].dedup = [⟨wid, actor, title⟩] := by simp
  have hagg : coalesceArray (jsonAgg ((urls.map fun u => (⟨wid, u⟩ : WorkImage)).map
      fun i => some i.work_img_url)) = some urls := by
    have hfm : ∀ l : List String, List.filterMap id
        ((l.map fun u => (⟨wid, u⟩ : WorkImage)).map fun i => some i.work_img_url) = l := by
      intro l
      induction l with
      | nil => rfl
      | cons a as ih =>
        rw [List.map_cons, List.map_cons, List.filterMap_cons]
        simp only [id_eq]
        rw [ih]
    cases urls with
    | nil => rfl
    | cons u us =>
      have := hfm (u :: us)
      simp only [jsonAgg, this, coalesceArray]
  unfold readBack
  simp only [hw, hd, List.map_cons, List.map_nil, List.filter_cons, decide_True, if_true,
    List.filter_nil, List.flatMap_cons, List.flatMap_nil, List.append_nil, joinImages, hi]
  cases urls with
  | nil => rfl
  | cons u us =>
    have := hagg
    simp only [List.map_cons] at this ⊢
    rw [this]

theorem insertImagesStep_fresh (env : Env) (c t : Tables) (seq : Seqs) (wid : Nat)
    (images : Option (List String))
    (h3 : env.faults 3 = none)
    (hq : QuoteFree images)
    (hnd : (images.getD []).Nodup)
    (hfreshImg : ∀ i ∈ t.workImages, i.work_id ≠ wid)
    (hwork : ∃ w ∈ t.works, w.work_id = wid) :
    ∃ ev, insertImagesStep env ⟨c, some t, seq⟩ wid images =
      (⟨c, some { t with workImages :=
          t.workImages ++ (images.getD []).map fun u => ⟨wid, u⟩ }, seq⟩, ev, none) := by
  unfold insertImagesStep
  split
  · rename_i img imgs
    simp only [h3, Option.getD_some] at hnd ⊢
    refine ⟨[.insertImages], ?_⟩
    have hrows : insertImageRows t ((img :: imgs).map fun i => (wid, i)) =
        .ok { t with workImages := t.workImages ++
          ((img :: imgs).map fun i => (wid, i)).map fun r => ⟨r.1, r.2⟩ } := by
      apply insertImageRows_ok
      · intro r hr i hi hri
        obtain ⟨u, _, rfl⟩ := List.mem_map.1 hr
        exact hfreshImg i hi hri.1
      · exact hnd.map (fun a b hab => (Prod.mk.inj hab).2)
    have hfk : (((img :: imgs).map fun i => (wid, i)).all fun r =>
        t.works.any fun w => decide (w.work_id = r.1)) = true := by
      rw [List.all_eq_true]
      intro r hr
      obtain ⟨u, _, rfl⟩ := List.mem_map.1 hr
      obtain ⟨w, hw, hww⟩ := hwork
      rw [List.any_eq_true]
      exact ⟨w, hw, by simpa using hww⟩
    simp only [runValues, readScript_plain wid img imgs (hq _ rfl), Session.view,
      Option.getD_some, hrows, hfk, if_true, List.foldl_nil, Session.write, List.map_map]
    rfl
  · rename_i hno
    have hL : images.getD [] = [] := by
      cases images with
      | none => rfl
      | some l =>
        cases l with
        | nil => rfl
        | cons a as => exact absurd rfl (hno a as)
    refine ⟨[], ?_⟩
    simp [hL]

/-- On a request whose image strings are pairwise distinct and hold no quote character,
made by an existing account on a store that answers, `createWork` creates the work and
returns it with exactly the images of the request; with no images, the empty array. -/
theorem createWork_succeeds_plain (env : Env) (db : Db) (actor : Nat) (title : String)
    (images : Option (List String))
    (hcalm : ∀ k, k ≤ 5 → env.faults k = none)
    (hactor : ∃ u ∈ db.tables.users, u.user_id = actor)
    (hfresh : ∀ w ∈ db.tables.works, w.work_id ≠ db.seq.work + 1)
    (hfreshImg : ∀ i ∈ db.tables.workImages, i.work_id ≠ db.seq.work + 1)
    (hq : QuoteFree images)
    (hnd : (images.getD []).Nodup) :
    (createWork env db actor title images).out =
      .json 201 { success := true, message := some "Work created successfully",
                  data := .workWithImages
                    (some ⟨db.seq.work + 1, actor, title, some (images.getD [])⟩) } ∧
    (createWork env db actor title images).db.tables =
      { db.tables with
        works := db.tables.works ++ [⟨db.seq.work + 1, actor, title⟩]
        workImages := db.tables.workImages ++
          (images.getD []).map fun u => ⟨db.seq.work + 1, u⟩ } := by
  obtain ⟨ev, hstep⟩ := insertImagesStep_fresh env db.tables
    { db.tables with works := db.tables.works ++ [⟨db.seq.work + 1, actor, title⟩] }
    { db.seq with work := db.seq.work + 1 } (db.seq.work + 1) images (hcalm 3 (by omega)) hq hnd
    hfreshImg ⟨⟨db.seq.work + 1, actor, title⟩, by simp, rfl⟩
  have hrb := readBack_fresh db.tables (db.seq.work + 1) actor title (images.getD [])
    hfresh hfreshImg
  simp only [createWork, createWorkTry, hcalm 0 (by omega), hcalm 1 (by omega),
    hcalm 2 (by omega), insertWork_fresh db.tables db.seq actor title hactor hfresh, hstep,
    readBackAndCommit, hcalm 4 (by omega), hcalm 5 (by omega), Session.view, Option.getD_some,
    hrb, Session.commit, List.head?_cons]
  exact ⟨trivial, trivial⟩

/-! ## The composite write (claims C4, C5 and C6) -/

/-- C4, evaluated where it fails: the image text of the request closes its own row and
carries a `COMMIT`; the read-back then fails.  `ROLLBACK` is issued and the error is
forwarded, yet the committed store holds the new `Work` and `WorkImage` rows.  (For
requests without quote characters see `createWork_all_or_nothing_plain`.) -/
theorem createWork_commit_inside_image_text :
    createWork readBackDown sampleDb 1 "Shed" (some [commitUrl]) =
      ⟨{ tables := { sampleDb.tables with
            works := sampleDb.tables.works ++ [⟨2, 1, "Shed"⟩]
            workImages := sampleDb.tables.workImages ++ [⟨2, "http://x.com/a"⟩] }
         seq := { sampleDb.seq with work := 2 } },
        .forwarded ⟨"08006", "connection failure"⟩,
        [.connect, .begin, .insertWork, .insertImages, .readBack, .rollback, .next,
          .release]⟩ := by
  decide

/-- C5, evaluated where it fails: with the same URL twice, `createWork` rolls back and
forwards the engine's uniqueness violation as it is, while `addWorkImage` answers the same
violation with status 400 and "This image already exists for this work". -/
theorem createWork_duplicate_image_untranslated :
    createWork calmEnv sampleDb 1 "Shed" (some ["http://x.com/s.png", "http://x.com/s.png"]) =
      ⟨{ sampleDb with seq := { sampleDb.seq with work := 2 } },
        .forwarded ⟨uniqueViolation, "duplicate key value violates unique constraint"⟩,
        [.connect, .begin, .insertWork, .insertImages, .rollback, .next, .release]⟩ ∧
    (addWorkImage calmEnv sampleDb 2 (.str "1") "http://x.com/fence.png").out =
      .json 400 (failure "This image already exists for this work") := by
  decide

/-- C6, evaluated where it fails: a URL with a doubled quote character is stored and
returned with a single one, so the returned images are not the URLs of the request.  (For
requests without quote characters see `createWork_succeeds_plain`.) -/
theorem createWork_rewrites_quoted_url :
    (createWork calmEnv sampleDb 1 "Shed" (some [doubledQuoteUrl])).out =
      .json 201 { success := true, message := some "Work created successfully",
                  data := .workWithImages (some ⟨2, 1, "Shed", some [singleQuoteUrl]⟩) } ∧
    singleQuoteUrl ≠ doubledQuoteUrl := by
  decide

/-! ## Aggregation (claim C7) -/

theorem length_insertDesc (x : WorkReviewRow) (l : List WorkReviewRow) :
    (insertDesc x l).length = l.length + 1 := by
  induction l with
  | nil => rfl
  | cons y ys ih =>
    simp only [insertDesc]
    split
    · rfl
    · simp [ih]

theorem length_orderDesc (l : List WorkReviewRow) : (orderDesc l).length = l.length := by
  induction l with
  | nil => rfl
  | cons x xs ih => simp [orderDesc, length_insertDesc, ih]

theorem length_flatMap_one {α β : Type} (f : α → List β) (l : List α)
    (h : ∀ a ∈ l, (f a).length = 1) : (l.flatMap f).length = l.length := by
  induction l with
  | nil => rfl
  | cons a as ih =>
    rw [List.flatMap_cons, List.length_append, h a (List.mem_cons_self _ _),
      ih (fun b hb => h b (List.mem_cons_of_mem _ hb))]
    simp [Nat.add_comm]

/-- A key value selects at most one row. -/
theorem length_filter_key_le {α : Type} (key : α → Nat) (l : List α) (k : Nat)
    (hkey : (l.map key).Nodup) : (l.filter fun a => decide (k = key a)).length ≤ 1 := by
  induction l with
  | nil => simp
  | cons a as ih =>
    rw [List.map_cons, List.nodup_cons] at hkey
    rw [List.filter_cons]
    split
    · rename_i ha
      have hk : k = key a := by simpa using ha
      have : as.filter (fun a => decide (k = key a)) = [] := by
        rw [List.filter_eq_nil_iff]
        intro b hb hb2
        have hb3 : k = key b := by simpa using hb2
        exact hkey.1 (List.mem_map.2 ⟨b, hb, by rw [← hb3, hk]⟩)
      simp [this]
    · exact ih hkey.2

/-- A key value that occurs selects exactly one row. -/
theorem length_filter_key_eq {α : Type} (key : α → Nat) (l : List α) (k : Nat)
    (hkey : (l.map key).Nodup) (hex : ∃ a ∈ l, key a = k) :
    (l.filter fun a => decide (k = key a)).length = 1 := by
  have hle := length_filter_key_le key l k hkey
  obtain ⟨a, ha, hak⟩ := hex
  have hmem : a ∈ l.filter fun a => decide (k = key a) := by
    rw [List.mem_filter]; exact ⟨ha, by simp [hak]⟩
  have := List.length_pos_of_mem hmem
  omega

theorem length_reviewRows (t : Tables) (id : Option Int)
    (hu : UsersKey t) (hp : ProfileImagesKey t) (hr : WorkReviewerRef t) :
    (reviewRows t id).length =
      (t.workReviews.filter fun wr => decide (some (wr.work_id : Int) = id)).length := by
  unfold reviewRows
  rw [length_orderDesc]
  apply length_flatMap_one
  intro wr hwr
  rw [List.mem_filter] at hwr
  have h1 := length_filter_key_eq (fun u : User => u.user_id) t.users wr.reviewer_id hu (hr wr hwr.1)
  have h2 := length_filter_key_le (fun p : UserProfileImage => p.user_id) t.profileImages
    wr.reviewer_id hp
  rw [← h1]
  apply length_flatMap_one
  intro u _
  split
  · rfl
  · rename_i ps hps
    rw [List.length_map]
    cases hfil : t.profileImages.filter (fun p => decide (wr.reviewer_id = p.user_id)) with
    | nil => exact absurd hfil (by simpa using hps)
    | cons a l =>
      rw [hfil] at h2
      simp at h2
      simp [h2]

theorem parseFloatOrZero_some (q : ℚ) : parseFloatOrZero (some q) = q := by
  unfold parseFloatOrZero
  split <;> simp_all

/-- C7: for every work id, `getWorkReviews` answers with a `count` equal to the number of
`WorkReview` rows of that work and an `average_rating` that is exactly 0 when there are
none and the arithmetic mean of their ratings otherwise.  The store satisfies its key
and reference constraints and both statements are answered. -/
theorem getWorkReviews_average (env : Env) (db : Db) (workId : JsVal) (id : Option Int)
    (hu : UsersKey db.tables) (hp : ProfileImagesKey db.tables)
    (hr : WorkReviewerRef db.tables)
    (h0 : env.faults 0 = none) (h1 : env.faults 1 = none)
    (hid : pgInt4 workId = .ok id) :
    ∃ body, getWorkReviews env db workId = ⟨db, .json 200 body⟩ ∧
      body.count = some
        (db.tables.workReviews.filter fun wr => decide (some (wr.work_id : Int) = id)).length ∧
      body.average_rating = some
        (let ratings : List Int := (db.tables.workReviews.filter
            fun wr => decide (some (wr.work_id : Int) = id)).map (·.rating)
         if ratings = [] then 0 else ((ratings.sum : Int) : ℚ) / (ratings.length : ℚ)) := by
  unfold getWorkReviews
  simp only [bindInt_calm _ h0, bindInt_calm _ h1, hid]
  refine ⟨_, rfl, ?_, ?_⟩
  · simp only [length_reviewRows _ _ hu hp hr]
  · simp only [sqlAvg]
    cases hfil : (db.tables.workReviews.filter
        fun wr => decide (some (wr.work_id : Int) = id)) with
    | nil => rfl
    | cons a l => simp [parseFloatOrZero_some]

/-- C7 at work 1, whose ratings are 3 and 5: the count is 2 and the average is 4. -/
theorem getWorkReviews_average_witness :
    ∃ body, getWorkReviews calmEnv sampleDb (.str "1") = ⟨sampleDb, .json 200 body⟩ ∧
      body.count = some 2 ∧ body.average_rating = some 4 := by
  obtain ⟨body, h, hc, ha⟩ := getWorkReviews_average calmEnv sampleDb (.str "1") (some 1)
    (by decide) (by decide) (by decide) rfl rfl (by decide)
  refine ⟨body, h, hc, ?_⟩
  rw [ha]
  simp [sampleDb]
  norm_num

/-! ## Self-review and duplicate review (claims C8, C9 and C10) -/

/-- C8: `createUserReview` with a `reviewee_id` that denotes the actor, given as the
integer or as its decimal string, answers 400 "You cannot review yourself" and leaves the
store unchanged, whatever the environment and the store: no statement is consulted. -/
theorem createUserReview_rejects_self (env : Env) (db : Db) (u : Nat) (reviewee_id : JsVal)
    (review_text : String)
    (hself : reviewee_id = .num (u : Int) ∨ reviewee_id = .str (toString u)) :
    createUserReview env db u reviewee_id review_text =
      ⟨db, .json 400 (failure "You cannot review yourself")⟩ := by
  unfold createUserReview
  simp only [parseInt_decimal u reviewee_id hself, if_true]

/-- C8 at account 2 given as the string "2" and as the number 2. -/
theorem createUserReview_rejects_self_witness :
    createUserReview calmEnv sampleDb 2 (.str "2") "Careful and quick work" =
        ⟨sampleDb, .json 400 (failure "You cannot review yourself")⟩ ∧
      createUserReview calmEnv sampleDb 2 (.num 2) "Careful and quick work" =
        ⟨sampleDb, .json 400 (failure "You cannot review yourself")⟩ :=
  ⟨createUserReview_rejects_self calmEnv sampleDb 2 (.str "2") "Careful and quick work"
      (Or.inr (by decide)),
    createUserReview_rejects_self calmEnv sampleDb 2 (.num 2) "Careful and quick work"
      (Or.inl rfl)⟩

theorem first_work_of_key {t : Tables} {w : Work} (hkey : WorksKey t) (hw : w ∈ t.works) :
    ∃ rest, t.works.filter (fun x => decide (some (x.work_id : Int) = some (w.work_id : Int)))
      = w :: rest := by
  have hmem : w ∈ t.works.filter
      (fun x => decide (some (x.work_id : Int) = some (w.work_id : Int))) := by
    rw [List.mem_filter]; exact ⟨hw, by simp⟩
  cases hfil : t.works.filter
      (fun x => decide (some (x.work_id : Int) = some (w.work_id : Int))) with
  | nil => rw [hfil] at hmem; cases hmem
  | cons x rest =>
    have hx : x ∈ t.works.filter
        (fun x => decide (some (x.work_id : Int) = some (w.work_id : Int))) := by
      rw [hfil]; exact List.mem_cons_self _ _
    rw [List.mem_filter] at hx
    have hid : x.work_id = w.work_id := by
      have := hx.2
      simp only [decide_eq_true_eq, Option.some.injEq] at this
      exact_mod_cast this
    have := List.inj_on_of_nodup_map hkey hx.1 hw hid
    exact ⟨rest, by rw [this]⟩

/-- C9: `createWorkReview` on an existing work whose recorded owner is the actor answers
400 "You cannot review your own work" and leaves the store unchanged; on a work id that
does not exist it answers the distinct 404 "Work not found"; and the `WorkReview` rows
change only when the work exists and its owner is not the actor. -/
theorem createWorkReview_guards (env : Env) (db : Db) (actor : Nat) (work_id : JsVal)
    (rating : Int) (review_text : String) :
    (∀ w ∈ db.tables.works, WorksKey db.tables → env.faults 0 = none →
      pgInt4 work_id = .ok (some (w.work_id : Int)) → w.user_id = actor →
      createWorkReview env db actor work_id rating review_text =
        ⟨db, .json 400 (failure "You cannot review your own work")⟩) ∧
    (∀ id, env.faults 0 = none → pgInt4 work_id = .ok id →
      (∀ w ∈ db.tables.works, some (w.work_id : Int) ≠ id) →
      createWorkReview env db actor work_id rating review_text =
        ⟨db, .json 404 (failure "Work not found")⟩) ∧
    ((createWorkReview env db actor work_id rating review_text).db.tables.workReviews ≠
        db.tables.workReviews →
      ∃ w ∈ db.tables.works, pgInt4 work_id = .ok (some (w.work_id : Int)) ∧
        w.user_id ≠ actor) := by
  refine ⟨?_, ?_, ?_⟩
  · intro w hw hkey hf hid hown
    obtain ⟨rest, hfil⟩ := first_work_of_key hkey hw
    unfold createWorkReview
    simp only [bindInt_calm _ hf, hid, hfil, hown, if_true]
  · intro id hf hid habsent
    have hfil : db.tables.works.filter (fun w => decide (some (w.work_id : Int) = id)) = [] := by
      rw [List.filter_eq_nil_iff]
      intro w hw
      simpa using habsent w hw
    unfold createWorkReview
    simp only [bindInt_calm _ hf, hid, hfil]
  · unfold createWorkReview
    intro hne
    split at hne
    · exact absurd rfl hne
    · rename_i id hb
      split at hne
      · exact absurd rfl hne
      · rename_i w rest hfil
        have hmem : w ∈ db.tables.works.filter
            (fun w => decide (some (w.work_id : Int) = id)) := by
          rw [hfil]; exact List.mem_cons_self _ _
        rw [List.mem_filter] at hmem
        have hid : some (w.work_id : Int) = id := by simpa using hmem.2
        have hpg : pgInt4 work_id = .ok id := by
          unfold bindInt at hb
          split at hb
          · cases hb
          · exact hb
        split at hne
        · exact absurd rfl hne
        · rename_i hown
          exact ⟨w, hmem.1, by rw [hpg, hid], hown⟩

/-- C9 at account 2 reviewing its own work 1 and the absent work 9. -/
theorem createWorkReview_guards_witness :
    createWorkReview calmEnv sampleDb 2 (.num 1) 5 "Built it myself, superb" =
        ⟨sampleDb, .json 400 (failure "You cannot review your own work")⟩ ∧
      createWorkReview calmEnv sampleDb 2 (.num 9) 5 "Built it myself, superb" =
        ⟨sampleDb, .json 404 (failure "Work not found")⟩ :=
  ⟨(createWorkReview_guards calmEnv sampleDb 2 (.num 1) 5 "Built it myself, superb").1
      ⟨1, 2, "Fence"⟩ (by decide) (by decide) rfl (by decide) rfl,
    (createWorkReview_guards calmEnv sampleDb 2 (.num 9) 5 "Built it myself, superb").2.1
      (some 9) rfl (by decide) (by decide)⟩

/-- C10: for distinct accounts `r` and `e`, `e` existing, if a `UserReview` by `r` of `e`
exists then `createUserReview` by `r` for `e` answers 400 "You have already reviewed this
user" and every table is as before: the existing row keeps its id, text and creation time
and no second row for the pair appears. -/
theorem createUserReview_duplicate (env : Env) (db : Db) (r e : Nat) (reviewee_id : JsVal)
    (review_text : String)
    (hdistinct : r ≠ e)
    (hexists : ∃ u ∈ db.tables.users, u.user_id = e)
    (hreviewed : ∃ x ∈ db.tables.userReviews, x.reviewer_id = r ∧ x.reviewee_id = e)
    (hid : reviewee_id = .num (e : Int) ∨ reviewee_id = .str (toString e))
    (h0 : env.faults 0 = none) (h1 : env.faults 1 = none) :
    (createUserReview env db r reviewee_id review_text).out =
      .json 400 (failure "You have already reviewed this user") ∧
    (createUserReview env db r reviewee_id review_text).db.tables = db.tables := by
  have hparse := parseInt_decimal e reviewee_id hid
  have hpg := pgInt4_decimal e reviewee_id hid
  have hne : ¬ (some (r : Int) = some (e : Int)) := by
    intro h; exact hdistinct (by exact_mod_cast Option.some.inj h)
  have husers : (db.tables.users.filter
      (fun u => decide (some (u.user_id : Int) = some (e : Int)))).isEmpty = false := by
    obtain ⟨u, hu, hue⟩ := hexists
    have hmem : u ∈ db.tables.users.filter
        (fun u => decide (some (u.user_id : Int) = some (e : Int))) := by
      rw [List.mem_filter]; exact ⟨hu, by simp [hue]⟩
    cases hfil : db.tables.users.filter
        (fun u => decide (some (u.user_id : Int) = some (e : Int))) with
    | nil => rw [hfil] at hmem; cases hmem
    | cons a l => rfl
  have hany : (db.tables.userReviews.any fun x =>
      decide (x.review_id = db.seq.userReview + 1 ∨
        (x.reviewer_id = r ∧ (x.reviewee_id : Int) = (e : Int)))) = true := by
    obtain ⟨x, hx, hxr, hxe⟩ := hreviewed
    rw [List.any_eq_true]
    exact ⟨x, hx, by simp [hxr, hxe]⟩
  unfold createUserReview
  simp only [hparse, hne, if_false, bindInt_calm _ h0, bindInt_calm _ h1, hpg, husers,
    insertUserReview, hany, if_true, catchUnique, uniqueViolation]
  exact ⟨rfl, rfl⟩

/-- C10 at account 1, which has already reviewed account 2. -/
theorem createUserReview_duplicate_witness :
    (createUserReview calmEnv sampleDb 1 (.num 2) "Careful and quick again").out =
      .json 400 (failure "You have already reviewed this user") ∧
    (createUserReview calmEnv sampleDb 1 (.num 2) "Careful and quick again").db.tables =
      sampleDb.tables :=
  createUserReview_duplicate calmEnv sampleDb 1 2 (.num 2) "Careful and quick again"
    (by decide) (by decide) (by decide) (Or.inl rfl) rfl rfl

/-! ## Phones (claims C11, C12 and C16) -/

theorem atMostOnePrimary_iff (t : Tables) :
    AtMostOnePrimary t ↔ ∀ u, primaryCount t.phones u ≤ 1 := by
  constructor
  · intro h u
    by_cases hz : primaryCount t.phones u = 0
    · omega
    · have hpos : 0 < (t.phones.filter fun p => decide (p.user_id = u ∧ p.is_primary)).length :=
        Nat.pos_of_ne_zero hz
      obtain ⟨p, hp⟩ := List.exists_mem_of_length_pos hpos
      rw [List.mem_filter] at hp
      have hu : p.user_id = u := by simpa using (of_decide_eq_true hp.2).1
      have := h p hp.1
      rwa [hu] at this
  · intro h p _
    exact h p.user_id

theorem primaryCount_map_le (f : UserPhoneNumber → UserPhoneNumber)
    (hu : ∀ p, (f p).user_id = p.user_id)
    (hp : ∀ p, (f p).is_primary = true → p.is_primary = true)
    (l : List UserPhoneNumber) (u : Nat) :
    primaryCount (l.map f) u ≤ primaryCount l u := by
  unfold primaryCount
  induction l with
  | nil => simp
  | cons a as ih =>
    simp only [List.map_cons, List.filter_cons]
    by_cases h1 : (f a).user_id = u ∧ (f a).is_primary = true
    · have h2 : a.user_id = u ∧ a.is_primary = true := ⟨by rw [← hu a]; exact h1.1, hp a h1.2⟩
      simp only [h1, h2, and_self, decide_True, if_true, List.length_cons]
      omega
    · simp only [h1, decide_False, Bool.false_eq_true, if_false]
      split
      · simp only [List.length_cons]; omega
      · exact ih

theorem primaryCount_filter_le (P : UserPhoneNumber → Bool) (l : List UserPhoneNumber)
    (u : Nat) : primaryCount (l.filter P) u ≤ primaryCount l u :=
  ((List.filter_sublist l).filter _).length_le

theorem primaryCount_append (l : List UserPhoneNumber) (row : UserPhoneNumber) (u : Nat) :
    primaryCount (l ++ [row]) u =
      primaryCount l u + if row.user_id = u ∧ row.is_primary = true then 1 else 0 := by
  unfold primaryCount
  rw [List.filter_append, List.length_append]
  by_cases h : row.user_id = u ∧ row.is_primary = true
  · simp [List.filter_cons, h]
  · simp [List.filter_cons, h]


/-- Rows picked by a predicate that fixes the key are at most one. -/
theorem length_filter_le_one {α : Type} (key : α → Nat) (l : List α)
    (hnd : (l.map key).Nodup) (P : α → Bool)
    (h : ∀ a b, P a = true → P b = true → key a = key b) : (l.filter P).length ≤ 1 := by
  induction l with
  | nil => simp
  | cons a as ih =>
    rw [List.map_cons, List.nodup_cons] at hnd
    rw [List.filter_cons]
    split
    · rename_i ha
      have : as.filter P = [] := by
        rw [List.filter_eq_nil_iff]
        intro b hb hPb
        exact hnd.1 (List.mem_map.2 ⟨b, hb, h b a hPb ha⟩)
      simp [this]
    · exact ih hnd.2

theorem pgBool_of_falsy (v : JsVal) (h : truthy v = false) : pgBool v ≠ .ok (some true) := by
  cases v with
  | null => simp [pgBool]
  | bool b =>
    cases b with
    | true => simp [truthy] at h
    | false => decide
  | num n =>
    have : n = 0 := by simpa [truthy] using h
    subst this
    decide
  | str s =>
    have : s = "" := by simpa [truthy] using h
    subst this
    decide


theorem primaryCount_map_eq (f : UserPhoneNumber → UserPhoneNumber) (u : Nat)
    (hu : ∀ p, (f p).user_id = p.user_id)
    (hp : ∀ p, p.user_id = u → (f p).is_primary = p.is_primary)
    (l : List UserPhoneNumber) :
    primaryCount (l.map f) u = primaryCount l u := by
  unfold primaryCount
  induction l with
  | nil => rfl
  | cons a as ih =>
    simp only [List.map_cons, List.filter_cons, hu a]
    by_cases h1 : a.user_id = u
    · simp only [h1, hp a h1, true_and]
      split
      · simp only [List.length_cons, ih]
      · exact ih
    · simp only [h1, false_and, decide_False, Bool.false_eq_true, if_false]
      exact ih

/-- The row update of the unsetting step. -/
theorem unsetPrimary_cases (env : Env) (db db1 : Db) (actor : Nat) (v : JsVal)
    (h : unsetPrimary env db actor v = .ok db1) :
    (∀ u, primaryCount db1.tables.phones u ≤ primaryCount db.tables.phones u) ∧
    (∀ u, u ≠ actor → primaryCount db1.tables.phones u = primaryCount db.tables.phones u) ∧
    (truthy v = true → ∀ p ∈ db1.tables.phones, p.user_id = actor → p.is_primary = false) ∧
    (truthy v = false → db1 = db) ∧
    db1.tables.phones.map (·.phone_id) = db.tables.phones.map (·.phone_id) := by
  unfold unsetPrimary at h
  by_cases ht : truthy v = true
  · simp only [ht, if_true] at h
    cases hf : env.faults 1 with
    | some e => simp only [hf] at h; cases h
    | none =>
      simp only [hf] at h
      cases h
      refine ⟨?_, ?_, ?_, ?_, ?_⟩
      · intro u
        apply primaryCount_map_le
        · intro p; split <;> rfl
        · intro p; split
          · intro h; cases h
          · exact id
      · intro u hu
        apply primaryCount_map_eq
        · intro p; split <;> rfl
        · intro p hp
          have : ¬ p.user_id = actor := by rw [hp]; exact hu
          simp only [this, if_false]
      · intro _ p hp hpa
        simp only [List.mem_map] at hp
        obtain ⟨q, _, rfl⟩ := hp
        split
        · rfl
        · rename_i hq
          split at hpa
          · exact absurd hpa hq
          · exact absurd hpa hq
      · intro hf2; rw [ht] at hf2; cases hf2
      · simp only [List.map_map]
        apply List.map_congr_left
        intro p _
        simp only [Function.comp]
        split <;> rfl
  · have ht2 : truthy v = false := by simpa using ht
    simp only [ht2, Bool.false_eq_true, if_false] at h
    cases h
    refine ⟨fun _ => Nat.le_refl _, fun _ _ => rfl, ?_, fun _ => rfl, rfl⟩
    intro h
    rw [ht2] at h
    cases h


theorem insertPhone_phones (db : Db) (actor : Nat) (pn : Option String) (flag : Bool)
    (now : Nat) :
    (insertPhone db actor pn flag now).1.tables.phones = db.tables.phones ∨
    ∃ row : UserPhoneNumber, row.user_id = actor ∧ row.is_primary = flag ∧
      (insertPhone db actor pn flag now).1.tables.phones = db.tables.phones ++ [row] := by
  unfold insertPhone
  cases pn with
  | none => exact Or.inl rfl
  | some n =>
    simp only
    split
    · exact Or.inl rfl
    · split
      · exact Or.inr ⟨_, rfl, rfl, rfl⟩
      · exact Or.inl rfl

theorem addPhoneNumber_invariant (env : Env) (db : Db) (actor : Nat)
    (phone_number : Option String) (is_primary : JsVal)
    (hinv : AtMostOnePrimary db.tables) :
    AtMostOnePrimary (addPhoneNumber env db actor phone_number is_primary).db.tables := by
  rw [atMostOnePrimary_iff] at hinv ⊢
  unfold addPhoneNumber
  cases env.faults 0 with
  | some e => exact hinv
  | none =>
    simp only
    split
    · exact hinv
    · cases hun : unsetPrimary env db actor is_primary with
      | error e => exact hinv
      | ok db1 =>
        obtain ⟨hle, _, htrue, hfalse, _⟩ := unsetPrimary_cases env db db1 actor is_primary hun
        have h1 : ∀ u, primaryCount db1.tables.phones u ≤ 1 :=
          fun u => Nat.le_trans (hle u) (hinv u)
        simp only
        cases env.faults 2 with
        | some e => exact h1
        | none =>
          simp only
          cases hpb : pgBool (if truthy is_primary = true then is_primary else JsVal.bool false) with
          | error e => exact h1
          | ok flag =>
            simp only
            have hins := insertPhone_phones db1 actor phone_number (flag.getD false) env.now
            generalize insertPhone db1 actor phone_number (flag.getD false) env.now = r at hins
            obtain ⟨db2, res⟩ := r
            have hgoal : ∀ u, primaryCount db2.tables.phones u ≤ 1 := by
              intro u
              rcases hins with h | ⟨row, hra, hrf, h⟩
              · simp only at h; rw [h]; exact h1 u
              · simp only at h
                rw [h, primaryCount_append]
                by_cases ht : truthy is_primary = true
                · by_cases hu : u = actor
                  · have hz : primaryCount db1.tables.phones u = 0 := by
                      unfold primaryCount
                      rw [List.length_eq_zero, List.filter_eq_nil_iff]
                      intro p hp
                      simp only [decide_eq_true_eq, not_and, Bool.not_eq_true]
                      intro hpu
                      exact htrue ht p hp (by rw [hpu, hu])
                    rw [hz]; split <;> omega
                  · have : ¬ (row.user_id = u ∧ row.is_primary = true) := by
                      intro hc; exact hu (by rw [← hc.1, hra])
                    simp only [this, if_false]
                    exact h1 u
                · have ht2 : truthy is_primary = false := by simpa using ht
                  simp only [ht2, Bool.false_eq_true, if_false] at hpb
                  have hflag : flag = some false := by
                    have : pgBool (JsVal.bool false) = .ok (some false) := by decide
                    rw [this] at hpb
                    exact (Except.ok.inj hpb).symm
                  have : ¬ (row.user_id = u ∧ row.is_primary = true) := by
                    intro hc
                    rw [hrf, hflag] at hc
                    simp at hc
                  simp only [this, if_false]
                  exact h1 u
            cases res with
            | error e => exact hgoal
            | ok row => exact hgoal

theorem deletePhoneNumber_invariant (env : Env) (db : Db) (actor : Nat) (phoneId : JsVal)
    (hinv : AtMostOnePrimary db.tables) :
    AtMostOnePrimary (deletePhoneNumber env db actor phoneId).db.tables := by
  rw [atMostOnePrimary_iff] at hinv ⊢
  unfold deletePhoneNumber
  split
  · exact hinv
  · simp only
    split
    · exact hinv
    · intro u
      exact Nat.le_trans (primaryCount_filter_le _ _ u) (hinv u)


theorem updatePhone_ok (t t1 : Tables) (id : Option Int) (actor : Nat) (pn : Option String)
    (flag : Option Bool) (rows : List UserPhoneNumber)
    (h : updatePhone t id actor pn flag = .ok (t1, rows)) :
    t1 = { t with phones := t.phones.map (phoneUpdate id actor pn flag) } := by
  unfold updatePhone at h
  simp only at h
  split at h
  · cases h
  · cases h
    rfl

theorem phoneUpdate_user (id : Option Int) (actor : Nat) (pn : Option String)
    (flag : Option Bool) (p : UserPhoneNumber) :
    (phoneUpdate id actor pn flag p).user_id = p.user_id := by
  unfold phoneUpdate; split <;> rfl

theorem phoneUpdate_id (id : Option Int) (actor : Nat) (pn : Option String)
    (flag : Option Bool) (p : UserPhoneNumber) :
    (phoneUpdate id actor pn flag p).phone_id = p.phone_id := by
  unfold phoneUpdate; split <;> rfl

theorem phoneUpdate_other (id : Option Int) (actor : Nat) (pn : Option String)
    (flag : Option Bool) (p : UserPhoneNumber) (h : p.user_id ≠ actor) :
    phoneUpdate id actor pn flag p = p := by
  unfold phoneUpdate
  have : ¬ (some (p.phone_id : Int) = id ∧ p.user_id = actor) := fun hc => h hc.2
  simp [this]

/-- After the flags of an account are unset, its primary phones are among those updated. -/
theorem primaryCount_update_le (id : Option Int) (actor : Nat) (pn : Option String)
    (flag : Option Bool) (l : List UserPhoneNumber)
    (hoff : ∀ p ∈ l, p.user_id = actor → p.is_primary = false) :
    primaryCount (l.map (phoneUpdate id actor pn flag)) actor ≤
      (l.filter fun p => decide (some (p.phone_id : Int) = id ∧ p.user_id = actor)).length := by
  unfold primaryCount
  induction l with
  | nil => simp
  | cons a as ih =>
    have ih2 := ih (fun p hp => hoff p (List.mem_cons_of_mem _ hp))
    simp only [List.map_cons, List.filter_cons]
    by_cases hit : (some (a.phone_id : Int) = id ∧ a.user_id = actor)
    · simp only [hit, and_self, decide_True, if_true, List.length_cons]
      split
      · simp only [List.length_cons]; omega
      · omega
    · have hsame : phoneUpdate id actor pn flag a = a := by
        unfold phoneUpdate; simp [hit]
      rw [hsame]
      have hnp : ¬ (a.user_id = actor ∧ a.is_primary = true) := by
        intro hc
        have := hoff a (List.mem_cons_self _ _) hc.1
        rw [this] at hc
        exact absurd hc.2 (by decide)
      simp only [hnp, hit, decide_False, Bool.false_eq_true, if_false]
      exact ih2

theorem updatePhoneNumber_invariant (env : Env) (db : Db) (actor : Nat) (phoneId : JsVal)
    (phone_number : Option String) (is_primary : JsVal)
    (hkey : PhonesKey db.tables) (hinv : AtMostOnePrimary db.tables) :
    AtMostOnePrimary (updatePhoneNumber env db actor phoneId phone_number is_primary).db.tables := by
  rw [atMostOnePrimary_iff] at hinv ⊢
  unfold updatePhoneNumber
  split
  · exact hinv
  · split
    · exact hinv
    · cases hun : unsetPrimary env db actor is_primary with
      | error e => exact hinv
      | ok db1 =>
        obtain ⟨hle, hother, htrue, hfalse, hids⟩ :=
          unsetPrimary_cases env db db1 actor is_primary hun
        have h1 : ∀ u, primaryCount db1.tables.phones u ≤ 1 :=
          fun u => Nat.le_trans (hle u) (hinv u)
        simp only
        split
        · exact h1
        · rename_i id2 _
          cases hpb : pgBool is_primary with
          | error e => exact h1
          | ok flag =>
            simp only
            cases hup : updatePhone db1.tables id2 actor phone_number flag with
            | error e => exact h1
            | ok r =>
              obtain ⟨t1, rows⟩ := r
              have ht1 := updatePhone_ok _ _ _ _ _ _ _ hup
              simp only
              rw [ht1]
              simp only
              intro u
              by_cases ht : truthy is_primary = true
              · by_cases hu : u = actor
                · subst hu
                  refine Nat.le_trans (primaryCount_update_le id2 u phone_number flag _
                    (htrue ht)) ?_
                  apply length_filter_le_one (fun p : UserPhoneNumber => p.phone_id)
                  · show (db1.tables.phones.map (·.phone_id)).Nodup
                    rw [hids]; exact hkey
                  · intro a b ha hb
                    have ha2 := (of_decide_eq_true ha).1
                    have hb2 := (of_decide_eq_true hb).1
                    have : (a.phone_id : Int) = (b.phone_id : Int) :=
                      Option.some.inj (ha2.trans hb2.symm)
                    exact_mod_cast this
                · rw [primaryCount_map_eq _ u (phoneUpdate_user id2 actor phone_number flag)]
                  · exact h1 u
                  · intro p hp
                    rw [phoneUpdate_other]
                    rw [hp]; exact hu
              · have ht2 : truthy is_primary = false := by simpa using ht
                have hflag : flag ≠ some true := by
                  intro hc
                  rw [hc] at hpb
                  exact pgBool_of_falsy is_primary ht2 hpb
                refine Nat.le_trans (primaryCount_map_le _
                  (phoneUpdate_user id2 actor phone_number flag) ?_ _ u) (h1 u)
                intro p
                unfold phoneUpdate
                split
                · cases flag with
                  | none => exact id
                  | some b =>
                    cases b with
                    | true => exact absurd rfl hflag
                    | false => intro h; cases h
                · exact id


/-- The rows of a successful `updatePhoneNumber` with `is_primary = true`. -/
theorem updatePhoneNumber_true_rows (env : Env) (db : Db) (actor : Nat) (phoneId : JsVal)
    (phone_number : Option String) (id : Option Int) (body : Body)
    (hid : pgInt4 phoneId = .ok id)
    (hsucc : (updatePhoneNumber env db actor phoneId phone_number (.bool true)).out =
      .json 200 body) :
    (updatePhoneNumber env db actor phoneId phone_number (.bool true)).db.tables.phones =
      (db.tables.phones.map fun p =>
        if p.user_id = actor then { p with is_primary := false } else p).map
        (phoneUpdate id actor phone_number (some true)) := by
  unfold updatePhoneNumber at hsucc ⊢
  have hpb : pgBool (.bool true) = .ok (some true) := by decide
  cases hb0 : bindInt env 0 phoneId with
  | error e => simp only [hb0] at hsucc; cases hsucc
  | ok id0 =>
    simp only [hb0] at hsucc ⊢
    split at hsucc
    · cases hsucc
    · rename_i hne
      simp only [hne, if_false]
      have htr : truthy (.bool true) = true := rfl
      unfold unsetPrimary at hsucc ⊢
      simp only [htr, if_true] at hsucc ⊢
      cases hf1 : env.faults 1 with
      | some e => simp only [hf1] at hsucc; cases hsucc
      | none =>
        simp only [hf1] at hsucc ⊢
        cases hb2 : bindInt env 2 phoneId with
        | error e => simp only [hb2] at hsucc; cases hsucc
        | ok id2 =>
          have hid2 : id2 = id := by
            have := bindInt_ok hb2
            rw [hid] at this
            exact (Except.ok.inj this).symm
          subst hid2
          simp only [hb2, hpb] at hsucc ⊢
          split at hsucc
          · cases hsucc
          · rename_i t1 rows hup
            have := updatePhone_ok _ _ _ _ _ _ _ hup
            simp only [Bool.false_eq_true, if_false, this]

theorem filter_others_map (f : UserPhoneNumber → UserPhoneNumber) (actor : Nat)
    (hu : ∀ p, (f p).user_id = p.user_id)
    (hf : ∀ p, p.user_id ≠ actor → f p = p) (l : List UserPhoneNumber) :
    (l.map f).filter (fun p => decide (p.user_id ≠ actor)) =
      l.filter (fun p => decide (p.user_id ≠ actor)) := by
  induction l with
  | nil => rfl
  | cons a as ih =>
    simp only [List.map_cons, List.filter_cons, hu a]
    by_cases h : a.user_id ≠ actor
    · simp only [h, decide_True, if_true, hf a h, ih, not_false_eq_true]
    · simp only [h, decide_False, Bool.false_eq_true, if_false, ih]

/-- C11: a successful `updatePhoneNumber` on phone B of the actor with `is_primary = true`
leaves the actor with exactly one primary phone, namely B (every other phone of the actor,
a formerly primary A included, is non-primary), and leaves the phone rows of every other
account as they were. -/
theorem updatePhoneNumber_sets_primary (env : Env) (db : Db) (actor : Nat) (phoneId : JsVal)
    (phone_number : Option String) (b : UserPhoneNumber) (body : Body)
    (hkey : PhonesKey db.tables) (hb : b ∈ db.tables.phones) (hown : b.user_id = actor)
    (hid : pgInt4 phoneId = .ok (some (b.phone_id : Int)))
    (hsucc : (updatePhoneNumber env db actor phoneId phone_number (.bool true)).out =
      .json 200 body) :
    (∀ p ∈ (updatePhoneNumber env db actor phoneId phone_number (.bool true)).db.tables.phones,
      p.user_id = actor → (p.is_primary = true ↔ p.phone_id = b.phone_id)) ∧
    primaryCount
      (updatePhoneNumber env db actor phoneId phone_number (.bool true)).db.tables.phones
      actor = 1 ∧
    ((updatePhoneNumber env db actor phoneId phone_number (.bool true)).db.tables.phones.filter
        fun p => decide (p.user_id ≠ actor)) =
      db.tables.phones.filter fun p => decide (p.user_id ≠ actor) := by
  rw [updatePhoneNumber_true_rows env db actor phoneId phone_number _ body hid hsucc]
  rw [List.map_map]
  have hF : ∀ p : UserPhoneNumber,
      ((phoneUpdate (some (b.phone_id : Int)) actor phone_number (some true)) ∘
        fun p => if p.user_id = actor then { p with is_primary := false } else p) p =
      if p.user_id = actor then
        { p with phone_number := if p.phone_id = b.phone_id then
                   phone_number.getD p.phone_number else p.phone_number,
                 is_primary := decide (p.phone_id = b.phone_id) }
      else p := by
    intro p
    simp only [Function.comp, phoneUpdate]
    by_cases hu : p.user_id = actor
    · by_cases hp : p.phone_id = b.phone_id
      · simp [hu, hp]
      · have : ¬ ((p.phone_id : Int) = (b.phone_id : Int)) := by exact_mod_cast hp
        simp [hu, hp, this]
    · simp [hu]
  rw [List.map_congr_left (fun p _ => hF p)]
  refine ⟨?_, ?_, ?_⟩
  · intro p hp hpa
    obtain ⟨q, hq, rfl⟩ := List.mem_map.1 hp
    by_cases hu : q.user_id = actor
    · simp [hu]
    · simp only [hu, if_false] at hpa
  · unfold primaryCount
    rw [List.filter_map, List.length_map]
    have hpred : ∀ q ∈ db.tables.phones,
        ((fun p : UserPhoneNumber => decide (p.user_id = actor ∧ p.is_primary = true)) ∘
          fun p => if p.user_id = actor then
            { p with phone_number := if p.phone_id = b.phone_id then
                       phone_number.getD p.phone_number else p.phone_number,
                     is_primary := decide (p.phone_id = b.phone_id) }
          else p) q = decide (b.phone_id = q.phone_id) := by
      intro q hq
      simp only [Function.comp]
      by_cases hu : q.user_id = actor
      · simp [hu, eq_comm]
      · have hne : q.phone_id ≠ b.phone_id := by
          intro hc
          have := List.inj_on_of_nodup_map hkey hq hb hc
          exact hu (by rw [this]; exact hown)
        simp [hu, Ne.symm hne]
    rw [List.filter_congr hpred]
    exact length_filter_key_eq (fun p : UserPhoneNumber => p.phone_id) db.tables.phones
      b.phone_id hkey ⟨b, hb, rfl⟩
  · apply filter_others_map
    · intro p; split <;> rfl
    · intro p hp; simp [hp]

/-- C11 at account 1, whose phone 1 is primary, making its phone 2 primary. -/
theorem updatePhoneNumber_sets_primary_witness :
    (∀ p ∈ (updatePhoneNumber calmEnv phoneDb 1 (.str "2") none (.bool true)).db.tables.phones,
      p.user_id = 1 → (p.is_primary = true ↔ p.phone_id = 2)) ∧
    primaryCount
      (updatePhoneNumber calmEnv phoneDb 1 (.str "2") none (.bool true)).db.tables.phones 1 = 1 ∧
    ((updatePhoneNumber calmEnv phoneDb 1 (.str "2") none (.bool true)).db.tables.phones.filter
        fun p => decide (p.user_id ≠ 1)) =
      phoneDb.tables.phones.filter fun p => decide (p.user_id ≠ 1) :=
  updatePhoneNumber_sets_primary calmEnv phoneDb 1 (.str "2") none
    ⟨2, 1, "+15550002", false, false, 2⟩
    { success := true, message := some "Phone number updated successfully",
      data := .phone (some ⟨2, 1, "+15550002", true, false, 2⟩) }
    (by decide) (by decide) rfl (by decide) (by decide)

/-- C12: "every account has at most one phone with `is_primary = true`" is preserved by
`addPhoneNumber`, `updatePhoneNumber` and `deletePhoneNumber`, for every environment
(faults at any statement included), actor and request body; `updatePhoneNumber` relies on
`phone_id` being the key of the table. -/
theorem primary_phone_invariant (env : Env) (db : Db) (actor : Nat) (phoneId : JsVal)
    (phone_number : Option String) (is_primary : JsVal)
    (hinv : AtMostOnePrimary db.tables) :
    AtMostOnePrimary (addPhoneNumber env db actor phone_number is_primary).db.tables ∧
    AtMostOnePrimary (deletePhoneNumber env db actor phoneId).db.tables ∧
    (PhonesKey db.tables →
      AtMostOnePrimary
        (updatePhoneNumber env db actor phoneId phone_number is_primary).db.tables) :=
  ⟨addPhoneNumber_invariant env db actor phone_number is_primary hinv,
    deletePhoneNumber_invariant env db actor phoneId hinv,
    fun hkey => updatePhoneNumber_invariant env db actor phoneId phone_number is_primary
      hkey hinv⟩

/-- C12 at account 1 adding a primary phone, deleting phone 2, and making phone 2 primary
with a number that is taken (the update fails after the flags were unset). -/
theorem primary_phone_invariant_witness :
    AtMostOnePrimary phoneDb.tables ∧
    AtMostOnePrimary
      (addPhoneNumber calmEnv phoneDb 1 (some "+15550003") (.bool true)).db.tables ∧
    AtMostOnePrimary (deletePhoneNumber calmEnv phoneDb 1 (.str "2")).db.tables ∧
    AtMostOnePrimary
      (updatePhoneNumber calmEnv phoneDb 1 (.str "2") (some "+15550003")
        (.bool true)).db.tables :=
  have h := primary_phone_invariant calmEnv phoneDb 1 (.str "2") (some "+15550003")
    (.bool true) (by decide)
  ⟨by decide, h.1, h.2.1, h.2.2 (by decide)⟩

/-- C16, evaluated where it fails: `updatePhoneNumber` that sets phone 2 of account 1 to the
number of phone 3 forwards the uniqueness violation of the engine as it is, while
`addPhoneNumber` answers the same number with status 400 and "This phone number is
already registered". -/
theorem updatePhoneNumber_duplicate_untranslated :
    updatePhoneNumber calmEnv phoneDb 1 (.str "2") (some "+15550003") .null =
      ⟨phoneDb,
        .forwarded ⟨uniqueViolation, "duplicate key value violates unique constraint"⟩⟩ ∧
    addPhoneNumber calmEnv phoneDb 1 (some "+15550003") .null =
      ⟨phoneDb, .json 400 (failure "This phone number is already registered")⟩ := by
  decide

/-! ## Uniqueness conflicts (claims C13, C14 and C15) -/

theorem catchUnique_cases (msg : String) (e : PgError) :
    (e.code = uniqueViolation → catchUnique msg e = .json 400 (failure msg)) ∧
    (e.code ≠ uniqueViolation → catchUnique msg e = .forwarded e) := by
  unfold catchUnique
  constructor
  · intro h; simp [h]
  · intro h; simp [h]

theorem createSkill_write_error (env : Env) (db : Db) (skill_name : String) (e : PgError)
    (h : env.faults 0 = some e ∨
      (env.faults 0 = none ∧ (insertSkill db skill_name).2 = .error e)) :
    (createSkill env db skill_name).out = catchUnique "Skill already exists" e := by
  unfold createSkill
  rcases h with h | ⟨h0, h⟩
  · simp only [h]
  · simp only [h0]
    generalize insertSkill db skill_name = r at h
    obtain ⟨db1, res⟩ := r
    simp only at h
    subst h
    rfl

theorem addHandymanSkill_write_error (env : Env) (db : Db) (actor : Nat)
    (skill_id experience : JsVal) (id : Option Int) (e : PgError)
    (h0 : bindInt env 0 skill_id = .ok id)
    (hfound : (db.tables.skills.filter fun s => decide (some (s.skill_id : Int) = id)).isEmpty
      = false)
    (h : writeHandyman env db actor skill_id experience = .error e) :
    addHandymanSkill env db actor skill_id experience =
      ⟨db, catchUnique "You already have this skill" e⟩ := by
  unfold addHandymanSkill
  simp only [h0, hfound, h, Bool.false_eq_true, if_false]

theorem addWorkImage_write_error (env : Env) (db : Db) (actor : Nat) (workId : JsVal)
    (url : String) (id : Option Int) (e : PgError)
    (h0 : bindInt env 0 workId = .ok id)
    (hfound : (ownedWorks db.tables id actor).isEmpty = false)
    (h : writeWorkImage env db workId url = .error e) :
    addWorkImage env db actor workId url =
      ⟨db, catchUnique "This image already exists for this work" e⟩ := by
  unfold addWorkImage
  unfold writeWorkImage at h
  simp only [h0, hfound, Bool.false_eq_true, if_false]
  cases hb : bindInt env 1 workId with
  | error e1 =>
    simp only [hb] at h ⊢
    cases h; rfl
  | ok id1 =>
    simp only [hb] at h ⊢
    simp only [h]

/-- C13: for `createSkill`, `addHandymanSkill` and `addWorkImage`, when the write fails
with an error `e` (a fault of the statement or a violated constraint): if `e` carries the
uniqueness-violation code the answer is status 400 with the message of the operation
("Skill already exists", "You already have this skill", "This image already exists for
this work"); otherwise `e` itself is forwarded and no response body is produced. -/
theorem unique_violation_translated_others_forwarded (env : Env) (db : Db) (actor : Nat)
    (skill_name : String) (skill_id experience workId : JsVal) (url : String)
    (e : PgError) :
    ((env.faults 0 = some e ∨
        (env.faults 0 = none ∧ (insertSkill db skill_name).2 = .error e)) →
      (e.code = uniqueViolation →
        (createSkill env db skill_name).out = .json 400 (failure "Skill already exists")) ∧
      (e.code ≠ uniqueViolation → (createSkill env db skill_name).out = .forwarded e)) ∧
    (∀ id, bindInt env 0 skill_id = .ok id →
      (db.tables.skills.filter fun s => decide (some (s.skill_id : Int) = id)).isEmpty
        = false →
      writeHandyman env db actor skill_id experience = .error e →
      (e.code = uniqueViolation →
        addHandymanSkill env db actor skill_id experience =
          ⟨db, .json 400 (failure "You already have this skill")⟩) ∧
      (e.code ≠ uniqueViolation →
        addHandymanSkill env db actor skill_id experience = ⟨db, .forwarded e⟩)) ∧
    (∀ id, bindInt env 0 workId = .ok id →
      (ownedWorks db.tables id actor).isEmpty = false →
      writeWorkImage env db workId url = .error e →
      (e.code = uniqueViolation →
        addWorkImage env db actor workId url =
          ⟨db, .json 400 (failure "This image already exists for this work")⟩) ∧
      (e.code ≠ uniqueViolation →
        addWorkImage env db actor workId url = ⟨db, .forwarded e⟩)) := by
  refine ⟨fun h => ?_, fun id h0 hf h => ?_, fun id h0 hf h => ?_⟩
  · rw [createSkill_write_error env db skill_name e h]
    exact catchUnique_cases _ e
  · rw [addHandymanSkill_write_error env db actor skill_id experience id e h0 hf h]
    exact ⟨fun hc => by rw [(catchUnique_cases _ e).1 hc],
      fun hc => by rw [(catchUnique_cases _ e).2 hc]⟩
  · rw [addWorkImage_write_error env db actor workId url id e h0 hf h]
    exact ⟨fun hc => by rw [(catchUnique_cases _ e).1 hc],
      fun hc => by rw [(catchUnique_cases _ e).2 hc]⟩

/-- C13 on duplicates present in the data and on a connection failure of the write. -/
theorem unique_violation_translated_others_forwarded_witness :
    ((createSkill calmEnv skillDb "Plumbing").out =
        .json 400 (failure "Skill already exists") ∧
      addHandymanSkill calmEnv skillDb 1 (.num 1) (.num 7) =
        ⟨skillDb, .json 400 (failure "You already have this skill")⟩ ∧
      addWorkImage calmEnv skillDb 2 (.str "1") "http://x.com/fence.png" =
        ⟨skillDb, .json 400 (failure "This image already exists for this work")⟩) ∧
    ((createSkill (downAt 0) skillDb "Tiling").out =
        .forwarded ⟨"08006", "connection failure"⟩ ∧
      addHandymanSkill (downAt 1) skillDb 2 (.num 1) (.num 7) =
        ⟨skillDb, .forwarded ⟨"08006", "connection failure"⟩⟩ ∧
      addWorkImage (downAt 1) skillDb 2 (.str "1") "http://x.com/gate.png" =
        ⟨skillDb, .forwarded ⟨"08006", "connection failure"⟩⟩) :=
  have dup := unique_violation_translated_others_forwarded calmEnv skillDb 1 "Plumbing"
    (.num 1) (.num 7) (.str "1") "http://x.com/fence.png"
    ⟨uniqueViolation, "duplicate key value violates unique constraint"⟩
  have dupImg := unique_violation_translated_others_forwarded calmEnv skillDb 2 "Plumbing"
    (.num 1) (.num 7) (.str "1") "http://x.com/fence.png"
    ⟨uniqueViolation, "duplicate key value violates unique constraint"⟩
  have down0 := unique_violation_translated_others_forwarded (downAt 0) skillDb 2 "Tiling"
    (.num 1) (.num 7) (.str "1") "http://x.com/gate.png" ⟨"08006", "connection failure"⟩
  have down1 := unique_violation_translated_others_forwarded (downAt 1) skillDb 2 "Tiling"
    (.num 1) (.num 7) (.str "1") "http://x.com/gate.png" ⟨"08006", "connection failure"⟩
  ⟨⟨(dup.1 (Or.inr ⟨rfl, by decide⟩)).1 rfl,
      (dup.2.1 (some 1) (by decide) (by decide) (by decide)).1 rfl,
      (dupImg.2.2 (some 1) (by decide) (by decide) (by decide)).1 rfl⟩,
    ⟨(down0.1 (Or.inl rfl)).2 (by decide),
      (down1.2.1 (some 1) (by decide) (by decide) (by decide)).2 (by decide),
      (down1.2.2 (some 1) (by decide) (by decide) (by decide)).2 (by decide)⟩⟩

theorem insertUser_users (db : Db) (fn ln email pw : String) :
    (insertUser db fn ln email pw).1.tables.users = db.tables.users ∨
    ((∀ u ∈ db.tables.users, u.email ≠ email) ∧
      (insertUser db fn ln email pw).1.tables.users =
        db.tables.users ++ [⟨db.seq.user + 1, fn, ln, email, pw⟩]) := by
  unfold insertUser
  simp only
  split
  · exact Or.inl rfl
  · rename_i h
    refine Or.inr ⟨?_, rfl⟩
    intro u hu hue
    apply h
    rw [List.any_eq_true]
    exact ⟨u, hu, by simp [hue]⟩

theorem register_users (env : Env) (db : Db) (fn ln email pw : String) :
    (register env db fn ln email pw).db.tables.users = db.tables.users ∨
    ((∀ u ∈ db.tables.users, u.email ≠ email) ∧
      (register env db fn ln email pw).db.tables.users =
        db.tables.users ++ [⟨db.seq.user + 1, fn, ln, email, env.hash pw⟩]) := by
  unfold register
  cases env.faults 0 with
  | some e => exact Or.inl rfl
  | none =>
    simp only
    split
    · exact Or.inl rfl
    · cases env.faults 1 with
      | some e => exact Or.inl rfl
      | none =>
        simp only
        have := insertUser_users db fn ln email (env.hash pw)
        generalize insertUser db fn ln email (env.hash pw) = r at this
        obtain ⟨db1, res⟩ := r
        cases res with
        | error e => exact this
        | ok user => exact this

/-- C14: `register` with an email that already belongs to an account answers 400 "User
with this email already exists" with no token and leaves the store unchanged; with an
email that belongs to no account (on a store that answers and whose key sequence is
fresh) it adds exactly one account with that email and returns a token signed for the
new account's id; and in every case it preserves "no two accounts share an email". -/
theorem register_email_unique (env : Env) (db : Db)
    (first_name last_name email password : String) :
    (env.faults 0 = none → (∃ u ∈ db.tables.users, u.email = email) →
      register env db first_name last_name email password =
        ⟨db, .json 400 { success := false,
                         message := some "User with this email already exists",
                         count := none, average_rating := none, data := Payload.empty }⟩) ∧
    (env.faults 0 = none → env.faults 1 = none →
      (∀ u ∈ db.tables.users, u.email ≠ email) →
      (∀ u ∈ db.tables.users, u.user_id ≠ db.seq.user + 1) →
      register env db first_name last_name email password =
        ⟨{ tables := { db.tables with users := db.tables.users ++
              [⟨db.seq.user + 1, first_name, last_name, email, env.hash password⟩] }
           seq := { db.seq with user := db.seq.user + 1 } },
          .json 201 { success := true, message := some "User registered successfully",
                      data := .auth ⟨db.seq.user + 1, first_name, last_name, email⟩
                        (env.sign (db.seq.user + 1)) }⟩ ∧
      ((register env db first_name last_name email password).db.tables.users.filter
        fun u => decide (u.email = email)).length = 1) ∧
    (EmailsKey db.tables →
      EmailsKey (register env db first_name last_name email password).db.tables) := by
  refine ⟨?_, ?_, ?_⟩
  · intro h0 ⟨u, hu, hue⟩
    have hne : (db.tables.users.filter fun u => decide (u.email = email)).isEmpty = false := by
      cases hfil : db.tables.users.filter fun u => decide (u.email = email) with
      | nil =>
        have : u ∈ db.tables.users.filter fun u => decide (u.email = email) := by
          rw [List.mem_filter]; exact ⟨hu, by simpa using hue⟩
        rw [hfil] at this; cases this
      | cons a l => rfl
    unfold register
    simp only [h0, hne, Bool.not_false, if_true]
    rfl
  · intro h0 h1 hfree hkey
    have hnil : db.tables.users.filter (fun u => decide (u.email = email)) = [] := by
      rw [List.filter_eq_nil_iff]
      intro u hu
      simpa using hfree u hu
    have hany : (db.tables.users.any fun u =>
        decide (u.user_id = db.seq.user + 1 ∨ u.email = email)) = false := by
      rw [List.any_eq_false]
      intro u hu
      simp only [decide_eq_true_eq, not_or]
      exact ⟨hkey u hu, hfree u hu⟩
    have hreg : register env db first_name last_name email password =
        ⟨{ tables := { db.tables with users := db.tables.users ++
              [⟨db.seq.user + 1, first_name, last_name, email, env.hash password⟩] }
           seq := { db.seq with user := db.seq.user + 1 } },
          .json 201 { success := true, message := some "User registered successfully",
                      data := .auth ⟨db.seq.user + 1, first_name, last_name, email⟩
                        (env.sign (db.seq.user + 1)) }⟩ := by
      unfold register
      simp only [h0, h1, hnil, List.isEmpty_nil, not_true_eq_false, if_false, insertUser, hany,
        Bool.false_eq_true]
    refine ⟨hreg, ?_⟩
    rw [hreg]
    simp only [List.filter_append, hnil, List.nil_append, List.filter_cons, decide_True,
      if_true, List.filter_nil, List.length_singleton]
  · intro hk
    unfold EmailsKey at hk ⊢
    rcases register_users env db first_name last_name email password with h | ⟨hfree, h⟩
    · rw [h]; exact hk
    · rw [h, List.map_append, List.nodup_append]
      refine ⟨hk, by simp, ?_⟩
      intro a ha hb
      simp only [List.map_cons, List.map_nil, List.mem_singleton] at hb
      obtain ⟨u, hu, rfl⟩ := List.mem_map.1 ha
      exact hfree u hu hb

/-- C14 at the email of account 1 and at a new email. -/
theorem register_email_unique_witness :
    register calmEnv sampleDb "Dee" "Fox" "ann@x.com" "secret4" =
      ⟨sampleDb, .json 400 { success := false,
                             message := some "User with this email already exists",
                             count := none, average_rating := none, data := Payload.empty }⟩ ∧
    (register calmEnv sampleDb "Dee" "Fox" "dee@x.com" "secret4").out =
      .json 201 { success := true, message := some "User registered successfully",
                  data := .auth ⟨4, "Dee", "Fox", "dee@x.com"⟩ "token:4" } ∧
    EmailsKey (register calmEnv sampleDb "Dee" "Fox" "dee@x.com" "secret4").db.tables :=
  have taken := register_email_unique calmEnv sampleDb "Dee" "Fox" "ann@x.com" "secret4"
  have free := register_email_unique calmEnv sampleDb "Dee" "Fox" "dee@x.com" "secret4"
  ⟨taken.1 rfl (by decide),
    congrArg Result.out (free.2.1 rfl rfl (by decide) (by decide)).1,
    free.2.2 (by decide)⟩

/-- C15, evaluated where it fails: when the lookup finds no account and the insert fails
with the uniqueness violation of the engine, `register` forwards that error as it is,
while an email found by the lookup is answered with status 400 and "User with this email
already exists". -/
theorem register_race_untranslated :
    register raceEnv sampleDb "Dee" "Fox" "dee@x.com" "secret4" =
      ⟨sampleDb,
        .forwarded ⟨uniqueViolation, "duplicate key value violates unique constraint"⟩⟩ ∧
    register calmEnv sampleDb "Dee" "Fox" "ann@x.com" "secret4" =
      ⟨sampleDb, .json 400 (failure "User with this email already exists")⟩ := by
  decide

/-! ## The listing of a user's works (claims C17, C18 and C19) -/

/-- C17 fails on a work with two images and one review: `getWorksByUser` lists work 1 of
account 2 with `review_count` 2, although the store holds one `WorkReview` row (and two
`WorkImage` rows) of that work.  The two `LEFT JOIN`s put the review beside each image
and `COUNT(wr.review_id)` counts it once per image. -/
theorem getWorksByUser_review_count_multiplied :
    (listedWorks (getWorksByUser calmEnv galleryDb (.str "2")).out).map
        (fun row => (row.work_id, row.review_count)) = [(1, 2)] ∧
    (galleryDb.tables.workReviews.filter fun r => decide (r.work_id = 1)).length = 1 ∧
    (galleryDb.tables.workImages.filter fun i => decide (i.work_id = 1)).length = 2 := by
  decide

/-- C18 fails on a work with one image and two reviews: `getWorksByUser` lists work 1 of
account 2 with its only image twice, once per review, because `json_agg` runs over the
rows of both `LEFT JOIN`s.  (For the parts that hold see `worksByUser_images`.) -/
theorem getWorksByUser_images_repeated :
    (listedWorks (getWorksByUser calmEnv sampleDb (.str "2")).out).map
        (fun row => (row.work_id, row.images)) =
      [(1, some ["http://x.com/fence.png", "http://x.com/fence.png"])] ∧
    (sampleDb.tables.workImages.filter fun i => decide (i.work_id = 1)).map
        (·.work_img_url) = ["http://x.com/fence.png"] ∧
    (sampleDb.tables.workReviews.filter fun r => decide (r.work_id = 1)).length = 2 := by
  decide

theorem mem_insertByWorkId (x y : WorkSummary) (l : List WorkSummary) :
    y ∈ insertByWorkId x l ↔ y = x ∨ y ∈ l := by
  induction l with
  | nil => simp [insertByWorkId]
  | cons a as ih =>
    simp only [insertByWorkId]
    split
    · simp
    · simp only [List.mem_cons, ih]
      tauto

theorem mem_orderByWorkId (y : WorkSummary) (l : List WorkSummary) :
    y ∈ orderByWorkId l ↔ y ∈ l := by
  induction l with
  | nil => simp [orderByWorkId]
  | cons a as ih => simp [orderByWorkId, mem_insertByWorkId, ih]

theorem sum_flatMap_const {α : Type} (xs : List α) (R : List Int) :
    (xs.flatMap fun _ => R).sum = (xs.length : Int) * R.sum ∧
    (xs.flatMap fun _ => R).length = xs.length * R.length := by
  induction xs with
  | nil => simp
  | cons a as ih =>
    simp only [List.flatMap_cons, List.sum_append, List.length_append, ih.1, ih.2,
      List.length_cons]
    constructor
    · push_cast; ring
    · ring

/-- The average over a list repeated a positive number of times is the average over the
list. -/
theorem sqlAvg_flatMap_const {α : Type} (xs : List α) (hx : xs ≠ []) (R : List Int) :
    sqlAvg (xs.flatMap fun _ => R) = sqlAvg R := by
  obtain ⟨hs, hl⟩ := sum_flatMap_const xs R
  have hn : 0 < xs.length := List.length_pos.2 hx
  unfold sqlAvg
  cases R with
  | nil =>
    have : (xs.flatMap fun _ => ([] : List Int)) = [] := by
      rw [← List.length_eq_zero, (sum_flatMap_const xs []).2]; simp
    simp [this]
  | cons r rs =>
    have hne : (xs.flatMap fun _ => r :: rs) ≠ [] := by
      intro hc
      have := congrArg List.length hc
      rw [hl] at this
      simp only [List.length_nil, List.length_cons] at this
      rcases Nat.mul_eq_zero.1 this with h | h <;> omega
    have h1 : (xs.flatMap fun _ => r :: rs).isEmpty = false := by
      cases h : xs.flatMap fun _ => r :: rs with
      | nil => exact absurd h hne
      | cons a l => rfl
    simp only [h1, Bool.false_eq_true, if_false, List.isEmpty_cons, hs, hl, Option.some.injEq]
    have hq : (xs.length : ℚ) ≠ 0 := by exact_mod_cast (Nat.pos_iff_ne_zero.1 hn)
    push_cast
    rw [mul_div_mul_left _ _ hq]

theorem filterMap_flatMap {α β γ : Type} (l : List α) (f : α → List β) (g : β → Option γ) :
    (l.flatMap f).filterMap g = l.flatMap fun a => (f a).filterMap g := by
  induction l with
  | nil => rfl
  | cons a as ih => simp [List.flatMap_cons, List.filterMap_append, ih]

theorem map_flatMap_pair {α β γ : Type} (l : List α) (f : α → List β) (g : β → γ) :
    (l.flatMap f).map g = l.flatMap fun a => (f a).map g := by
  induction l with
  | nil => rfl
  | cons a as ih => simp [List.flatMap_cons, ih]

/-- The reviews aggregated from the joined rows of a work, per image row. -/
theorem joinReviews_filterMap (t : Tables) (w : Work) :
    (joinReviews t w).filterMap id = t.workReviews.filter fun r => decide (w.work_id = r.work_id) := by
  unfold joinReviews
  split
  · rename_i h; rw [h]; rfl
  · rename_i h
    induction (t.workReviews.filter fun r => decide (w.work_id = r.work_id)) with
    | nil => rfl
    | cons a as ih => simp

theorem joinImages_ne_nil (t : Tables) (w : Work) : joinImages t w ≠ [] := by
  unfold joinImages
  split
  · simp
  · rename_i h
    intro hc
    have := List.map_eq_nil_iff.1 hc
    exact h this

/-- The ratings aggregated over the joined rows of one work. -/
theorem ratings_joinedRows (t : Tables) (w : Work) :
    ((joinedRows t w).filterMap (·.2)).map (·.rating) =
      (joinImages t w).flatMap fun _ =>
        (t.workReviews.filter fun r => decide (w.work_id = r.work_id)).map (·.rating) := by
  unfold joinedRows
  rw [filterMap_flatMap, map_flatMap_pair]
  apply List.flatMap_congr
  intro i _
  rw [List.filterMap_map]
  have : ((fun x : Option String × Option WorkReview => x.2) ∘ fun r => (i, r)) = id := rfl
  rw [this, joinReviews_filterMap]


/-- The average a listed work reports is the average over the ratings of its reviews. -/
theorem summarize_average (t : Tables) (ws : List Work) (g : Work) (hg : g ∈ ws) :
    (summarize g ((ws.filter fun w => decide (w = g)).flatMap (joinedRows t))).average_rating =
      (sqlAvg ((t.workReviews.filter fun r => decide (g.work_id = r.work_id)).map
        (·.rating))).getD 0 := by
  have hcopies : (ws.filter fun w => decide (w = g)) ≠ [] := by
    intro hc
    have : g ∈ ws.filter fun w => decide (w = g) := by
      rw [List.mem_filter]; exact ⟨hg, by simp⟩
    rw [hc] at this; cases this
  have hrows : (((ws.filter fun w => decide (w = g)).flatMap (joinedRows t)).filterMap
      (·.2)).map (·.rating) =
      (ws.filter fun w => decide (w = g)).flatMap fun _ =>
        (joinImages t g).flatMap fun _ =>
          (t.workReviews.filter fun r => decide (g.work_id = r.work_id)).map (·.rating) := by
    rw [filterMap_flatMap, map_flatMap_pair]
    apply List.flatMap_congr
    intro w hw
    rw [List.mem_filter] at hw
    have : w = g := by simpa using hw.2
    rw [this, ratings_joinedRows]
  show (sqlAvg _).getD 0 = _
  rw [hrows, sqlAvg_flatMap_const _ hcopies, sqlAvg_flatMap_const _ (joinImages_ne_nil t g)]

theorem rating_sum_bounds (l : List Int) (h : ∀ x ∈ l, 1 ≤ x ∧ x ≤ 5) :
    (l.length : Int) ≤ l.sum ∧ l.sum ≤ 5 * (l.length : Int) := by
  induction l with
  | nil => simp
  | cons a as ih =>
    have ha := h a (List.mem_cons_self _ _)
    have := ih (fun x hx => h x (List.mem_cons_of_mem _ hx))
    simp only [List.sum_cons, List.length_cons]
    push_cast
    constructor <;> omega

theorem sqlAvg_getD (l : List Int) :
    (sqlAvg l).getD 0 = if l = [] then 0 else ((l.sum : Int) : ℚ) / (l.length : ℚ) := by
  unfold sqlAvg
  cases l with
  | nil => rfl
  | cons a as => simp

theorem sqlAvg_bounds (l : List Int) (h : ∀ x ∈ l, 1 ≤ x ∧ x ≤ 5) :
    (sqlAvg l).getD 0 = 0 ∨ (1 ≤ (sqlAvg l).getD 0 ∧ (sqlAvg l).getD 0 ≤ 5) := by
  rw [sqlAvg_getD]
  by_cases hl : l = []
  · exact Or.inl (by simp [hl])
  · right
    simp only [hl, if_false]
    obtain ⟨h1, h2⟩ := rating_sum_bounds l h
    have hpos : (0 : ℚ) < (l.length : ℚ) := by
      have : 0 < l.length := List.length_pos.2 hl
      exact_mod_cast this
    have h1q : ((l.length : Int) : ℚ) ≤ ((l.sum : Int) : ℚ) := Int.cast_le.2 h1
    have h2q : ((l.sum : Int) : ℚ) ≤ ((5 * (l.length : Int) : Int) : ℚ) := Int.cast_le.2 h2
    rw [Int.cast_natCast] at h1q
    rw [Int.cast_mul, Int.cast_natCast, Int.cast_ofNat] at h2q
    constructor
    · rw [le_div_iff₀ hpos]; linarith
    · rw [div_le_iff₀ hpos]; linarith

theorem parseFloatOrZero_eq (x : Option ℚ) : parseFloatOrZero x = x.getD 0 := by
  unfold parseFloatOrZero
  cases x with
  | none => rfl
  | some q => simp only [Option.getD_some]; split <;> simp_all

theorem coalesce_jsonAgg (l : List (Option String)) :
    coalesceArray (jsonAgg l) = some (l.filterMap id) := by
  unfold jsonAgg
  cases h : l.filterMap id with
  | nil => rfl
  | cons a as => rfl

/-- Every work `getWorksByUser` lists carries an array (never `NULL`) whose entries are
URLs of `WorkImage` rows of that work; the array is empty when the work has no image. -/
theorem worksByUser_images (t : Tables) (uid : Option Int) (row : WorkSummary)
    (hrow : row ∈ worksByUser t uid) :
    ∃ l, row.images = some l ∧
      (∀ u ∈ l, ∃ i ∈ t.workImages, i.work_id = row.work_id ∧ i.work_img_url = u) ∧
      ((t.workImages.filter fun i => decide (i.work_id = row.work_id)) = [] → l = []) := by
  unfold worksByUser at hrow
  simp only [mem_orderByWorkId, List.mem_map, List.mem_dedup] at hrow
  obtain ⟨g, _, rfl⟩ := hrow
  refine ⟨_, coalesce_jsonAgg _, ?_, ?_⟩
  · intro u hu
    simp only [List.mem_filterMap, List.mem_map, List.mem_flatMap, List.mem_filter,
      decide_eq_true_eq, id] at hu
    obtain ⟨a, ⟨p, ⟨w, ⟨_, hw⟩, hp⟩, hpa⟩, hau⟩ := hu
    subst hw hpa
    unfold joinedRows at hp
    simp only [List.mem_flatMap, List.mem_map] at hp
    obtain ⟨i, hi, r, _, rfl⟩ := hp
    unfold joinImages at hi
    split at hi
    · simp only [List.mem_singleton] at hi
      rw [hi] at hau
      cases hau
    · rename_i hne
      simp only [List.mem_map, List.mem_filter, decide_eq_true_eq] at hi
      obtain ⟨img, ⟨himg, hid⟩, hurl⟩ := hi
      simp only at hau
      rw [hau] at hurl
      simp only [Option.some.injEq] at hurl
      exact ⟨img, himg, hid.symm, hurl⟩
  · intro hnone
    rw [List.filterMap_eq_nil_iff]
    intro a ha
    simp only [List.mem_map, List.mem_flatMap, List.mem_filter, decide_eq_true_eq] at ha
    obtain ⟨p, ⟨w, ⟨_, hw⟩, hp⟩, hpa⟩ := ha
    subst hw hpa
    unfold joinedRows at hp
    simp only [List.mem_flatMap, List.mem_map] at hp
    obtain ⟨i, hi, r, _, rfl⟩ := hp
    unfold joinImages at hi
    have hf : (t.workImages.filter fun i => decide (w.work_id = i.work_id)) = [] := by
      rw [← hnone]
      apply List.filter_congr
      intro x _
      simp only [decide_eq_decide]
      exact eq_comm
    rw [hf] at hi
    simp only [List.mem_singleton] at hi
    rw [hi]
    rfl


/-- Every row of the listing query carries the `AVG` of its own work's ratings. -/
theorem worksByUser_average (t : Tables) (id : Option Int) (row : WorkSummary)
    (hrow : row ∈ worksByUser t id) :
    row.average_rating =
      (sqlAvg ((t.workReviews.filter fun r => decide (r.work_id = row.work_id)).map
        (·.rating))).getD 0 := by
  unfold worksByUser at hrow
  simp only [mem_orderByWorkId, List.mem_map, List.mem_dedup] at hrow
  obtain ⟨g, hg, rfl⟩ := hrow
  rw [summarize_average t _ g hg]
  have hf : (t.workReviews.filter fun r => decide (g.work_id = r.work_id)) =
      t.workReviews.filter fun r => decide (r.work_id = g.work_id) := by
    apply List.filter_congr
    intro r _
    simp only [decide_eq_decide]
    exact eq_comm
  rw [hf]
  rfl

/-- C19: when its statement is answered, `getWorksByUser` answers 200 and every work it
lists reports as `average_rating` the arithmetic mean of the ratings of that work's
`WorkReview` rows (0 when there are none), whatever rows `WorkImage` holds; so the value
is 0 or lies in [1,5] when every stored rating lies in 1..5, and it is the
`average_rating` which `getWorkReviews` reports for that work.  Averages are exact
rationals here, as in `getWorkReviews`. -/
theorem getWorksByUser_average (env env2 : Env) (db : Db) (userId : JsVal) (id : Option Int)
    (h0 : env.faults 0 = none) (hid : pgInt4 userId = .ok id) :
    ∃ body, getWorksByUser env db userId = ⟨db, .json 200 body⟩ ∧
      body.data = .works (worksByUser db.tables id) ∧
      ∀ row ∈ listedWorks (.json 200 body),
        (let ratings : List Int := (db.tables.workReviews.filter
            fun r => decide (r.work_id = row.work_id)).map (·.rating)
         row.average_rating =
           if ratings = [] then 0 else ((ratings.sum : Int) : ℚ) / (ratings.length : ℚ)) ∧
        ((∀ r ∈ db.tables.workReviews, 1 ≤ r.rating ∧ r.rating ≤ 5) →
          row.average_rating = 0 ∨ (1 ≤ row.average_rating ∧ row.average_rating ≤ 5)) ∧
        (∀ workId, env2.faults 0 = none → env2.faults 1 = none →
          pgInt4 workId = .ok (some (row.work_id : Int)) →
          ∃ body2, getWorkReviews env2 db workId = ⟨db, .json 200 body2⟩ ∧
            body2.average_rating = some row.average_rating) := by
  unfold getWorksByUser
  simp only [bindInt_calm _ h0, hid]
  refine ⟨_, rfl, rfl, ?_⟩
  intro row hrow
  simp only [listedWorks] at hrow
  have havg := worksByUser_average db.tables id row hrow
  refine ⟨?_, ?_, ?_⟩
  · show row.average_rating = _
    rw [havg, sqlAvg_getD]
  · intro hb
    rw [havg]
    apply sqlAvg_bounds
    intro x hx
    simp only [List.mem_map, List.mem_filter] at hx
    obtain ⟨r, ⟨hr, _⟩, rfl⟩ := hx
    exact hb r hr
  · intro workId g0 g1 hw
    unfold getWorkReviews
    simp only [bindInt_calm _ g0, bindInt_calm _ g1, hw]
    refine ⟨_, rfl, ?_⟩
    simp only [parseFloatOrZero_eq, havg, Option.some.injEq]
    congr 3
    apply List.filter_congr
    intro r _
    simp only [decide_eq_decide, Option.some.injEq, Nat.cast_inj]

/-- C19 at account 2 of the sample store: its work 1, with the ratings 3 and 5, is listed
with the average 4, which is also what `getWorkReviews` reports for work 1. -/
theorem getWorksByUser_average_witness :
    ∃ body, getWorksByUser calmEnv sampleDb (.str "2") = ⟨sampleDb, .json 200 body⟩ ∧
      (listedWorks (.json 200 body)).map (·.work_id) = [1] ∧
      (∀ row ∈ listedWorks (.json 200 body), row.average_rating = 4) ∧
      ∃ body2, getWorkReviews calmEnv sampleDb (.str "1") = ⟨sampleDb, .json 200 body2⟩ ∧
        body2.average_rating = some 4 := by
  obtain ⟨body, h, hd, hrows⟩ := getWorksByUser_average calmEnv calmEnv sampleDb (.str "2")
    (some 2) rfl (by decide)
  have hids : (listedWorks (.json 200 body)).map (·.work_id) = [1] := by
    simp only [listedWorks, hd]
    decide
  have hfour : ∀ row ∈ listedWorks (.json 200 body), row.average_rating = 4 := by
    intro row hrow
    have hid : row.work_id = 1 := by
      have : row.work_id ∈ (listedWorks (.json 200 body)).map (·.work_id) :=
        List.mem_map_of_mem _ hrow
      rw [hids] at this
      simpa using this
    have := (hrows row hrow).1
    simp only [hid] at this
    rw [this]
    simp [sampleDb]
    norm_num
  refine ⟨body, h, hids, hfour, ?_⟩
  have hmem : ∃ row, row ∈ listedWorks (.json 200 body) ∧ row.work_id = 1 := by
    have : (1 : Nat) ∈ (listedWorks (.json 200 body)).map (·.work_id) := by rw [hids]; simp
    obtain ⟨row, hr, he⟩ := List.mem_map.1 this
    exact ⟨row, hr, he⟩
  obtain ⟨row, hr, he⟩ := hmem
  obtain ⟨body2, hb, ha⟩ := (hrows row hr).2.2 (.str "1") rfl rfl (by rw [he]; decide)
  exact ⟨body2, hb, by rw [ha, hfour row hr]⟩

/-! ## No self-review (claim C20) -/

theorem jsWhite_of_pgWhite (c : Char) (h : pgWhite c = true) : jsWhite c = true := by
  simp only [pgWhite, jsWhite, Bool.or_eq_true, Bool.and_eq_true, decide_eq_true_eq] at h ⊢
  omega

theorem dropWhile_jsWhite_pgWhite (l : List Char) :
    l.dropWhile jsWhite = (l.dropWhile pgWhite).dropWhile jsWhite := by
  induction l with
  | nil => rfl
  | cons c cs ih =>
    by_cases hp : pgWhite c = true
    · simp only [List.dropWhile_cons, hp, jsWhite_of_pgWhite c hp, if_true, ih]
    · simp only [List.dropWhile_cons, hp, if_false, Bool.false_eq_true]

theorem jsWhite_digit (c : Char) (d : Nat) (h : digitVal 10 c = some d) : jsWhite c = false := by
  unfold digitVal at h
  simp only at h
  split at h
  · rename_i hc
    simp only [jsWhite, Bool.or_eq_false_iff, Bool.and_eq_false_iff, decide_eq_false_iff_not]
    omega
  · simp at h

/-- A text the engine reads as an integer does not open with a hexadecimal prefix. -/
theorem stripHex_none_of_int4 (s2 : List Char)
    (h : (readDigits 10 s2 0 false).2.2.all pgWhite = true) : stripHex s2 = none := by
  match s2 with
  | [] => rfl
  | [_] => rfl
  | a :: b :: rest =>
    simp only [stripHex]
    by_cases hab : a = '0' ∧ (b = 'x' ∨ b = 'X')
    · obtain ⟨ha, hb⟩ := hab
      subst ha
      rcases hb with hb | hb <;> subst hb <;> simp [readDigits, digitVal, pgWhite] at h
    · simp only [hab, if_false]

/-- Every text the engine reads as an integer is read by `parseInt` as the same integer. -/
theorem parseIntChars_of_int4in (l : List Char) (n : Int) (h : int4in l = some n) :
    parseIntChars l = some n := by
  unfold int4in at h
  unfold parseIntChars
  rw [dropWhile_jsWhite_pgWhite]
  generalize l.dropWhile pgWhite = s1 at h
  cases s1 with
  | nil => simp [readDigits] at h
  | cons c cs =>
    by_cases hsign : c = '-' ∨ c = '+'
    · have hc : jsWhite c = false := by
        rcases hsign with h1 | h1 <;> subst h1 <;> decide
      have hh : ((c :: cs).head? = some '-' ∨ (c :: cs).head? = some '+') := by
        simpa using hsign
      simp only [List.dropWhile_cons, hc, Bool.false_eq_true, if_false, hh, if_true,
        List.tail_cons] at h ⊢
      by_cases hok : (readDigits 10 cs 0 false).2.1 = true ∧
          (readDigits 10 cs 0 false).2.2.all pgWhite = true
      · rw [if_pos hok] at h
        rw [stripHex_none_of_int4 cs hok.2]
        simp only [hok.1, if_true]
        exact h
      · rw [if_neg hok] at h; cases h
    · have hh : ¬ ((c :: cs).head? = some '-' ∨ (c :: cs).head? = some '+') := by
        simpa using hsign
      simp only [hh, if_false] at h
      by_cases hok : (readDigits 10 (c :: cs) 0 false).2.1 = true ∧
          (readDigits 10 (c :: cs) 0 false).2.2.all pgWhite = true
      · rw [if_pos hok] at h
        have hc : jsWhite c = false := by
          have hseen := hok.1
          unfold readDigits at hseen
          cases hd : digitVal 10 c with
          | none => simp [hd] at hseen
          | some d => exact jsWhite_digit c d hd
        simp only [List.dropWhile_cons, hc, Bool.false_eq_true, if_false, hh]
        rw [stripHex_none_of_int4 (c :: cs) hok.2]
        simp only [hok.1, if_true]
        exact h
      · rw [if_neg hok] at h; cases h

theorem parseInt_of_pgInt4 (v : JsVal) (n : Int) (h : pgInt4 v = .ok (some n)) :
    parseInt v = some n := by
  unfold parseInt
  apply parseIntChars_of_int4in
  cases v with
  | null => simp [pgInt4] at h
  | bool b =>
    simp only [pgInt4] at h
    split at h
    · rename_i m hm; simp only [Except.ok.injEq, Option.some.injEq] at h; rw [← h]; exact hm
    · cases h
  | num k =>
    simp only [pgInt4] at h
    split at h
    · rename_i m hm; simp only [Except.ok.injEq, Option.some.injEq] at h; rw [← h]; exact hm
    · cases h
  | str s =>
    simp only [pgInt4] at h
    split at h
    · rename_i m hm; simp only [Except.ok.injEq, Option.some.injEq] at h; rw [← h]; exact hm
    · cases h

/-- The invariant passes to tables whose reviews and works keep the reviewer, the target
and the owner of rows stored before. -/
theorem noSelfReview_of_rows {t t1 : Tables} (h : NoSelfReview t)
    (hu : ∀ r ∈ t1.userReviews, ∃ r0 ∈ t.userReviews,
      r0.reviewer_id = r.reviewer_id ∧ r0.reviewee_id = r.reviewee_id)
    (hw : ∀ r ∈ t1.workReviews, ∃ r0 ∈ t.workReviews,
      r0.reviewer_id = r.reviewer_id ∧ r0.work_id = r.work_id)
    (hk : ∀ w ∈ t1.works, ∃ w0 ∈ t.works, w0.work_id = w.work_id ∧ w0.user_id = w.user_id) :
    NoSelfReview t1 := by
  constructor
  · intro r hr
    obtain ⟨r0, hr0, h1, h2⟩ := hu r hr
    rw [← h1, ← h2]
    exact h.1 r0 hr0
  · intro r hr w hw1 hid
    obtain ⟨r0, hr0, h1, h2⟩ := hw r hr
    obtain ⟨w0, hw0, h3, h4⟩ := hk w hw1
    rw [← h1, ← h4]
    exact h.2 r0 hr0 w0 hw0 (by rw [h3, h2, hid])

theorem updateUserReview_keeps (env : Env) (db : Db) (actor : Nat) (reviewId : JsVal)
    (text : String) (h : NoSelfReview db.tables) :
    NoSelfReview (updateUserReview env db actor reviewId text).db.tables := by
  unfold updateUserReview
  cases bindInt env 0 reviewId with
  | error e => exact h
  | ok id =>
    simp only
    split
    · exact h
    · refine noSelfReview_of_rows h ?_ (fun r hr => ⟨r, hr, rfl, rfl⟩)
        (fun w hw => ⟨w, hw, rfl, rfl⟩)
      intro r hr
      simp only [List.mem_map] at hr
      obtain ⟨r0, hr0, rfl⟩ := hr
      refine ⟨r0, hr0, ?_⟩
      split <;> exact ⟨rfl, rfl⟩

theorem deleteUserReview_keeps (env : Env) (db : Db) (actor : Nat) (reviewId : JsVal)
    (h : NoSelfReview db.tables) :
    NoSelfReview (deleteUserReview env db actor reviewId).db.tables := by
  unfold deleteUserReview
  cases bindInt env 0 reviewId with
  | error e => exact h
  | ok id =>
    simp only
    split
    · exact h
    · exact noSelfReview_of_rows h
        (fun r hr => ⟨r, (List.mem_filter.1 hr).1, rfl, rfl⟩)
        (fun r hr => ⟨r, hr, rfl, rfl⟩) (fun w hw => ⟨w, hw, rfl, rfl⟩)

theorem updateWorkReview_keeps (env : Env) (db : Db) (actor : Nat) (reviewId : JsVal)
    (rating : Option Int) (text : Option String) (h : NoSelfReview db.tables) :
    NoSelfReview (updateWorkReview env db actor reviewId rating text).db.tables := by
  unfold updateWorkReview
  cases bindInt env 0 reviewId with
  | error e => exact h
  | ok id =>
    simp only
    split
    · exact h
    · refine noSelfReview_of_rows h (fun r hr => ⟨r, hr, rfl, rfl⟩) ?_
        (fun w hw => ⟨w, hw, rfl, rfl⟩)
      intro r hr
      simp only [List.mem_map] at hr
      obtain ⟨r0, hr0, rfl⟩ := hr
      refine ⟨r0, hr0, ?_⟩
      split <;> exact ⟨rfl, rfl⟩

theorem deleteWorkReview_keeps (env : Env) (db : Db) (actor : Nat) (reviewId : JsVal)
    (h : NoSelfReview db.tables) :
    NoSelfReview (deleteWorkReview env db actor reviewId).db.tables := by
  unfold deleteWorkReview
  cases bindInt env 0 reviewId with
  | error e => exact h
  | ok id =>
    simp only
    split
    · exact h
    · exact noSelfReview_of_rows h (fun r hr => ⟨r, hr, rfl, rfl⟩)
        (fun r hr => ⟨r, (List.mem_filter.1 hr).1, rfl, rfl⟩)
        (fun w hw => ⟨w, hw, rfl, rfl⟩)

theorem updateWork_keeps (env : Env) (db : Db) (actor : Nat) (workId : JsVal)
    (title : String) (h : NoSelfReview db.tables) :
    NoSelfReview (updateWork env db actor workId title).db.tables := by
  unfold updateWork
  cases bindInt env 0 workId with
  | error e => exact h
  | ok id =>
    simp only
    split
    · exact h
    · cases bindInt env 1 workId with
      | error e => exact h
      | ok id1 =>
        refine noSelfReview_of_rows h (fun r hr => ⟨r, hr, rfl, rfl⟩)
          (fun r hr => ⟨r, hr, rfl, rfl⟩) ?_
        intro w hw
        simp only [List.mem_map] at hw
        obtain ⟨w0, hw0, rfl⟩ := hw
        refine ⟨w0, hw0, ?_⟩
        split <;> exact ⟨rfl, rfl⟩

theorem deleteWork_keeps (env : Env) (db : Db) (actor : Nat) (workId : JsVal)
    (h : NoSelfReview db.tables) :
    NoSelfReview (deleteWork env db actor workId).db.tables := by
  unfold deleteWork
  cases bindInt env 0 workId with
  | error e => exact h
  | ok id =>
    simp only
    split
    · exact h
    · split
      · exact h
      · exact noSelfReview_of_rows h (fun r hr => ⟨r, hr, rfl, rfl⟩)
          (fun r hr => ⟨r, (List.mem_filter.1 hr).1, rfl, rfl⟩)
          (fun w hw => ⟨w, (List.mem_filter.1 hw).1, rfl, rfl⟩)

/-- After the insert of `createUserReview` the tables are those before, or hold one more
`UserReview`, from the reviewer to the account the engine read. -/
theorem insertUserReview_tables (db : Db) (reviewer : Nat) (reviewee : Option Int)
    (text : String) (now : Nat) :
    (insertUserReview db reviewer reviewee text now).1.tables = db.tables ∨
    ∃ row : UserReview, row.reviewer_id = reviewer ∧
      reviewee = some (row.reviewee_id : Int) ∧
      (insertUserReview db reviewer reviewee text now).1.tables =
        { db.tables with userReviews := db.tables.userReviews ++ [row] } := by
  unfold insertUserReview
  cases reviewee with
  | none => exact Or.inl rfl
  | some n =>
    simp only
    split
    · exact Or.inl rfl
    · cases hf : db.tables.users.find? fun u => decide ((u.user_id : Int) = n) with
      | none => exact Or.inl rfl
      | some u =>
        simp only
        split
        · have hu := List.find?_some hf
          simp only [decide_eq_true_eq] at hu
          exact Or.inr ⟨_, rfl, by rw [← hu], rfl⟩
        · exact Or.inl rfl

theorem createUserReview_keeps (env : Env) (db : Db) (actor : Nat) (reviewee_id : JsVal)
    (text : String) (h : NoSelfReview db.tables) :
    NoSelfReview (createUserReview env db actor reviewee_id text).db.tables := by
  unfold createUserReview
  simp only
  split
  · exact h
  · rename_i hguard
    cases bindInt env 0 reviewee_id with
    | error e => exact h
    | ok id =>
      simp only
      split
      · exact h
      · cases h1 : bindInt env 1 reviewee_id with
        | error e => exact h
        | ok id1 =>
          simp only
          have hpg := bindInt_ok h1
          have ht := insertUserReview_tables db actor id1 text env.now
          generalize insertUserReview db actor id1 text env.now = r at ht
          obtain ⟨db1, res⟩ := r
          have hgoal : NoSelfReview db1.tables := by
            rcases ht with ht | ⟨row, hr1, hr2, ht⟩
            · simp only at ht; rw [ht]; exact h
            · simp only at ht
              rw [ht]
              refine ⟨?_, h.2⟩
              intro r hr
              simp only [List.mem_append, List.mem_singleton] at hr
              rcases hr with hr | rfl
              · exact h.1 r hr
              · intro hself
                apply hguard
                rw [hr2] at hpg
                rw [parseInt_of_pgInt4 _ _ hpg, ← hself, hr1]
          cases res with
          | error e => exact hgoal
          | ok row => exact hgoal

/-- After the insert of `createWorkReview` the tables are those before, or hold one more
`WorkReview`, from the reviewer to a stored work with the id the engine read. -/
theorem insertWorkReview_tables (db : Db) (reviewer : Nat) (work : Option Int)
    (rating : Int) (text : String) (now : Nat) :
    (insertWorkReview db reviewer work rating text now).1.tables = db.tables ∨
    ∃ row : WorkReview, row.reviewer_id = reviewer ∧
      work = some (row.work_id : Int) ∧
      (insertWorkReview db reviewer work rating text now).1.tables =
        { db.tables with workReviews := db.tables.workReviews ++ [row] } := by
  unfold insertWorkReview
  cases work with
  | none => exact Or.inl rfl
  | some n =>
    simp only
    split
    · exact Or.inl rfl
    · cases hf : db.tables.works.find? fun w => decide ((w.work_id : Int) = n) with
      | none => exact Or.inl rfl
      | some w =>
        simp only
        split
        · have hw := List.find?_some hf
          simp only [decide_eq_true_eq] at hw
          exact Or.inr ⟨_, rfl, by rw [← hw], rfl⟩
        · exact Or.inl rfl

theorem createWorkReview_keeps (env : Env) (db : Db) (actor : Nat) (work_id : JsVal)
    (rating : Int) (text : String) (hkey : WorksKey db.tables)
    (h : NoSelfReview db.tables) :
    NoSelfReview (createWorkReview env db actor work_id rating text).db.tables := by
  unfold createWorkReview
  simp only
  cases h0 : bindInt env 0 work_id with
  | error e => exact h
  | ok id =>
    simp only
    cases hfil : db.tables.works.filter fun w => decide (some (w.work_id : Int) = id) with
    | nil => exact h
    | cons w0 rest =>
      simp only
      split
      · exact h
      · rename_i howner
        cases h1 : bindInt env 1 work_id with
        | error e => exact h
        | ok id1 =>
          simp only
          have hid : id1 = id := by
            have a := bindInt_ok h0
            have b := bindInt_ok h1
            rw [a] at b
            simp only [Except.ok.injEq] at b
            exact b.symm
          have ht := insertWorkReview_tables db actor id1 rating text env.now
          generalize insertWorkReview db actor id1 rating text env.now = r at ht
          obtain ⟨db1, res⟩ := r
          have hgoal : NoSelfReview db1.tables := by
            rcases ht with ht | ⟨row, hr1, hr2, ht⟩
            · simp only at ht; rw [ht]; exact h
            · simp only at ht
              rw [ht]
              refine ⟨h.1, ?_⟩
              intro r hr w hw hwid
              simp only [List.mem_append, List.mem_singleton] at hr
              rcases hr with hr | rfl
              · exact h.2 r hr w hw hwid
              · rw [hr1]
                have hw0 : w0 ∈ db.tables.works.filter
                    fun w => decide (some (w.work_id : Int) = id) := by
                  rw [hfil]; exact List.mem_cons_self _ _
                rw [List.mem_filter] at hw0
                have hsame : w0.work_id = w.work_id := by
                  have := hw0.2
                  rw [← hid, hr2] at this
                  simp only [decide_eq_true_eq, Option.some.injEq, Nat.cast_inj] at this
                  rw [this, hwid]
                have := List.inj_on_of_nodup_map hkey hw0.1 hw hsame
                rw [← this]
                exact fun hc => howner hc.symm
          cases res with
          | error e => exact hgoal
          | ok row => exact hgoal

theorem workAdded_refl (t : Tables) : WorkAdded t t := ⟨rfl, rfl, Or.inl rfl⟩

theorem insertWork_added (c t : Tables) (seq : Seqs) (actor : Nat) (title : String) :
    (insertWork ⟨c, some t, seq⟩ actor title).1.committed = c ∧
    ∃ t1, (insertWork ⟨c, some t, seq⟩ actor title).1.txn = some t1 ∧ WorkAdded t t1 := by
  unfold insertWork
  simp only [Session.view, Option.getD_some]
  split
  · exact ⟨rfl, t, rfl, workAdded_refl t⟩
  · rename_i hany
    split
    · refine ⟨rfl, _, rfl, rfl, rfl, Or.inr ⟨_, rfl, ?_⟩⟩
      intro w0 hw0 hc
      apply hany
      rw [List.any_eq_true]
      exact ⟨w0, hw0, by simpa using hc⟩
    · exact ⟨rfl, t, rfl, workAdded_refl t⟩

theorem insertImageRows_fields : ∀ (rows : List (Nat × String)) (t t1 : Tables),
    insertImageRows t rows = .ok t1 →
    t1.userReviews = t.userReviews ∧ t1.workReviews = t.workReviews ∧ t1.works = t.works := by
  intro rows
  induction rows with
  | nil =>
    intro t t1 h
    simp only [insertImageRows, Except.ok.injEq] at h
    rw [← h]; exact ⟨rfl, rfl, rfl⟩
  | cons r rs ih =>
    intro t t1 h
    rw [insertImageRows] at h
    split at h
    · cases h
    · have := ih _ t1 h
      exact this

/-- On text without quote characters the image insert leaves reviews and works alone. -/
theorem runValues_fields (env : Env) (id : Nat) (img : String) (imgs : List String)
    (c t : Tables) (seq : Seqs) (hq : ∀ i ∈ img :: imgs, quote ∉ i.toList) :
    (runValues env (imageValues id (img :: imgs)).toList ⟨c, some t, seq⟩).1.committed = c ∧
    ∃ t1, (runValues env (imageValues id (img :: imgs)).toList ⟨c, some t, seq⟩).1.txn =
        some t1 ∧
      t1.userReviews = t.userReviews ∧ t1.workReviews = t.workReviews ∧
      t1.works = t.works := by
  unfold runValues
  rw [readScript_plain id img imgs hq]
  simp only [Session.view, Option.getD_some]
  cases hrows : insertImageRows t (List.map (fun i => (id, i)) (img :: imgs)) with
  | error e => exact ⟨rfl, t, rfl, rfl, rfl, rfl⟩
  | ok t1 =>
    simp only
    split
    · exact ⟨rfl, t1, rfl, insertImageRows_fields _ _ _ hrows⟩
    · exact ⟨rfl, t, rfl, rfl, rfl, rfl⟩

theorem insertImagesStep_fields (env : Env) (c t : Tables) (seq : Seqs) (id : Nat)
    (images : Option (List String)) (hq : QuoteFree images) :
    (insertImagesStep env ⟨c, some t, seq⟩ id images).1.committed = c ∧
    ∃ t1, (insertImagesStep env ⟨c, some t, seq⟩ id images).1.txn = some t1 ∧
      t1.userReviews = t.userReviews ∧ t1.workReviews = t.workReviews ∧
      t1.works = t.works := by
  unfold insertImagesStep
  split
  · rename_i img imgs
    cases env.faults 3 with
    | some e => exact ⟨rfl, t, rfl, rfl, rfl, rfl⟩
    | none => exact runValues_fields env id img imgs c t seq (hq _ rfl)
  · exact ⟨rfl, t, rfl, rfl, rfl, rfl⟩

theorem readBackAndCommit_committed (env : Env) (s : Session) (id : Nat) :
    (readBackAndCommit env s id).1 = s ∨ (readBackAndCommit env s id).1 = s.commit := by
  unfold readBackAndCommit
  cases env.faults 4 with
  | some e => exact Or.inl rfl
  | none =>
    simp only
    cases env.faults 5 with
    | some e => exact Or.inl rfl
    | none => exact Or.inr rfl

/-- On a request whose image strings hold no quote character, the rows `createWork`
leaves committed hold the reviews stored before and at most one more work. -/
theorem createWorkTry_added (env : Env) (db : Db) (actor : Nat) (title : String)
    (images : Option (List String)) (hq : QuoteFree images) :
    WorkAdded db.tables
      (createWorkTry env ⟨db.tables, none, db.seq⟩ actor title images).1.committed := by
  unfold createWorkTry
  cases env.faults 1 with
  | some e => exact workAdded_refl _
  | none =>
    simp only
    cases env.faults 2 with
    | some e => exact workAdded_refl _
    | none =>
      simp only
      have hb : Session.begin ⟨db.tables, none, db.seq⟩ =
          ⟨db.tables, some db.tables, db.seq⟩ := rfl
      rw [hb]
      obtain ⟨hc, t1, ht1, hadd⟩ := insertWork_added db.tables db.tables db.seq actor title
      generalize insertWork ⟨db.tables, some db.tables, db.seq⟩ actor title = r at hc ht1
      obtain ⟨s2, res⟩ := r
      cases res with
      | error e => simp only at hc ⊢; rw [hc]; exact workAdded_refl _
      | ok work =>
        simp only at hc ht1 ⊢
        obtain ⟨c2, x2, seq2⟩ := s2
        simp only at hc ht1
        subst hc ht1
        obtain ⟨h3c, t3, h3t, hf⟩ :=
          insertImagesStep_fields env db.tables t1 seq2 work.work_id images hq
        generalize insertImagesStep env ⟨db.tables, some t1, seq2⟩ work.work_id images = r3
          at h3c h3t
        obtain ⟨s3, ev, oe⟩ := r3
        simp only at h3c h3t
        cases oe with
        | some e3 => simp only; rw [h3c]; exact workAdded_refl _
        | none =>
          simp only
          rcases readBackAndCommit_committed env s3 work.work_id with h4 | h4
          · rw [h4, h3c]; exact workAdded_refl _
          · rw [h4]
            simp only [Session.commit, h3t]
            exact ⟨hf.1.trans hadd.1, hf.2.1.trans hadd.2.1, by rw [hf.2.2]; exact hadd.2.2⟩

theorem createWork_added (env : Env) (db : Db) (actor : Nat) (title : String)
    (images : Option (List String)) (hq : QuoteFree images) :
    WorkAdded db.tables (createWork env db actor title images).db.tables := by
  unfold createWork
  cases env.faults 0 with
  | some e => exact workAdded_refl _
  | none =>
    simp only
    have h := createWorkTry_added env db actor title images hq
    generalize createWorkTry env ⟨db.tables, none, db.seq⟩ actor title images = r at h
    obtain ⟨s, ev, res⟩ := r
    cases res with
    | ok row => exact h
    | error e =>
      simp only
      cases env.faults 6 with
      | some e6 => exact h
      | none => exact h

theorem noSelfReview_of_added {t0 t : Tables} (h : NoSelfReview t0)
    (href : WorkReviewWorkRef t0) (ha : WorkAdded t0 t) : NoSelfReview t := by
  obtain ⟨hu, hw, hk⟩ := ha
  constructor
  · rw [hu]; exact h.1
  · rw [hw]
    intro r hr w hwm hid
    rcases hk with hk | ⟨w1, hk, hfresh⟩
    · rw [hk] at hwm; exact h.2 r hr w hwm hid
    · rw [hk] at hwm
      simp only [List.mem_append, List.mem_singleton] at hwm
      rcases hwm with hwm | rfl
      · exact h.2 r hr w hwm hid
      · obtain ⟨w0, hw0, h0⟩ := href r hr
        exact absurd (h0.trans hid.symm) (hfresh w0 hw0)

theorem createWork_keeps_plain (env : Env) (db : Db) (actor : Nat) (title : String)
    (images : Option (List String)) (hq : QuoteFree images)
    (href : WorkReviewWorkRef db.tables) (h : NoSelfReview db.tables) :
    NoSelfReview (createWork env db actor title images).db.tables :=
  noSelfReview_of_added h href (createWork_added env db actor title images hq)

/-- Each review and work operation other than `createWork` takes a store without
self-reviews to a store without self-reviews, and so does `createWork` on a request whose
image strings hold no quote character.  Work ids are unique and every review references
a stored work. -/
theorem no_self_review_kept (env : Env) (db : Db) (actor : Nat) (target : JsVal)
    (text title : String) (rating : Int) (newRating : Option Int) (newText : Option String)
    (images : Option (List String))
    (hkey : WorksKey db.tables) (href : WorkReviewWorkRef db.tables)
    (h : NoSelfReview db.tables) :
    NoSelfReview (createUserReview env db actor target text).db.tables ∧
    NoSelfReview (updateUserReview env db actor target text).db.tables ∧
    NoSelfReview (deleteUserReview env db actor target).db.tables ∧
    NoSelfReview (createWorkReview env db actor target rating text).db.tables ∧
    NoSelfReview (updateWorkReview env db actor target newRating newText).db.tables ∧
    NoSelfReview (deleteWorkReview env db actor target).db.tables ∧
    NoSelfReview (updateWork env db actor target title).db.tables ∧
    NoSelfReview (deleteWork env db actor target).db.tables ∧
    (QuoteFree images → NoSelfReview (createWork env db actor title images).db.tables) :=
  ⟨createUserReview_keeps env db actor target text h,
    updateUserReview_keeps env db actor target text h,
    deleteUserReview_keeps env db actor target h,
    createWorkReview_keeps env db actor target rating text hkey h,
    updateWorkReview_keeps env db actor target newRating newText h,
    deleteWorkReview_keeps env db actor target h,
    updateWork_keeps env db actor target title h,
    deleteWork_keeps env db actor target h,
    fun hq => createWork_keeps_plain env db actor title images hq href h⟩

/-- The sample store meets the assumptions of `no_self_review_kept`, and a request for a
review of work 1 by its owner, account 2, leaves it without self-reviews. -/
theorem no_self_review_kept_sample :
    WorksKey sampleDb.tables ∧ WorkReviewWorkRef sampleDb.tables ∧
    NoSelfReview sampleDb.tables ∧
    NoSelfReview
      (createWorkReview calmEnv sampleDb 2 (.str "1") 5 "Best-fence-ever").db.tables :=
  ⟨by decide, by decide, by decide,
    (no_self_review_kept calmEnv sampleDb 2 (.str "1") "Best-fence-ever" "Gate" 5 none none
      none (by decide) (by decide) (by decide)).2.2.2.1⟩

set_option maxRecDepth 100000 in
/-- C20 fails for `createWork`: on the sample store, which holds no self-review, account 2
creates a work with one image string that closes the literal and the row and goes on with
an `INSERT` into `WorkReview` for reviewer 2 and work 1, the work account 2 owns.
`createWork` answers 201 and the committed store holds that review, a self-review.  (For
the other eight operations, and for `createWork` on image strings without quote
characters, see `no_self_review_kept`.) -/
theorem createWork_stores_self_review :
    NoSelfReview sampleDb.tables ∧
    createWork reviewEnv sampleDb 2 "Gate" (some [reviewUrl]) =
      ⟨{ tables := { sampleDb.tables with
            works := sampleDb.tables.works ++ [⟨2, 2, "Gate"⟩]
            workImages := sampleDb.tables.workImages ++ [⟨2, "http://x.com/a"⟩]
            workReviews := sampleDb.tables.workReviews ++
              [⟨3, 2, 1, 5, "Best-fence-ever", 100⟩] }
         seq := { sampleDb.seq with work := 2, workReview := 3 } },
        .json 201 { success := true, message := some "Work created successfully",
                    data := .workWithImages (some ⟨2, 2, "Gate", some ["http://x.com/a"]⟩) },
        [.connect, .begin, .insertWork, .insertImages, .readBack, .commit, .respond,
          .release]⟩ ∧
    ¬ NoSelfReview (createWork reviewEnv sampleDb 2 "Gate" (some [reviewUrl])).db.tables := by
  decide

/-! ## What `createWork` reports (claim C21) -/

theorem insertImagesStep_events (env : Env) (s : Session) (id : Nat)
    (images : Option (List String)) :
    (insertImagesStep env s id images).2.1 = [] ∨
    (insertImagesStep env s id images).2.1 = [.insertImages] := by
  unfold insertImagesStep
  split
  · cases env.faults 3 with
    | some e => exact Or.inr rfl
    | none => exact Or.inr rfl
  · exact Or.inl rfl

theorem readBackAndCommit_events (env : Env) (s : Session) (id : Nat) :
    (readBackAndCommit env s id).2.1 = [.readBack] ∨
    (readBackAndCommit env s id).2.1 = [.readBack, .commit] := by
  unfold readBackAndCommit
  cases env.faults 4 with
  | some e => exact Or.inl rfl
  | none =>
    simp only
    cases env.faults 5 with
    | some e => exact Or.inr rfl
    | none => exact Or.inr rfl

/-- The `try` block of `createWork` neither responds nor calls `next`. -/
theorem createWorkTry_events (env : Env) (s0 : Session) (actor : Nat) (title : String)
    (images : Option (List String)) :
    Event.respond ∉ (createWorkTry env s0 actor title images).2.1 ∧
    Event.next ∉ (createWorkTry env s0 actor title images).2.1 := by
  unfold createWorkTry
  cases env.faults 1 with
  | some e => constructor <;> simp
  | none =>
    simp only
    cases env.faults 2 with
    | some e => constructor <;> simp
    | none =>
      simp only
      generalize insertWork s0.begin actor title = r
      obtain ⟨s2, res⟩ := r
      cases res with
      | error e => constructor <;> simp
      | ok work =>
        simp only
        have h3 := insertImagesStep_events env s2 work.work_id images
        generalize insertImagesStep env s2 work.work_id images = r3 at h3
        obtain ⟨s3, ev, oe⟩ := r3
        simp only at h3
        cases oe with
        | some e3 =>
          simp only
          rcases h3 with h3 | h3 <;> subst h3 <;> constructor <;> simp
        | none =>
          simp only
          have h4 := readBackAndCommit_events env s3 work.work_id
          generalize readBackAndCommit env s3 work.work_id = r4 at h4
          obtain ⟨s4, ev2, res4⟩ := r4
          simp only at h4 ⊢
          rcases h3 with h3 | h3 <;> rcases h4 with h4 | h4 <;> subst h3 <;> subst h4 <;>
            constructor <;> simp

/-- The outcomes of `createWork`: a 201 response after which `next` is not called, an
error forwarded through `next` once after `ROLLBACK` and without a response, or, when
acquiring the connection or the `ROLLBACK` of the `catch` block fails, neither a response
nor a call of `next`.  With both of these answered only the first two remain. -/
theorem createWork_outcomes (env : Env) (db : Db) (actor : Nat) (title : String)
    (images : Option (List String)) :
    ((∃ row, (createWork env db actor title images).out =
          .json 201 { success := true, message := some "Work created successfully",
                      data := .workWithImages row } ∧
        (createWork env db actor title images).trace.count .respond = 1 ∧
        (createWork env db actor title images).trace.count .next = 0) ∨
      (∃ e, (createWork env db actor title images).out = .forwarded e ∧
        (createWork env db actor title images).trace.count .next = 1 ∧
        (createWork env db actor title images).trace.count .respond = 0) ∨
      (∃ e, (createWork env db actor title images).out = .unhandled e ∧
        (env.faults 0 = some e ∨ env.faults 6 = some e) ∧
        (createWork env db actor title images).trace.count .next = 0 ∧
        (createWork env db actor title images).trace.count .respond = 0)) ∧
    (env.faults 0 = none → env.faults 6 = none →
      ∀ e, (createWork env db actor title images).out ≠ .unhandled e) := by
  unfold createWork
  cases h0 : env.faults 0 with
  | some e0 =>
    refine ⟨Or.inr (Or.inr ⟨e0, rfl, Or.inl rfl, rfl, rfl⟩), ?_⟩
    intro h; cases h
  | none =>
    simp only
    obtain ⟨hr, hn⟩ := createWorkTry_events env ⟨db.tables, none, db.seq⟩ actor title images
    generalize createWorkTry env ⟨db.tables, none, db.seq⟩ actor title images = r at hr hn
    obtain ⟨s, ev, res⟩ := r
    simp only at hr hn
    have cr : ev.count Event.respond = 0 := List.count_eq_zero.2 hr
    have cn : ev.count Event.next = 0 := List.count_eq_zero.2 hn
    cases res with
    | ok row =>
      simp only
      refine ⟨Or.inl ⟨row, rfl, ?_, ?_⟩, fun _ _ e h => by cases h⟩
      · simp [List.count_append, cr, List.count_cons]
      · simp [List.count_append, cn, List.count_cons]
    | error e =>
      simp only
      cases h6 : env.faults 6 with
      | some e6 =>
        simp only
        refine ⟨Or.inr (Or.inr ⟨e6, rfl, Or.inr rfl, ?_, ?_⟩), fun _ h => by cases h⟩
        · simp [List.count_append, cn, List.count_cons]
        · simp [List.count_append, cr, List.count_cons]
      | none =>
        simp only
        refine ⟨Or.inr (Or.inl ⟨e, rfl, ?_, ?_⟩), fun _ _ e h => by cases h⟩
        · simp [List.count_append, cn, List.count_cons]
        · simp [List.count_append, cr, List.count_cons]

/-- A 201 answer of `createWork` means that no statement of the `try` block failed: a
failure of `BEGIN`, of the `Work` insert, of the `WorkImage` insert (sent when images are
given), of the read-back or of `COMMIT` never ends in the success payload. -/
theorem createWork_success_no_fault (env : Env) (db : Db) (actor : Nat) (title : String)
    (images : Option (List String)) (body : Body)
    (h : (createWork env db actor title images).out = .json 201 body) :
    env.faults 0 = none ∧ env.faults 1 = none ∧ env.faults 2 = none ∧
    (∀ img imgs, images = some (img :: imgs) → env.faults 3 = none) ∧
    env.faults 4 = none ∧ env.faults 5 = none := by
  unfold createWork at h
  cases h0 : env.faults 0 with
  | some e0 => rw [h0] at h; cases h
  | none =>
    rw [h0] at h
    simp only at h
    unfold createWorkTry at h
    cases h1 : env.faults 1 with
    | some e1 =>
      rw [h1] at h
      simp only at h
      cases h6 : env.faults 6 <;> rw [h6] at h <;> cases h
    | none =>
      rw [h1] at h
      simp only at h
      cases h2 : env.faults 2 with
      | some e2 =>
        rw [h2] at h
        simp only at h
        cases h6 : env.faults 6 <;> rw [h6] at h <;> cases h
      | none =>
        rw [h2] at h
        simp only at h
        generalize insertWork (Session.begin ⟨db.tables, none, db.seq⟩) actor title = r at h
        obtain ⟨s2, res⟩ := r
        cases res with
        | error e =>
          simp only at h
          cases h6 : env.faults 6 <;> rw [h6] at h <;> cases h
        | ok work =>
          simp only at h
          have h3 : ∀ img imgs, images = some (img :: imgs) → env.faults 3 = none ∨
              ∃ e, (insertImagesStep env s2 work.work_id images).2.2 = some e := by
            intro img imgs himg
            subst himg
            unfold insertImagesStep
            cases env.faults 3 with
            | none => exact Or.inl rfl
            | some e => exact Or.inr ⟨e, rfl⟩
          generalize insertImagesStep env s2 work.work_id images = r3 at h h3
          obtain ⟨s3, ev, oe⟩ := r3
          cases oe with
          | some e3 =>
            simp only at h
            cases h6 : env.faults 6 <;> rw [h6] at h <;> cases h
          | none =>
            simp only at h h3
            have h3n : ∀ img imgs, images = some (img :: imgs) → env.faults 3 = none := by
              intro img imgs himg
              rcases h3 img imgs himg with h3 | ⟨e, h3⟩
              · exact h3
              · cases h3
            unfold readBackAndCommit at h
            cases h4 : env.faults 4 with
            | some e4 =>
              rw [h4] at h
              simp only at h
              cases h6 : env.faults 6 <;> rw [h6] at h <;> cases h
            | none =>
              rw [h4] at h
              simp only at h
              cases h5 : env.faults 5 with
              | some e5 =>
                rw [h5] at h
                simp only at h
                cases h6 : env.faults 6 <;> rw [h6] at h <;> cases h
              | none => exact ⟨rfl, rfl, rfl, h3n, rfl, rfl⟩

/-- C21 fails at two steps.  When acquiring the connection fails, which `createWork` does
before its `try` block, and when the `ROLLBACK` of its `catch` block fails, the handler
neither responds nor calls `next`: its promise rejects.  In the second case the error
that `BEGIN` raised is reported to nobody.  When only `BEGIN` fails, that error is forwarded
through `next`. -/
theorem createWork_failure_not_forwarded :
    createWork (downAt 0) sampleDb 1 "Shed" none =
      ⟨sampleDb, .unhandled ⟨"08006", "connection failure"⟩, [.connect]⟩ ∧
    createWork lostEnv sampleDb 1 "Shed" none =
      ⟨sampleDb, .unhandled ⟨"08003", "connection does not exist"⟩,
        [.connect, .begin, .rollback, .release]⟩ ∧
    createWork (downAt 1) sampleDb 1 "Shed" none =
      ⟨sampleDb, .forwarded ⟨"08006", "connection failure"⟩,
        [.connect, .begin, .rollback, .next, .release]⟩ := by
  decide

end HandymanApi
